import Mathlib

/-!
# ACPI processor P-states driver (`drivers/cpufreq/acpi-cpufreq.c`, linux-phc 0.3.2)

A shallow embedding of the driver: the operating-point table, the two register
access backends, the transition controller (`acpi_cpufreq_target`) and the
voltage-override attributes (`phc_vids`, `phc_controls`).

Conventions of the embedding.

* C unsigned integers are natural numbers; a value stored into an
  `unsigned int` is reduced `% 2 ^ 32` at the store.
* A C array is a list; `a[i]` is `List.getD a i d` with an all-zero default `d`.
* A `char *` into the sysfs buffer is the unread suffix of the buffer together
  with its offset from the start; the byte after the written bytes reads as NUL
  (sysfs terminates the buffer), so `count` is the length of the buffer.
* `per_cpu(acfreq_data, cpu)` is a map from core ids to optional runtime state;
  dereferencing a NULL entry is the result `none` of an operation.
* Hardware is an oracle: the `n`-th register read returns `hw_read n`.  Writes,
  reads, delays and transition notifications are recorded in an event log.
* Collaborators that live outside this file of the kernel (frequency
  resolution, table limits, allocation results, platform registration) are
  fields of an environment record `Env`.
-/

namespace AcpiCpufreq

/-! ## Constants -/

def UNDEFINED_CAPABLE : Nat := 0
def SYSTEM_INTEL_MSR_CAPABLE : Nat := 1
def SYSTEM_IO_CAPABLE : Nat := 2

def INTEL_MSR_RANGE : Nat := 0xffff
def INTEL_MSR_VID_MASK : Nat := 0x00ff
def INTEL_MSR_FID_MASK : Nat := 0xff00
def INTEL_MSR_FID_SHIFT : Nat := 0x8

/-- Modelled from the spec: the end-of-table sentinel of `linux/cpufreq.h`
(`~1` as an `unsigned int`), a header that is not part of the driver file. -/
def CPUFREQ_TABLE_END : Nat := 0xfffffffe

/-- Modelled from the spec: the invalid-entry marker of `linux/cpufreq.h`
(`~0` as an `unsigned int`). -/
def CPUFREQ_ENTRY_INVALID : Nat := 0xffffffff

/-- Modelled from the spec: `NoDevice` / `NotSupported` / `UnsupportedPlatform`,
the errno value `ENODEV`. -/
def ENODEV : Int := 19
/-- Modelled from the spec: `InvalidInput`, the errno value `EINVAL`. -/
def EINVAL : Int := 22
/-- Modelled from the spec: `OutOfMemory`, the errno value `ENOMEM`. -/
def ENOMEM : Int := 12
/-- Modelled from the spec: `TransitionTimeout`, the errno value `EAGAIN`. -/
def EAGAIN : Int := 11

/-- Modelled from the spec: coordination policies of `linux/cpufreq.h`
(independent, by hardware, jointly by software, any core). -/
def CPUFREQ_SHARED_TYPE_NONE : Nat := 0
/-- Modelled from the spec: coordination by hardware. -/
def CPUFREQ_SHARED_TYPE_HW : Nat := 1
/-- Modelled from the spec: all cores of the set are written by software. -/
def CPUFREQ_SHARED_TYPE_ALL : Nat := 2
/-- Modelled from the spec: any one core of the set may be written. -/
def CPUFREQ_SHARED_TYPE_ANY : Nat := 3

/-- Modelled from the spec: rounding relation "lowest frequency at or above". -/
def CPUFREQ_RELATION_L : Nat := 0
/-- Modelled from the spec: rounding relation "highest frequency at or below". -/
def CPUFREQ_RELATION_H : Nat := 1

/-- Modelled from the spec: notification kind sent before the hardware write. -/
def CPUFREQ_PRECHANGE : Nat := 0
/-- Modelled from the spec: notification kind sent after the hardware write. -/
def CPUFREQ_POSTCHANGE : Nat := 1

/-- Modelled from the spec: ACPI address-space id of system I/O ports. -/
def ACPI_ADR_SPACE_SYSTEM_IO : Nat := 1
/-- Modelled from the spec: ACPI address-space id of fixed hardware (MSR). -/
def ACPI_ADR_SPACE_FIXED_HARDWARE : Nat := 0x7f

/-- Modelled from the spec: number of the performance status register. -/
def MSR_IA32_PERF_STATUS : Nat := 0x198
/-- Modelled from the spec: number of the performance control register. -/
def MSR_IA32_PERF_CTL : Nat := 0x199

/-- Value of `~INTEL_MSR_VID_MASK` as an `unsigned int`. -/
def NOT_INTEL_MSR_VID_MASK : Nat := 0xffffff00
/-- Value of `~INTEL_MSR_RANGE` as an `unsigned int`. -/
def NOT_INTEL_MSR_RANGE : Nat := 0xffff0000

/-- Truncation of a value stored into an `unsigned int` / `u32`. -/
def u32 (x : Nat) : Nat := x % 2 ^ 32

/-- Wrap-around of arithmetic on `unsigned long` / `acpi_integer` values of 64
bits. -/
def u64 (x : Nat) : Nat := x % 2 ^ 64

/-! ## Data model -/

/-- One platform performance state (`struct acpi_processor_px`). -/
structure acpi_processor_px where
  core_frequency : Nat
  power : Nat
  transition_latency : Nat
  bus_master_latency : Nat
  control : Nat
  status : Nat
deriving DecidableEq

/-- A platform register description (`struct acpi_pct_register`). -/
structure acpi_pct_register where
  space_id : Nat
  bit_width : Nat
  address : Nat
deriving DecidableEq

/-- The platform performance table of one core
(`struct acpi_processor_performance`); `state_count` is the length of `states`. -/
structure acpi_processor_performance where
  state : Nat
  control_register : acpi_pct_register
  status_register : acpi_pct_register
  states : List acpi_processor_px
  shared_type : Nat
  shared_cpu_map : List Nat
deriving DecidableEq

def acpi_processor_performance.state_count (perf : acpi_processor_performance) : Nat :=
  perf.states.length

/-- One slot of the operating-point table (`struct cpufreq_frequency_table`). -/
structure cpufreq_frequency_table where
  index : Nat
  frequency : Nat
deriving DecidableEq

/-- Per-core runtime state (`struct acpi_cpufreq_data`); a NULL pointer field is
`none`. -/
structure acpi_cpufreq_data where
  acpi_data : Option acpi_processor_performance
  freq_table : Option (List cpufreq_frequency_table)
  resume : Nat
  cpu_feature : Nat
  original_controls : Option (List Nat)
deriving DecidableEq

/-- The fields of `struct cpufreq_policy` the driver reads or writes. -/
structure cpufreq_policy where
  cpu : Nat
  cpus : List Nat
  related_cpus : List Nat
  shared_type : Nat
  cur : Nat
  min : Nat
  max : Nat
  cpuinfo_min_freq : Nat
  cpuinfo_max_freq : Nat
  cpuinfo_transition_latency : Nat
deriving DecidableEq

/-- A register command (`struct drv_cmd`); the address union is flattened, the
member that is not selected by `type` is zero. -/
structure drv_cmd where
  type : Nat
  mask : List Nat
  msr_reg : Nat
  io_port : Nat
  io_bit_width : Nat
  val : Nat
deriving DecidableEq

/-- What the driver does to the outside world, in order. -/
inductive Event where
  | notify (cpu old new state : Nat)
  | drv_write (cmd : drv_cmd)
  | drv_read (cmd : drv_cmd)
  | udelay (usecs : Nat)
deriving DecidableEq

/-- The state the driver runs in. -/
structure World where
  acfreq_data : Nat → Option acpi_cpufreq_data
  acpi_pstate_strict : Nat
  blacklisted : Int
  hw_read : Nat → Nat
  nreads : Nat
  log : List Event

def px0 : acpi_processor_px := ⟨0, 0, 0, 0, 0, 0⟩
def entry0 : cpufreq_frequency_table := ⟨0, 0⟩

def World.set_data (w : World) (cpu : Nat) (d : Option acpi_cpufreq_data) : World :=
  { w with acfreq_data := fun c => if c = cpu then d else w.acfreq_data c }

def World.emit (w : World) (es : List Event) : World :=
  { w with log := w.log ++ es }

/-! ## Register access and frequency extraction -/

/-- Lowest core id of a non-empty core set. -/
def cpumask_first (mask : List Nat) : Nat :=
  mask.foldl min (mask.headD 0)

def extract_io_loop (value : Nat) (freq_table : List cpufreq_frequency_table) :
    List acpi_processor_px → Nat → Nat
  | [], _ => 0
  | s :: rest, i =>
    if value = s.status then (freq_table.getD i entry0).frequency
    else extract_io_loop value freq_table rest (i + 1)

/-- Frequency of a raw port value (`extract_io`); the callers have checked that
both pointers of `data` are set. -/
def extract_io (value : Nat) (data : acpi_cpufreq_data) : Nat :=
  match data.acpi_data, data.freq_table with
  | some perf, some freq_table => extract_io_loop value freq_table perf.states 0
  | _, _ => 0

/-- The walk of `extract_msr` over the slots from the current one on; `first`
is `freq_table[0].frequency`.  The walk ends at the sentinel; the end of the
allocation is not passed. -/
def extract_msr_loop (fid : Nat) (perf : acpi_processor_performance) (first : Nat) :
    List cpufreq_frequency_table → Nat
  | [] => first
  | e :: rest =>
    if e.frequency = CPUFREQ_TABLE_END then first
    else if fid = (perf.states.getD e.index px0).status &&& INTEL_MSR_FID_MASK then e.frequency
    else extract_msr_loop fid perf first rest

/-- Frequency of a raw register value (`extract_msr`). -/
def extract_msr (msr : Nat) (data : acpi_cpufreq_data) : Nat :=
  match data.acpi_data, data.freq_table with
  | some perf, some freq_table =>
    extract_msr_loop (msr &&& INTEL_MSR_FID_MASK) perf (freq_table.getD 0 entry0).frequency
      freq_table
  | _, _ => 0

def extract_freq (val : Nat) (data : acpi_cpufreq_data) : Nat :=
  if data.cpu_feature = SYSTEM_INTEL_MSR_CAPABLE then extract_msr val data
  else if data.cpu_feature = SYSTEM_IO_CAPABLE then extract_io val data
  else 0

/-- The register update of `do_drv_write` for the model-register backend:
`(lo, hi)` is the register content, the result is what `wrmsr` stores. -/
def do_drv_write_msr (lo hi val : Nat) : Nat × Nat :=
  ((lo &&& NOT_INTEL_MSR_RANGE) ||| (val &&& INTEL_MSR_RANGE), hi)

/-- One hardware read on some core of the mask (`drv_read`): the value is the
next answer of the hardware, as a `u32`. -/
def drv_read (w : World) (cmd : drv_cmd) : Nat × World :=
  (u32 (w.hw_read w.nreads),
   { w with nreads := w.nreads + 1, log := w.log ++ [Event.drv_read { cmd with val := 0 }] })

/-- The write on every core of the mask (`drv_write`); all of them have
completed when it returns. -/
def drv_write (w : World) (cmd : drv_cmd) : World :=
  w.emit [Event.drv_write cmd]

/-- Current raw value of the core set (`get_cur_val`); `none` is the NULL
dereference of `per_cpu(acfreq_data, cpumask_first(mask))`. -/
def get_cur_val (w : World) (mask : List Nat) : Option (Nat × World) :=
  if mask = [] then some (0, w)
  else
    match w.acfreq_data (cpumask_first mask) with
    | none => none
    | some d =>
      if d.cpu_feature = SYSTEM_INTEL_MSR_CAPABLE then
        some (drv_read w
          { type := SYSTEM_INTEL_MSR_CAPABLE, mask := mask, msr_reg := MSR_IA32_PERF_STATUS,
            io_port := 0, io_bit_width := 0, val := 0 })
      else if d.cpu_feature = SYSTEM_IO_CAPABLE then
        match d.acpi_data with
        | none => none
        | some perf =>
          some (drv_read w
            { type := SYSTEM_IO_CAPABLE, mask := mask, msr_reg := 0,
              io_port := perf.control_register.address % 2 ^ 16,
              io_bit_width := perf.control_register.bit_width % 2 ^ 8, val := 0 })
      else some (0, w)

/-- Frequency the hardware reports for a core (`get_cur_freq_on_cpu`); sets the
resync flag when it differs from the cached one. -/
def get_cur_freq_on_cpu (w : World) (cpu : Nat) : Option (Nat × World) :=
  match w.acfreq_data cpu with
  | none => some (0, w)
  | some data =>
    match data.acpi_data, data.freq_table with
    | some perf, some freq_table =>
      let cached_freq := (freq_table.getD perf.state entry0).frequency
      match get_cur_val w [cpu] with
      | none => none
      | some (val, w1) =>
        let freq := extract_freq val data
        if freq ≠ cached_freq then
          some (freq, w1.set_data cpu (some { data with resume := 1 }))
        else some (freq, w1)
    | _, _ => some (0, w)

/-- The polling loop of `check_freqs` with `n` attempts left. -/
def check_freqs_loop (mask : List Nat) (freq : Nat) (data : acpi_cpufreq_data) :
    Nat → World → Option (Nat × World)
  | 0, w => some (0, w)
  | n + 1, w =>
    match get_cur_val w mask with
    | none => none
    | some (val, w1) =>
      if extract_freq val data = freq then some (1, w1)
      else check_freqs_loop mask freq data n (w1.emit [Event.udelay 10])

def check_freqs (w : World) (mask : List Nat) (freq : Nat) (data : acpi_cpufreq_data) :
    Option (Nat × World) :=
  check_freqs_loop mask freq data 100 w

/-! ## Processor identification -/

/-- Modelled from the spec: the vendor code of Intel processors in
`struct cpuinfo_x86` (`asm/processor.h`, not part of the driver file). -/
def X86_VENDOR_INTEL : Nat := 0

/-- The fields of `struct cpuinfo_x86` the driver reads; `has_est` is
`cpu_has(c, X86_FEATURE_EST)`. -/
structure cpuinfo_x86 where
  x86_vendor : Nat
  x86 : Nat
  x86_model : Nat
  x86_mask : Nat
  has_est : Bool
deriving DecidableEq

def check_est_cpu (c : cpuinfo_x86) : Bool :=
  c.has_est

def acpi_cpufreq_blacklist (c : cpuinfo_x86) : Int :=
  if c.x86_vendor = X86_VENDOR_INTEL then
    if c.x86 = 15 ∧ c.x86_model = 6 ∧ c.x86_mask = 8 then -ENODEV else 0
  else 0

/-! ## Collaborators -/

/-- The collaborators of the driver that are not part of its file. -/
structure Env where
  /-- Resolve a requested frequency and relation to a table index
  (`cpufreq_frequency_table_target`); `none` is a non-zero result. -/
  cpufreq_frequency_table_target :
    cpufreq_policy → List cpufreq_frequency_table → Nat → Nat → Option Nat
  /-- Limits of a table (`cpufreq_frequency_table_cpuinfo`): the result code and
  the minimum and maximum frequency it stores into the policy. -/
  cpufreq_frequency_table_cpuinfo : List cpufreq_frequency_table → Int × Nat × Nat
  /-- Identification of the core (`cpu_data(policy->cpu)`). -/
  cpu_data : cpuinfo_x86
  /-- Whether `kzalloc` of the runtime state succeeds. -/
  kzalloc_ok : Bool
  /-- Result of `acpi_processor_register_performance` and the platform
  performance table it fills in for the core. -/
  acpi_processor_register_performance : Int × acpi_processor_performance
  /-- Whether a quirk table entry matched (`bios_with_sw_any_bug`). -/
  bios_with_sw_any_bug : Bool
  /-- Cores of the package of the core (`cpu_core_mask`). -/
  cpu_core_mask : List Nat
  /-- Content of the slots of the memory `kmalloc` returns for the table, or
  `none` when the allocation fails. -/
  kmalloc_freq_table : Option (Nat → cpufreq_frequency_table)
  /-- Whether `kcalloc` of the snapshot succeeds. -/
  kcalloc_ok : Bool
  /-- Measured core clock (`cpu_khz`). -/
  cpu_khz : Nat

/-! ## Transition controller -/

/-- The core set a transition writes to (`cmd.mask`). -/
def target_mask (policy : cpufreq_policy) : List Nat :=
  if policy.shared_type ≠ CPUFREQ_SHARED_TYPE_ANY then policy.cpus else [policy.cpu]

/-- The command the backend switch of `acpi_cpufreq_target` builds; `none` is
its default branch. -/
def target_cmd (data : acpi_cpufreq_data) (perf : acpi_processor_performance)
    (next_perf_state : Nat) (mask : List Nat) : Option drv_cmd :=
  if data.cpu_feature = SYSTEM_INTEL_MSR_CAPABLE then
    some { type := SYSTEM_INTEL_MSR_CAPABLE, mask := mask, msr_reg := MSR_IA32_PERF_CTL,
           io_port := 0, io_bit_width := 0,
           val := u32 (perf.states.getD next_perf_state px0).control }
  else if data.cpu_feature = SYSTEM_IO_CAPABLE then
    some { type := SYSTEM_IO_CAPABLE, mask := mask, msr_reg := 0,
           io_port := perf.control_register.address % 2 ^ 16,
           io_bit_width := perf.control_register.bit_width % 2 ^ 8,
           val := u32 (perf.states.getD next_perf_state px0).control }
  else none

/-- One notification per core of the policy (`for_each_cpu` over
`policy->cpus`). -/
def target_notify (policy : cpufreq_policy) (old new state : Nat) : List Event :=
  policy.cpus.map fun i => Event.notify i old new state

/-- The end of a transition: the post-change notifications and the store of
the new current state. -/
def target_finish (w : World) (policy : cpufreq_policy) (data : acpi_cpufreq_data)
    (perf : acpi_processor_performance) (old new next_perf_state : Nat) : World :=
  (w.emit (target_notify policy old new CPUFREQ_POSTCHANGE)).set_data policy.cpu
    (some { data with acpi_data := some { perf with state := next_perf_state } })

/-- The write phase of `acpi_cpufreq_target`, from the backend switch on;
`data` and `perf` are the runtime state and platform table of the policy's
core in `w`. -/
def acpi_cpufreq_target_write (w : World) (policy : cpufreq_policy) (data : acpi_cpufreq_data)
    (perf : acpi_processor_performance) (freq_table : List cpufreq_frequency_table)
    (next_state : Nat) : Option (Int × World) :=
  match target_cmd data perf (freq_table.getD next_state entry0).index (target_mask policy) with
  | none => some (-ENODEV, w)
  | some cmd =>
    if (drv_write (w.emit (target_notify policy
          (u32 ((perf.states.getD perf.state px0).core_frequency * 1000))
          (freq_table.getD next_state entry0).frequency CPUFREQ_PRECHANGE)) cmd).acpi_pstate_strict
        ≠ 0 then
      match check_freqs
          (drv_write (w.emit (target_notify policy
            (u32 ((perf.states.getD perf.state px0).core_frequency * 1000))
            (freq_table.getD next_state entry0).frequency CPUFREQ_PRECHANGE)) cmd)
          cmd.mask (freq_table.getD next_state entry0).frequency data with
      | none => none
      | some (ok, w4) =>
        if ok = 0 then some (-EAGAIN, w4)
        else
          some (0, target_finish w4 policy data perf
            (u32 ((perf.states.getD perf.state px0).core_frequency * 1000))
            (freq_table.getD next_state entry0).frequency
            (freq_table.getD next_state entry0).index)
    else
      some (0, target_finish
        (drv_write (w.emit (target_notify policy
          (u32 ((perf.states.getD perf.state px0).core_frequency * 1000))
          (freq_table.getD next_state entry0).frequency CPUFREQ_PRECHANGE)) cmd)
        policy data perf
        (u32 ((perf.states.getD perf.state px0).core_frequency * 1000))
        (freq_table.getD next_state entry0).frequency
        (freq_table.getD next_state entry0).index)

/-- The transition request of the framework (`acpi_cpufreq_target`). -/
def acpi_cpufreq_target (env : Env) (w : World) (policy : cpufreq_policy)
    (target_freq relation : Nat) : Option (Int × World) :=
  match w.acfreq_data policy.cpu with
  | none => some (-ENODEV, w)
  | some data =>
    match data.acpi_data, data.freq_table with
    | some perf, some freq_table =>
      match env.cpufreq_frequency_table_target policy freq_table target_freq relation with
      | none => some (-ENODEV, w)
      | some next_state =>
        if perf.state = (freq_table.getD next_state entry0).index then
          if data.resume ≠ 0 then
            acpi_cpufreq_target_write
              (w.set_data policy.cpu (some { data with resume := 0 })) policy
              { data with resume := 0 } perf freq_table next_state
          else some (0, w)
        else acpi_cpufreq_target_write w policy data perf freq_table next_state
    | _, _ => some (-ENODEV, w)

/-- The resume callback (`acpi_cpufreq_resume`); `none` is the NULL dereference
of a core without runtime state. -/
def acpi_cpufreq_resume (w : World) (policy : cpufreq_policy) : Option (Int × World) :=
  match w.acfreq_data policy.cpu with
  | none => none
  | some data => some (0, w.set_data policy.cpu (some { data with resume := 1 }))

/-! ## Initialisation -/

/-- Guess of the running state for the port backend (`acpi_cpufreq_guess_freq`):
the scan from state `i` on, `freqn` being the frequency of state `i`; `rest` are
the states after `i`.  The result is the new `perf->state` and the frequency
(an `unsigned long` of 64 bits). -/
def acpi_cpufreq_guess_freq_loop (cpu_khz : Nat) :
    List acpi_processor_px → Nat → Nat → Nat × Nat
  | [], i, freqn => (i, freqn)
  | s :: rest, i, freqn =>
    let freq := freqn
    let freqn1 := u64 (s.core_frequency * 1000)
    if u32 (2 * cpu_khz) > u64 (freqn1 + freq) then (i, freq)
    else acpi_cpufreq_guess_freq_loop cpu_khz rest (i + 1) freqn1

def acpi_cpufreq_guess_freq (env : Env) (perf : acpi_processor_performance) : Nat × Nat :=
  if env.cpu_khz ≠ 0 then
    acpi_cpufreq_guess_freq_loop env.cpu_khz perf.states.tail 0
      (u64 ((perf.states.getD 0 px0).core_frequency * 1000))
  else (0, u64 ((perf.states.getD 0 px0).core_frequency * 1000))

/-- The table-building loop of `acpi_cpufreq_cpu_init`: `i` is the platform
index of the head of the remaining states, the result is the table and
`valid_states`. -/
def table_init_loop : List acpi_processor_px → Nat → List cpufreq_frequency_table → Nat →
    List cpufreq_frequency_table × Nat
  | [], _, freq_table, valid_states => (freq_table, valid_states)
  | s :: rest, i, freq_table, valid_states =>
    if i > 0 ∧ s.core_frequency ≥ (freq_table.getD (valid_states - 1) entry0).frequency / 1000 then
      table_init_loop rest (i + 1) freq_table valid_states
    else
      table_init_loop rest (i + 1)
        (freq_table.set valid_states ⟨i, u32 (s.core_frequency * 1000)⟩) (valid_states + 1)

/-- The table of `acpi_cpufreq_cpu_init` (the loop and the sentinel store) on
freshly allocated slots `mem`, with the number of accepted entries. -/
def table_init (perf : acpi_processor_performance) (mem : List cpufreq_frequency_table) :
    List cpufreq_frequency_table × Nat :=
  let r := table_init_loop perf.states 0 mem 0
  (r.1.set r.2 { r.1.getD r.2 entry0 with frequency := CPUFREQ_TABLE_END }, r.2)

def transition_latency_loop : List acpi_processor_px → Nat → Nat
  | [], lat => lat
  | s :: rest, lat =>
    if u64 (s.transition_latency * 1000) > lat then
      transition_latency_loop rest (u32 (u64 (s.transition_latency * 1000)))
    else transition_latency_loop rest lat

/-- The coordination fields `acpi_cpufreq_cpu_init` stores into the policy. -/
def init_policy_cpus (env : Env) (perf : acpi_processor_performance) (policy : cpufreq_policy) :
    cpufreq_policy :=
  let policy := { policy with shared_type := perf.shared_type }
  let policy :=
    if policy.shared_type = CPUFREQ_SHARED_TYPE_ALL ∨
        policy.shared_type = CPUFREQ_SHARED_TYPE_ANY then
      { policy with cpus := perf.shared_cpu_map }
    else policy
  let policy := { policy with related_cpus := perf.shared_cpu_map }
  if env.bios_with_sw_any_bug ∧ policy.cpus.length = 1 then
    { policy with shared_type := CPUFREQ_SHARED_TYPE_ALL, cpus := env.cpu_core_mask }
  else policy

/-- The capability check and the backend switch of `acpi_cpufreq_cpu_init`:
the backend of the core, or `none` where the code leaves with `-ENODEV`. -/
def init_cpu_feature (env : Env) (perf : acpi_processor_performance) : Option Nat :=
  if perf.state_count ≤ 1 then none
  else if perf.control_register.space_id ≠ perf.status_register.space_id then none
  else if perf.control_register.space_id = ACPI_ADR_SPACE_SYSTEM_IO then some SYSTEM_IO_CAPABLE
  else if perf.control_register.space_id = ACPI_ADR_SPACE_FIXED_HARDWARE then
    if ¬ check_est_cpu env.cpu_data then none else some SYSTEM_INTEL_MSR_CAPABLE
  else none

/-- The transition latency `acpi_cpufreq_cpu_init` stores into the policy. -/
def init_transition_latency (perf : acpi_processor_performance) : Nat :=
  if perf.control_register.space_id = ACPI_ADR_SPACE_FIXED_HARDWARE ∧
      transition_latency_loop perf.states 0 > 20 * 1000 then 20 * 1000
  else transition_latency_loop perf.states 0

/-- The rest of `acpi_cpufreq_cpu_init` once the backend is selected and the
table memory `mem` is allocated: the table, its limits, the current state and
the resync flag. -/
def init_activate (env : Env) (w : World) (policy : cpufreq_policy)
    (perf : acpi_processor_performance) (cpu_feature : Nat)
    (mem : Nat → cpufreq_frequency_table) : Option (Int × World × cpufreq_policy) :=
  let freq_table := (table_init perf ((List.range (perf.state_count + 1)).map mem)).1
  let info := env.cpufreq_frequency_table_cpuinfo freq_table
  let policy :=
    { policy with cpuinfo_transition_latency := init_transition_latency perf,
                  min := info.2.1, cpuinfo_min_freq := info.2.1,
                  max := info.2.2, cpuinfo_max_freq := info.2.2 }
  if info.1 ≠ 0 then some (info.1, w.set_data policy.cpu none, policy)
  else if perf.control_register.space_id = ACPI_ADR_SPACE_SYSTEM_IO then
    some (0,
      w.set_data policy.cpu (some
        { acpi_data := some { perf with state := (acpi_cpufreq_guess_freq env perf).1 },
          freq_table := some freq_table, resume := 1, cpu_feature := cpu_feature,
          original_controls := none }),
      { policy with cur := u32 (acpi_cpufreq_guess_freq env perf).2 })
  else
    match get_cur_freq_on_cpu
        (w.set_data policy.cpu (some
          { acpi_data := some { perf with state := 0 }, freq_table := some freq_table,
            resume := 0, cpu_feature := cpu_feature, original_controls := none }))
        policy.cpu with
    | none => none
    | some (cur, w1) =>
      some (0,
        w1.set_data policy.cpu (some
          { acpi_data := some { perf with state := 0 }, freq_table := some freq_table,
            resume := 1, cpu_feature := cpu_feature, original_controls := none }),
        { policy with cur := cur })

/-- Bring a core under control (`acpi_cpufreq_cpu_init`).  The result is the
return value, the world and the policy. -/
def acpi_cpufreq_cpu_init (env : Env) (w : World) (policy : cpufreq_policy) :
    Option (Int × World × cpufreq_policy) :=
  if w.blacklisted ≠ 0 then some (w.blacklisted, w, policy)
  else if acpi_cpufreq_blacklist env.cpu_data ≠ 0 then
    some (acpi_cpufreq_blacklist env.cpu_data,
      { w with blacklisted := acpi_cpufreq_blacklist env.cpu_data }, policy)
  else if ¬ env.kzalloc_ok then
    some (-ENOMEM, { w with blacklisted := acpi_cpufreq_blacklist env.cpu_data }, policy)
  else if env.acpi_processor_register_performance.1 ≠ 0 then
    some (env.acpi_processor_register_performance.1,
      { w with blacklisted := acpi_cpufreq_blacklist env.cpu_data }.set_data policy.cpu none, policy)
  else
    match init_cpu_feature env env.acpi_processor_register_performance.2 with
    | none =>
      some (-ENODEV,
        { w with blacklisted := acpi_cpufreq_blacklist env.cpu_data }.set_data policy.cpu none,
        init_policy_cpus env env.acpi_processor_register_performance.2 policy)
    | some cpu_feature =>
      match env.kmalloc_freq_table with
      | none =>
        some (-ENOMEM,
          { w with blacklisted := acpi_cpufreq_blacklist env.cpu_data }.set_data policy.cpu none,
          init_policy_cpus env env.acpi_processor_register_performance.2 policy)
      | some mem =>
        init_activate env { w with blacklisted := acpi_cpufreq_blacklist env.cpu_data }
          (init_policy_cpus env env.acpi_processor_register_performance.2 policy)
          env.acpi_processor_register_performance.2 cpu_feature mem

/-! ## Voltage override attributes -/

def extract_fid_from_control (control : Nat) : Nat :=
  (control &&& INTEL_MSR_FID_MASK) >>> INTEL_MSR_FID_SHIFT

def extract_vid_from_control (control : Nat) : Nat :=
  control &&& INTEL_MSR_VID_MASK

def check_cpu_control_capability (data : Option acpi_cpufreq_data) : Bool :=
  match data with
  | none => false
  | some d =>
    if d.acpi_data = none ∨ d.freq_table = none ∨ d.cpu_feature ≠ SYSTEM_INTEL_MSR_CAPABLE then
      false
    else true

/-- Take the snapshot of the control values on first use (`check_origial_table`);
the result is the return value and the runtime state. -/
def check_origial_table (env : Env) (data : acpi_cpufreq_data)
    (acpi_data : acpi_processor_performance) : Int × acpi_cpufreq_data :=
  match data.original_controls with
  | none =>
    if ¬ env.kcalloc_ok then (-ENOMEM, data)
    else (0, { data with original_controls := some (acpi_data.states.map fun s => s.control) })
  | some _ => (0, data)

/-- Output of `"%u"`. -/
def sprintf_u (n : Nat) : List Char := Nat.toDigits 10 n

/-- The walk of an attribute read over the table slots: `field` projects a slot
to the text printed for it. -/
def show_loop (field : cpufreq_frequency_table → List Char) :
    List cpufreq_frequency_table → List Char
  | [] => []
  | e :: rest =>
    if e.frequency = CPUFREQ_TABLE_END then []
    else field e ++ show_loop field rest

/-- Common shape of the attribute reads: return value and buffer content. -/
def show_result (body : List Char) : Int × List Char :=
  (((body ++ ['\n']).length : Nat), body ++ ['\n'])

def show_freq_attr_vids (w : World) (policy : cpufreq_policy) : Int × List Char × World :=
  match w.acfreq_data policy.cpu with
  | none => (-ENODEV, [], w)
  | some data =>
    match data.acpi_data, data.freq_table with
    | some acpi_data, some freq_table =>
      if data.cpu_feature ≠ SYSTEM_INTEL_MSR_CAPABLE then (-ENODEV, [], w)
      else
        let r := show_result (show_loop (fun e =>
          sprintf_u (extract_vid_from_control (u32 (acpi_data.states.getD e.index px0).control))
            ++ [' ']) freq_table)
        (r.1, r.2, w)
    | _, _ => (-ENODEV, [], w)

def show_freq_attr_fids (w : World) (policy : cpufreq_policy) : Int × List Char × World :=
  match w.acfreq_data policy.cpu with
  | none => (-ENODEV, [], w)
  | some data =>
    match data.acpi_data, data.freq_table with
    | some acpi_data, some freq_table =>
      if data.cpu_feature ≠ SYSTEM_INTEL_MSR_CAPABLE then (-ENODEV, [], w)
      else
        let r := show_result (show_loop (fun e =>
          sprintf_u (extract_fid_from_control (u32 (acpi_data.states.getD e.index px0).control))
            ++ [' ']) freq_table)
        (r.1, r.2, w)
    | _, _ => (-ENODEV, [], w)

def show_freq_attr_controls (w : World) (policy : cpufreq_policy) : Int × List Char × World :=
  match w.acfreq_data policy.cpu with
  | none => (-ENODEV, [], w)
  | some data =>
    match data.acpi_data, data.freq_table with
    | some acpi_data, some freq_table =>
      if data.cpu_feature ≠ SYSTEM_INTEL_MSR_CAPABLE then (-ENODEV, [], w)
      else
        let r := show_result (show_loop (fun e =>
          sprintf_u (extract_fid_from_control (u32 (acpi_data.states.getD e.index px0).control))
            ++ [':']
            ++ sprintf_u
              (extract_vid_from_control (u32 (acpi_data.states.getD e.index px0).control))
            ++ [' ']) freq_table)
        (r.1, r.2, w)
    | _, _ => (-ENODEV, [], w)

def show_freq_attr_default_vids (env : Env) (w : World) (policy : cpufreq_policy) :
    Int × List Char × World :=
  match w.acfreq_data policy.cpu with
  | none => (-ENODEV, [], w)
  | some data =>
    match data.acpi_data, data.freq_table with
    | some acpi_data, some freq_table =>
      if data.cpu_feature ≠ SYSTEM_INTEL_MSR_CAPABLE then (-ENODEV, [], w)
      else
        let c := check_origial_table env data acpi_data
        if c.1 ≠ 0 then (c.1, [], w.set_data policy.cpu (some c.2))
        else
          let original_controls := c.2.original_controls.getD []
          let r := show_result (show_loop (fun e =>
            sprintf_u (extract_vid_from_control (u32 (original_controls.getD e.index 0)))
              ++ [' ']) freq_table)
          (r.1, r.2, w.set_data policy.cpu (some c.2))
    | _, _ => (-ENODEV, [], w)

def show_freq_attr_default_controls (env : Env) (w : World) (policy : cpufreq_policy) :
    Int × List Char × World :=
  match w.acfreq_data policy.cpu with
  | none => (-ENODEV, [], w)
  | some data =>
    match data.acpi_data, data.freq_table with
    | some acpi_data, some freq_table =>
      if data.cpu_feature ≠ SYSTEM_INTEL_MSR_CAPABLE then (-ENODEV, [], w)
      else
        let c := check_origial_table env data acpi_data
        if c.1 ≠ 0 then (c.1, [], w.set_data policy.cpu (some c.2))
        else
          let original_controls := c.2.original_controls.getD []
          let r := show_result (show_loop (fun e =>
            sprintf_u (extract_fid_from_control (u32 (original_controls.getD e.index 0)))
              ++ [':']
              ++ sprintf_u (extract_vid_from_control (u32 (original_controls.getD e.index 0)))
              ++ [' ']) freq_table)
          (r.1, r.2, w.set_data policy.cpu (some c.2))
    | _, _ => (-ENODEV, [], w)

/-! ## Attribute writes -/

def NUL : Char := Char.ofNat 0

/-- The byte a buffer pointer points to; past the written bytes it is NUL. -/
def deref (p : List Char) : Char := p.headD NUL

def isdigit (c : Char) : Bool := decide ('0' ≤ c) && decide (c ≤ '9')

/-- Modelled from the spec: the digit loop of `simple_strtoul` (`lib/vsprintf.c`,
not part of the driver file) for base 10: `result` is the value so far and `n`
the number of characters consumed. -/
def simple_strtoul_loop : List Char → Nat → Nat → Nat × Nat
  | [], result, n => (result, n)
  | c :: rest, result, n =>
    if isdigit c then simple_strtoul_loop rest (result * 10 + (c.toNat - '0'.toNat)) (n + 1)
    else (result, n)

/-- Modelled from the spec: `simple_strtoul(cp, &endp, 10)`: the value of the
leading decimal digits of `cp` and the number of characters consumed, so that
`endp` is `cp` advanced by that number; nothing is skipped before the digits.
The value is reduced to its integer width where it is stored. -/
def simple_strtoul (cp : List Char) : Nat × Nat :=
  simple_strtoul_loop cp 0 0

/-- The separator loop of `store_freq_attr_vids`: `off` is `curr_buf - buf`. -/
def skip_separators (count : Nat) : List Char → Nat → List Char × Nat
  | [], off => ([], off)
  | c :: rest, off =>
    if off < count ∧ (c = ' ' ∨ c = ',') then skip_separators count rest (off + 1)
    else (c :: rest, off)

/-- Outcome of the token loop of `store_freq_attr_vids`: whether it ended
without a parse failure, the final `curr_buf - buf` and the platform states. -/
structure VidsLoop where
  ok : Bool
  off : Nat
  states : List acpi_processor_px
deriving DecidableEq

/-- The token loop of `store_freq_attr_vids` over the table slots from
`freq_index` on.  The walk ends at the sentinel; the end of the allocation is
not passed. -/
def store_freq_attr_vids_loop (count : Nat) (original_controls : List Nat) :
    List cpufreq_frequency_table → List Char → Nat → List acpi_processor_px → VidsLoop
  | [], _, off, states => ⟨true, off, states⟩
  | e :: rest, curr_buf, off, states =>
    if e.frequency = CPUFREQ_TABLE_END then ⟨true, off, states⟩
    else
      let r := simple_strtoul curr_buf
      let new_vid := u32 r.1
      if r.2 = 0 then
        if off + 1 = count ∧ deref curr_buf = '\n' then ⟨true, off + 1, states⟩
        else ⟨false, off, states⟩
      else
        let state_index := e.index
        let original_control := u32 (original_controls.getD state_index 0)
        let original_vid := original_control &&& INTEL_MSR_VID_MASK
        let states1 :=
          if new_vid ≤ original_vid then
            states.set state_index
              { states.getD state_index px0 with
                control := (original_control &&& NOT_INTEL_MSR_VID_MASK) ||| new_vid }
          else states
        let p := skip_separators count (curr_buf.drop r.2) (off + r.2)
        store_freq_attr_vids_loop count original_controls rest p.1 p.2 states1

/-- Write of the ordered voltage-id list (`store_freq_attr_vids`). -/
def store_freq_attr_vids (env : Env) (w : World) (policy : cpufreq_policy) (buf : List Char) :
    Option (Int × World) :=
  match w.acfreq_data policy.cpu with
  | none => some (-ENODEV, w)
  | some data =>
    match data.acpi_data, data.freq_table with
    | some acpi_data, some freq_table =>
      if data.cpu_feature ≠ SYSTEM_INTEL_MSR_CAPABLE then some (-ENODEV, w)
      else
        let c := check_origial_table env data acpi_data
        if c.1 ≠ 0 then some (c.1, w.set_data policy.cpu (some c.2))
        else
          let data := c.2
          let r := store_freq_attr_vids_loop buf.length (data.original_controls.getD [])
            freq_table buf 0 acpi_data.states
          let data := { data with acpi_data := some { acpi_data with states := r.states } }
          if ¬ r.ok then some (-EINVAL, w.set_data policy.cpu (some data))
          else
            let w1 := w.set_data policy.cpu (some { data with resume := 1 })
            match get_cur_freq_on_cpu w1 policy.cpu with
            | none => none
            | some (freq, w2) =>
              match acpi_cpufreq_target env w2 policy freq CPUFREQ_RELATION_L with
              | none => none
              | some (_, w3) => some ((r.off : Nat), w3)
    | _, _ => some (-ENODEV, w)

/-- The scan of `store_freq_attr_controls` over the platform states from
`state_index` on for one pair: the result is `found` and the states. -/
def store_freq_attr_controls_states (original_controls : List Nat) (new_fid new_vid : Nat) :
    List acpi_processor_px → Nat → Bool → Bool × List acpi_processor_px
  | [], _, found => (found, [])
  | s :: rest, state_index, found =>
    let old_control := u32 s.control
    let old_fid := extract_fid_from_control old_control
    if new_fid = old_fid then
      let original_control := u32 (original_controls.getD state_index 0)
      let original_vid := extract_vid_from_control original_control
      let s1 :=
        if new_vid ≤ original_vid then
          { s with control := (original_control &&& NOT_INTEL_MSR_VID_MASK) ||| new_vid }
        else s
      let r := store_freq_attr_controls_states original_controls new_fid new_vid rest
        (state_index + 1) true
      (r.1, s1 :: r.2)
    else
      let r := store_freq_attr_controls_states original_controls new_fid new_vid rest
        (state_index + 1) found
      (r.1, s :: r.2)

/-- The pair loop of `store_freq_attr_controls`, entered with `isok` set and
`curr_buf` not NULL; `fuel` bounds the number of iterations and `none` is its
exhaustion.  The result is `isok` and the platform states. -/
def store_freq_attr_controls_loop (original_controls : List Nat) :
    Nat → List Char → List acpi_processor_px → Option (Bool × List acpi_processor_px)
  | 0, _, _ => none
  | fuel + 1, curr_buf, states =>
    let r := simple_strtoul curr_buf
    let new_fid := u32 r.1
    if r.2 ≠ 0 then
      let curr_buf := curr_buf.drop r.2
      if deref curr_buf = ':' then
        let curr_buf := curr_buf.tail
        let r := simple_strtoul curr_buf
        let new_vid := u32 r.1
        if r.2 ≠ 0 then
          let s := store_freq_attr_controls_states original_controls new_fid new_vid states 0 false
          let isok := s.1
          let curr_buf := curr_buf.drop r.2
          if deref curr_buf = ',' ∨ deref curr_buf = ' ' then
            if isok then store_freq_attr_controls_loop original_controls fuel curr_buf.tail s.2
            else some (false, s.2)
          else some (isok, s.2)
        else some (false, states)
      else some (false, states)
    else some (false, states)

/-- Write of the `fid:vid` pairs (`store_freq_attr_controls`).  Every iteration
of the pair loop that continues consumes a character of the buffer, so
`buf.length + 1` iterations are enough. -/
def store_freq_attr_controls (env : Env) (w : World) (policy : cpufreq_policy)
    (buf : List Char) : Option (Int × World) :=
  match w.acfreq_data policy.cpu with
  | none => some (-ENODEV, w)
  | some data =>
    match data.acpi_data, data.freq_table with
    | some acpi_data, some _ =>
      if data.cpu_feature ≠ SYSTEM_INTEL_MSR_CAPABLE then some (-ENODEV, w)
      else
        let c := check_origial_table env data acpi_data
        if c.1 ≠ 0 then some (c.1, w.set_data policy.cpu (some c.2))
        else
          let data := c.2
          match store_freq_attr_controls_loop (data.original_controls.getD [])
              (buf.length + 1) buf acpi_data.states with
          | none => none
          | some r =>
            let data := { data with acpi_data := some { acpi_data with states := r.2 } }
            if r.1 then
              let w1 := w.set_data policy.cpu (some { data with resume := 1 })
              match get_cur_freq_on_cpu w1 policy.cpu with
              | none => none
              | some (freq, w2) =>
                match acpi_cpufreq_target env w2 policy freq CPUFREQ_RELATION_L with
                | none => none
                | some (_, w3) => some ((buf.length : Nat), w3)
            else some (-EINVAL, w.set_data policy.cpu (some data))
    | _, _ => some (-ENODEV, w)

/-! ## Predicates and harness of the properties -/

/-- The runtime state with the resync flag and the current state blanked: what
the transition controller never changes. -/
def strip (d : acpi_cpufreq_data) : acpi_cpufreq_data :=
  { d with resume := 0, acpi_data := d.acpi_data.map fun p => { p with state := 0 } }

/-- Two worlds whose runtime states agree except for resync flags and current
states. -/
def same_tables (w w1 : World) : Prop :=
  ∀ c, (w1.acfreq_data c).map strip = (w.acfreq_data c).map strip

/-- A platform state respects snapshot entry `o`: its voltage-id does not exceed
the one of `o` and its frequency-id is the one of `o`. -/
def vid_ok (o : Nat) (s : acpi_processor_px) : Prop :=
  extract_vid_from_control s.control ≤ extract_vid_from_control o ∧
  extract_fid_from_control s.control = extract_fid_from_control o

/-- The core set a transition polls has runtime state on its first core: it is
empty or starts with the policy's own core. -/
def policy_first (policy : cpufreq_policy) : Prop :=
  target_mask policy = [] ∨ cpumask_first (target_mask policy) = policy.cpu

/-- The runtime state respects the platform's control values `orig`: either no
snapshot has been taken and the control values are still `orig`, or the
snapshot is `orig` and every state respects its entry. -/
def snapshot_inv (orig : List Nat) (d : acpi_cpufreq_data) : Prop :=
  ∃ perf, d.acpi_data = some perf ∧
    ((d.original_controls = none ∧ perf.states.map (fun s => s.control) = orig) ∨
     (d.original_controls = some orig ∧ List.Forall₂ vid_ok orig perf.states))

/-- The invariant of the voltage override of a core. -/
def vid_bounded (orig : List Nat) (w : World) (cpu : Nat) : Prop :=
  ∃ d, w.acfreq_data cpu = some d ∧ snapshot_inv orig d

/-- One operator write to a voltage attribute. -/
inductive VoltageWrite where
  | vids (buf : List Char)
  | controls (buf : List Char)

def voltage_write (env : Env) (w : World) (policy : cpufreq_policy) :
    VoltageWrite → Option (Int × World)
  | VoltageWrite.vids buf => store_freq_attr_vids env w policy buf
  | VoltageWrite.controls buf => store_freq_attr_controls env w policy buf

/-- A sequence of operator writes, each with the collaborators of its call. -/
def voltage_writes (policy : cpufreq_policy) : World → List (Env × VoltageWrite) → Option World
  | w, [] => some w
  | w, c :: rest =>
    match voltage_write c.1 w policy c.2 with
    | none => none
    | some r => voltage_writes policy r.2 rest

/-! ## A concrete platform -/

/-- Modelled from the spec: the generic resolution of a requested frequency to
a table index (`cpufreq_frequency_table_target` of `drivers/cpufreq/freq_table.c`,
not part of the driver file): among the entries within the policy limits, the
lowest frequency at or above the target for relation L, the highest at or below
it for relation H, and the nearest entry of the other side when there is none.
`optimal` and `suboptimal` are pairs of index and frequency, `i` is the index
of the head of the remaining slots. -/
def table_target_loop (policy : cpufreq_policy) (target_freq relation : Nat) :
    List cpufreq_frequency_table → Nat → Nat × Nat → Nat × Nat → Nat × (Nat × Nat) × (Nat × Nat)
  | [], i, optimal, suboptimal => (i, optimal, suboptimal)
  | e :: rest, i, optimal, suboptimal =>
    if e.frequency = CPUFREQ_TABLE_END then (i, optimal, suboptimal)
    else if e.frequency = CPUFREQ_ENTRY_INVALID then
      table_target_loop policy target_freq relation rest (i + 1) optimal suboptimal
    else if e.frequency < policy.min ∨ e.frequency > policy.max then
      table_target_loop policy target_freq relation rest (i + 1) optimal suboptimal
    else if relation = CPUFREQ_RELATION_H then
      if e.frequency ≤ target_freq then
        table_target_loop policy target_freq relation rest (i + 1)
          (if e.frequency ≥ optimal.2 then (i, e.frequency) else optimal) suboptimal
      else
        table_target_loop policy target_freq relation rest (i + 1) optimal
          (if e.frequency ≤ suboptimal.2 then (i, e.frequency) else suboptimal)
    else if relation = CPUFREQ_RELATION_L then
      if e.frequency ≥ target_freq then
        table_target_loop policy target_freq relation rest (i + 1)
          (if e.frequency ≤ optimal.2 then (i, e.frequency) else optimal) suboptimal
      else
        table_target_loop policy target_freq relation rest (i + 1) optimal
          (if e.frequency ≥ suboptimal.2 then (i, e.frequency) else suboptimal)
    else table_target_loop policy target_freq relation rest (i + 1) optimal suboptimal

/-- Modelled from the spec: `cpufreq_frequency_table_target` for an online
core; `none` is its error result. -/
def table_target_model (policy : cpufreq_policy) (table : List cpufreq_frequency_table)
    (target_freq relation : Nat) : Option Nat :=
  let r := table_target_loop policy target_freq relation table 0
    (0xffffffff, if relation = CPUFREQ_RELATION_L then 0xffffffff else 0)
    (0xffffffff, if relation = CPUFREQ_RELATION_H then 0xffffffff else 0)
  if r.2.1.1 > r.1 then
    if r.2.2.1 > r.1 then none else some r.2.2.1
  else some r.2.1.1

def table_cpuinfo_loop : List cpufreq_frequency_table → Nat → Nat → Nat × Nat
  | [], min_freq, max_freq => (min_freq, max_freq)
  | e :: rest, min_freq, max_freq =>
    if e.frequency = CPUFREQ_TABLE_END then (min_freq, max_freq)
    else if e.frequency = CPUFREQ_ENTRY_INVALID then table_cpuinfo_loop rest min_freq max_freq
    else
      table_cpuinfo_loop rest (if e.frequency < min_freq then e.frequency else min_freq)
        (if e.frequency > max_freq then e.frequency else max_freq)

/-- Modelled from the spec: the limits of a table
(`cpufreq_frequency_table_cpuinfo` of `drivers/cpufreq/freq_table.c`, not part
of the driver file): the minimum and maximum frequency of the valid entries,
and the error `EINVAL` only when the table has no valid entry. -/
def table_cpuinfo_model (table : List cpufreq_frequency_table) : Int × Nat × Nat :=
  let r := table_cpuinfo_loop table 0xffffffff 0
  (if r.1 = 0xffffffff then -EINVAL else 0, r.1, r.2)

/-- The platform of the example of the spec: three states of 3000, 2600 and
2200 MHz with the control values 0x0803, 0x0602 and 0x0401, in fixed-hardware
space. -/
def ex_perf : acpi_processor_performance :=
  { state := 0,
    control_register := ⟨ACPI_ADR_SPACE_FIXED_HARDWARE, 0, 0⟩,
    status_register := ⟨ACPI_ADR_SPACE_FIXED_HARDWARE, 0, 0⟩,
    states := [⟨3000, 0, 10, 10, 0x0803, 0x0803⟩, ⟨2600, 0, 10, 10, 0x0602, 0x0602⟩,
               ⟨2200, 0, 10, 10, 0x0401, 0x0401⟩],
    shared_type := CPUFREQ_SHARED_TYPE_NONE, shared_cpu_map := [0] }

/-- Collaborators that all succeed, on the example platform. -/
def ex_env : Env :=
  { cpufreq_frequency_table_target := table_target_model,
    cpufreq_frequency_table_cpuinfo := table_cpuinfo_model,
    cpu_data := ⟨X86_VENDOR_INTEL, 6, 15, 6, true⟩, kzalloc_ok := true,
    acpi_processor_register_performance := (0, ex_perf),
    bios_with_sw_any_bug := false, cpu_core_mask := [0],
    kmalloc_freq_table := some fun _ => ⟨0, 0⟩, kcalloc_ok := true, cpu_khz := 0 }

def ex_table : List cpufreq_frequency_table :=
  [⟨0, 3000000⟩, ⟨1, 2600000⟩, ⟨2, 2200000⟩, ⟨0, CPUFREQ_TABLE_END⟩]

/-- Runtime state of core 0 on the example platform, as initialisation leaves
it. -/
def ex_data : acpi_cpufreq_data :=
  { acpi_data := some ex_perf, freq_table := some ex_table, resume := 1,
    cpu_feature := SYSTEM_INTEL_MSR_CAPABLE, original_controls := none }

def ex_policy : cpufreq_policy :=
  { cpu := 0, cpus := [0], related_cpus := [0], shared_type := CPUFREQ_SHARED_TYPE_NONE,
    cur := 3000000, min := 2200000, max := 3000000, cpuinfo_min_freq := 2200000,
    cpuinfo_max_freq := 3000000, cpuinfo_transition_latency := 10000 }

/-- Core 0 under control on the example platform; the hardware answers every
read with `raw`. -/
def ex_world (raw strict : Nat) : World :=
  { acfreq_data := fun c => if c = 0 then some ex_data else none,
    acpi_pstate_strict := strict, blacklisted := 0, hw_read := fun _ => raw, nreads := 0,
    log := [] }

/-- The control values of the platform states of a core. -/
def control_values (w : World) (cpu : Nat) : List Nat :=
  match w.acfreq_data cpu with
  | none => []
  | some d =>
    match d.acpi_data with
    | none => []
    | some perf => perf.states.map fun s => s.control

/-- A platform whose two states share one frequency, in system I/O space. -/
def flat_perf : acpi_processor_performance :=
  { state := 0,
    control_register := ⟨ ACPI_ADR_SPACE_SYSTEM_IO, 8, 0xb2⟩,
    status_register := ⟨ ACPI_ADR_SPACE_SYSTEM_IO, 8, 0xb3⟩,
    states := [⟨2000, 0, 10, 10, 0x83, 0x00⟩, ⟨2000, 0, 10, 10, 0x84, 0x01⟩],
    shared_type := CPUFREQ_SHARED_TYPE_NONE, shared_cpu_map := [0] }

/-- Collaborators that all succeed, on the platform `flat_perf`. -/
def flat_env : Env :=
  { ex_env with acpi_processor_register_performance := (0, flat_perf) }

/-- A world in which no core is under control yet. -/
def boot_world : World :=
  { acfreq_data := fun _ => none, acpi_pstate_strict := 0, blacklisted := 0,
    hw_read := fun _ => 0x0803, nreads := 0, log := [] }

/-- The table of a core, as far as the driver has one. -/
def table_of (w : World) (cpu : Nat) : List cpufreq_frequency_table :=
  match w.acfreq_data cpu with
  | none => []
  | some d => d.freq_table.getD []

/-! ## Well-formed operator input -/

/-- The value of a string of decimal digits. -/
def decimal (ds : List Char) : Nat :=
  ds.foldl (fun r c => r * 10 + (c.toNat - '0'.toNat)) 0

/-- A numeric token: a non-empty string of decimal digits. -/
def is_number (ds : List Char) : Prop :=
  ds ≠ [] ∧ ∀ c ∈ ds, isdigit c = true

/-- The text at a pointer does not continue a number. -/
def stops (rest : List Char) : Prop :=
  isdigit (deref rest) = false

def is_separator (c : Char) : Prop :=
  c = ' ' ∨ c = ','

/-- One `fid:vid` pair of the operator input, as its two numeric tokens. -/
structure PairText where
  fid : List Char
  vid : List Char

def PairText.text (p : PairText) : List Char :=
  p.fid ++ ':' :: p.vid

def PairText.ok (p : PairText) : Prop :=
  is_number p.fid ∧ is_number p.vid

/-- The frequency-id a pair names, as the `unsigned int` the driver reads. -/
def PairText.new_fid (p : PairText) : Nat := u32 (decimal p.fid)

/-- The voltage-id a pair asks for, as the `unsigned int` the driver reads. -/
def PairText.new_vid (p : PairText) : Nat := u32 (decimal p.vid)

/-- The text of a list of pairs, each followed by its separator character. -/
def pairs_text : List (PairText × Char) → List Char
  | [] => []
  | p :: ps => p.1.text ++ p.2 :: pairs_text ps

/-- The frequency-ids the platform states carry in their current control
values. -/
def current_fids (states : List acpi_processor_px) : List Nat :=
  states.map fun s => extract_fid_from_control (u32 s.control)

/-- The rule of the paired write for one platform state `s` with snapshot
entry `o`: a state that carries the frequency-id of the pair gets the snapshot
control value with the voltage-id of the pair when that does not exceed the
snapshot voltage-id, and is left as it is otherwise. -/
def pair_rule (fid vid : Nat) (o : Nat) (s : acpi_processor_px) : acpi_processor_px :=
  if fid = extract_fid_from_control (u32 s.control) then
    if vid ≤ extract_vid_from_control (u32 o) then
      { s with control := (u32 o &&& NOT_INTEL_MSR_VID_MASK) ||| vid }
    else s
  else s

/-- The rule of the paired write applied to every platform state, for the
pairs in order. -/
def apply_pairs (original_controls : List Nat) :
    List PairText → List acpi_processor_px → List acpi_processor_px
  | [], states => states
  | p :: ps, states =>
    apply_pairs original_controls ps
      (List.zipWith (pair_rule p.new_fid p.new_vid) original_controls states)

/-- The runtime state of a core after a voltage write: the snapshot is `orig`,
the platform states are `states` and the resync flag is `resume`; nothing else
differs from `data` with platform table `perf`. -/
def written (data : acpi_cpufreq_data) (perf : acpi_processor_performance) (orig : List Nat)
    (states : List acpi_processor_px) (resume : Nat) : acpi_cpufreq_data :=
  { data with
    acpi_data := some { perf with states := states }, resume := resume,
    original_controls := some orig }

/-- The text of a list of ordered tokens, each a number followed by its
separators. -/
def vids_text : List (List Char × List Char) → List Char
  | [] => []
  | t :: ts => t.1 ++ t.2 ++ vids_text ts

/-- A run of well-formed ordered tokens in front of `tail`: every token is a
number followed by all the spaces and commas that stand behind it, and the
character behind a number is not a digit. -/
def tokens_ok : List (List Char × List Char) → List Char → Prop
  | [], _ => True
  | t :: ts, tail =>
    is_number t.1 ∧ (∀ c ∈ t.2, is_separator c) ∧ stops (t.2 ++ (vids_text ts ++ tail)) ∧
    ¬ is_separator (deref (vids_text ts ++ tail)) ∧ tokens_ok ts tail

/-- The voltage-id a token asks for, as the `unsigned int` the driver reads. -/
def token_vid (t : List Char × List Char) : Nat := u32 (decimal t.1)

/-- The control value the ordered write leaves in a state with snapshot entry
`o` and current control value `c` for the requested voltage-id `v`: the
snapshot value with the low byte replaced by `v` when `v` does not exceed the
snapshot voltage-id, and `c` otherwise. -/
def vid_result (o v c : Nat) : Nat :=
  if v ≤ u32 o &&& INTEL_MSR_VID_MASK then (u32 o &&& NOT_INTEL_MSR_VID_MASK) ||| v else c

/-- The effect of one ordered token on the platform states: the state of the
table entry gets the control value of `vid_result`. -/
def vid_rule (original_controls : List Nat) (e : cpufreq_frequency_table) (v : Nat)
    (states : List acpi_processor_px) : List acpi_processor_px :=
  if v ≤ u32 (original_controls.getD e.index 0) &&& INTEL_MSR_VID_MASK then
    states.set e.index
      { states.getD e.index px0 with
        control := (u32 (original_controls.getD e.index 0) &&& NOT_INTEL_MSR_VID_MASK) ||| v }
  else states

/-- The ordered tokens applied to the table entries, one token per entry in
order. -/
def apply_vids (original_controls : List Nat) :
    List cpufreq_frequency_table → List (List Char × List Char) → List acpi_processor_px →
    List acpi_processor_px
  | e :: es, t :: ts, states =>
    apply_vids original_controls es ts (vid_rule original_controls e (token_vid t) states)
  | _, _, states => states

/-! ## The build rule of the operating-point table -/

/-- The entries the table-building loop accepts from the platform states
`states`, the first of which has platform index `i`; `last` is the frequency of
the most recently accepted entry (read only when `i > 0`). -/
def accepted_entries : List acpi_processor_px → Nat → Nat → List cpufreq_frequency_table
  | [], _, _ => []
  | s :: rest, i, last =>
    if i > 0 ∧ s.core_frequency ≥ last / 1000 then accepted_entries rest (i + 1) last
    else
      ⟨i, u32 (s.core_frequency * 1000)⟩ ::
        accepted_entries rest (i + 1) (u32 (s.core_frequency * 1000))

/-! ## Events of a transition -/

/-- The read command `get_cur_val` issues for a core set whose first core has
runtime state `d`. -/
def read_cmd (d : acpi_cpufreq_data) (mask : List Nat) : drv_cmd :=
  if d.cpu_feature = SYSTEM_INTEL_MSR_CAPABLE then
    { type := SYSTEM_INTEL_MSR_CAPABLE, mask := mask, msr_reg := MSR_IA32_PERF_STATUS,
      io_port := 0, io_bit_width := 0, val := 0 }
  else
    { type := SYSTEM_IO_CAPABLE, mask := mask, msr_reg := 0,
      io_port := (d.acpi_data.getD flat_perf).control_register.address % 2 ^ 16,
      io_bit_width := (d.acpi_data.getD flat_perf).control_register.bit_width % 2 ^ 8,
      val := 0 }

/-- The events of `n` polls of `check_freqs` that do not find the frequency: a
register read and a delay of 10 microseconds each. -/
def polls (rc : drv_cmd) : Nat → List Event
  | 0 => []
  | n + 1 => Event.drv_read rc :: Event.udelay 10 :: polls rc n

/-- A core has one of the two backends. -/
def has_backend (d : acpi_cpufreq_data) : Prop :=
  d.cpu_feature = SYSTEM_INTEL_MSR_CAPABLE ∨ d.cpu_feature = SYSTEM_IO_CAPABLE

/-- The current state the driver records for a core. -/
def current_state (w : World) (cpu : Nat) : Option Nat :=
  match w.acfreq_data cpu with
  | none => none
  | some d => d.acpi_data.map fun p => p.state

/-! ## Vocabulary of the further properties -/

/-- The table initialisation builds for the platform `flat_perf`. -/
def flat_table : List cpufreq_frequency_table :=
  [⟨0, 2000000⟩, ⟨0, CPUFREQ_TABLE_END⟩, ⟨0, 0⟩]

/-- Runtime state of core 0 on the platform `flat_perf`, with the port
backend. -/
def flat_data : acpi_cpufreq_data :=
  { acpi_data := some flat_perf, freq_table := some flat_table, resume := 1,
    cpu_feature := SYSTEM_IO_CAPABLE, original_controls := none }

/-- Core 0 under control on the platform `flat_perf`. -/
def flat_world : World :=
  { acfreq_data := fun c => if c = 0 then some flat_data else none,
    acpi_pstate_strict := 0, blacklisted := 0, hw_read := fun _ => 0, nreads := 0, log := [] }

/-- The entries of an operating-point table: its slots in front of the
sentinel. -/
def table_entries (tbl : List cpufreq_frequency_table) : List cpufreq_frequency_table :=
  tbl.takeWhile fun e => decide (e.frequency ≠ CPUFREQ_TABLE_END)

/-- The comparison of `extract_msr` for one table entry: the frequency-id bits
(8 to 15) of the raw value against those of the status value of the entry's
platform state. -/
def fid_match (msr : Nat) (perf : acpi_processor_performance) (e : cpufreq_frequency_table) :
    Bool :=
  decide (msr &&& INTEL_MSR_FID_MASK =
    (perf.states.getD e.index px0).status &&& INTEL_MSR_FID_MASK)

/-- The comparison the specification words: the raw value against an encoding
on the whole low range, the low 16 bits. -/
def low_range_match (msr encoding : Nat) : Bool :=
  decide (msr &&& INTEL_MSR_RANGE = encoding &&& INTEL_MSR_RANGE)

/-- The resync flag of a core. -/
def resync_flag (w : World) (cpu : Nat) : Option Nat :=
  (w.acfreq_data cpu).map fun d => d.resume

/-- A platform in fixed-hardware space whose second state repeats the
frequency of the first: 3000, 3000 and 2600 MHz. -/
def dup_perf : acpi_processor_performance :=
  { ex_perf with
    states := [⟨3000, 0, 10, 10, 0x0803, 0x0803⟩, ⟨3000, 0, 10, 10, 0x0803, 0x0803⟩,
               ⟨2600, 0, 10, 10, 0x0602, 0x0602⟩] }

/-- Collaborators that all succeed, on the platform `dup_perf`. -/
def dup_env : Env :=
  { ex_env with acpi_processor_register_performance := (0, dup_perf) }

/-- A world in which no core is under control yet and the hardware answers
every read with the status value of the 2600 MHz state. -/
def dup_boot : World :=
  { boot_world with hw_read := fun _ => 0x0602 }

/-- What a query of the current frequency shows of a core: the table and the
recorded current state and resync flag before it, the frequency it returns and
the resync flag after it. -/
structure DriftView where
  table : List cpufreq_frequency_table
  state : Option Nat
  flag_before : Option Nat
  freq : Nat
  flag_after : Option Nat
deriving DecidableEq

def drift_view (w : World) (cpu : Nat) : Option DriftView :=
  (get_cur_freq_on_cpu w cpu).map fun r =>
    { table := table_of w cpu, state := current_state w cpu, flag_before := resync_flag w cpu,
      freq := r.1, flag_after := resync_flag r.2 cpu }

/-- Collaborators on a platform that declares its control register in
fixed-hardware space and its status register in system I/O space. -/
def mixed_env : Env :=
  { ex_env with
    acpi_processor_register_performance :=
      (0, { ex_perf with status_register := ⟨ ACPI_ADR_SPACE_SYSTEM_IO, 8, 0xb3⟩ }) }

/-- The events of a verification poll: a register read or a delay. -/
def is_poll : Event → Bool
  | Event.drv_read _ => true
  | Event.udelay _ => true
  | _ => false

/-- The build rule of the table in the words of the specification: the platform
state with index `i` is accepted when `i = 0` or its `core_frequency` is
strictly lower than `last`, the `core_frequency` of the most recently accepted
state; an accepted entry has the platform index `i` and the frequency
1000 times `core_frequency`. -/
def build_rule : List acpi_processor_px → Nat → Nat → List cpufreq_frequency_table
  | [], _, _ => []
  | s :: rest, i, last =>
    if i = 0 ∨ s.core_frequency < last then
      ⟨i, 1000 * s.core_frequency⟩ :: build_rule rest (i + 1) s.core_frequency
    else build_rule rest (i + 1) last

/-- A platform in fixed-hardware space whose first state has a frequency above
the 32-bit range of kHz values: 5000000 MHz and 1000000 MHz. -/
def fast_perf : acpi_processor_performance :=
  { ex_perf with
    states := [⟨5000000, 0, 10, 10, 0x0803, 0x0803⟩, ⟨1000000, 0, 10, 10, 0x0602, 0x0602⟩] }

/-- Collaborators that all succeed, on the platform `fast_perf`. -/
def fast_env : Env :=
  { ex_env with acpi_processor_register_performance := (0, fast_perf) }

/-! ## Calls of the framework and of the operator -/

/-- One call into the driver for a core that is under control: a transition
request, a query of the current frequency, the resume callback, a voltage write
or a read of the default voltage-ids or default controls, each with the
collaborators and the policy of the call. -/
inductive Call where
  | target (env : Env) (policy : cpufreq_policy) (target_freq relation : Nat)
  | current_frequency (cpu : Nat)
  | resume (policy : cpufreq_policy)
  | write (env : Env) (policy : cpufreq_policy) (wr : VoltageWrite)
  | default_vids (env : Env) (policy : cpufreq_policy)
  | default_controls (env : Env) (policy : cpufreq_policy)

/-- The core a call is made for. -/
def Call.cpu : Call → Nat
  | Call.target _ policy _ _ => policy.cpu
  | Call.current_frequency cpu => cpu
  | Call.resume policy => policy.cpu
  | Call.write _ policy _ => policy.cpu
  | Call.default_vids _ policy => policy.cpu
  | Call.default_controls _ policy => policy.cpu

/-- The world after a call; `none` is a fault inside the call. -/
def call (w : World) : Call → Option World
  | Call.target env policy target_freq relation =>
    (acpi_cpufreq_target env w policy target_freq relation).map fun r => r.2
  | Call.current_frequency cpu => (get_cur_freq_on_cpu w cpu).map fun r => r.2
  | Call.resume policy => (acpi_cpufreq_resume w policy).map fun r => r.2
  | Call.write env policy wr => (voltage_write env w policy wr).map fun r => r.2
  | Call.default_vids env policy => some (show_freq_attr_default_vids env w policy).2.2
  | Call.default_controls env policy => some (show_freq_attr_default_controls env w policy).2.2

/-- The world after a sequence of calls. -/
def calls : World → List Call → Option World
  | w, [] => some w
  | w, c :: rest =>
    match call w c with
    | none => none
    | some w1 => calls w1 rest

/-- The frequency resolution of a call answers, for the table `tbl`, only with
positions of entries of the table (slots in front of the sentinel), as the
generic resolution of the framework does. -/
def Call.resolves_entries (tbl : List cpufreq_frequency_table) : Call → Prop
  | Call.target env _ _ _ => ∀ p f r i,
      env.cpufreq_frequency_table_target p tbl f r = some i → i < (table_entries tbl).length
  | Call.write env _ _ => ∀ p f r i,
      env.cpufreq_frequency_table_target p tbl f r = some i → i < (table_entries tbl).length
  | _ => True

/-- The recorded current state of a core is the platform index of an entry of
its operating-point table. -/
def state_in_table (w : World) (cpu : Nat) : Prop :=
  ∃ d perf tbl, w.acfreq_data cpu = some d ∧ d.acpi_data = some perf ∧
    d.freq_table = some tbl ∧ perf.state ∈ (table_entries tbl).map fun e => e.index

/-- The snapshot a core has after a successful first-use check: the one it had,
or the copy of the control values of its platform states. -/
def snapshot_after (d : acpi_cpufreq_data) (perf : acpi_processor_performance) : List Nat :=
  d.original_controls.getD (perf.states.map fun s => s.control)

/-- How the runtime state `d1` of a core after a call relates to its runtime
state `d` with platform table `perf` and operating-point table `tbl` before it.
The table and the backend are the same; the recorded current state is the same
or the platform index of a slot the frequency resolution `resolved` answered
with; the snapshot is the same or, not taken before, the copy of the control
values before the call, and it is taken whenever `alloc` holds on a core with
the model-register backend. -/
def call_frame (resolved : Nat → Prop) (alloc : Prop) (d : acpi_cpufreq_data)
    (perf : acpi_processor_performance) (tbl : List cpufreq_frequency_table)
    (d1 : acpi_cpufreq_data) : Prop :=
  ∃ perf1, d1.acpi_data = some perf1 ∧ d1.freq_table = some tbl ∧
    d1.cpu_feature = d.cpu_feature ∧
    (perf1.state = perf.state ∨ ∃ i, resolved i ∧ perf1.state = (tbl.getD i entry0).index) ∧
    (d1.original_controls = d.original_controls ∨
      (d.original_controls = none ∧
        d1.original_controls = some (perf.states.map fun s => s.control))) ∧
    (d.cpu_feature = SYSTEM_INTEL_MSR_CAPABLE → alloc →
      d1.original_controls = some (snapshot_after d perf))

/-- The slots the frequency resolution of a voltage write with collaborators
`env` can answer with. -/
def write_resolved (env : Env) (policy : cpufreq_policy) (tbl : List cpufreq_frequency_table)
    (i : Nat) : Prop :=
  ∃ f r, env.cpufreq_frequency_table_target policy tbl f r = some i

/-- The slots the frequency resolution of a call answered with, for the table
`tbl`. -/
def Call.resolved (tbl : List cpufreq_frequency_table) : Call → Nat → Prop
  | Call.target env policy target_freq relation, i =>
    env.cpufreq_frequency_table_target policy tbl target_freq relation = some i
  | Call.write env policy _, i => write_resolved env policy tbl i
  | _, _ => False

/-- The call is one of those that take the snapshot on first use, and its
allocation of the snapshot succeeds. -/
def Call.alloc : Call → Prop
  | Call.write env _ _ => env.kcalloc_ok = true
  | Call.default_vids env _ => env.kcalloc_ok = true
  | Call.default_controls env _ => env.kcalloc_ok = true
  | _ => False

/-- The text of the default voltage-ids for the snapshot `oc` and the table
`tbl`, in front of the newline. -/
def default_vids_text (oc : List Nat) (tbl : List cpufreq_frequency_table) : List Char :=
  show_loop (fun e => sprintf_u (extract_vid_from_control (u32 (oc.getD e.index 0))) ++ [' '])
    tbl

/-- The text of the default controls for the snapshot `oc` and the table `tbl`,
in front of the newline. -/
def default_controls_text (oc : List Nat) (tbl : List cpufreq_frequency_table) : List Char :=
  show_loop (fun e =>
    sprintf_u (extract_fid_from_control (u32 (oc.getD e.index 0))) ++ [':']
      ++ sprintf_u (extract_vid_from_control (u32 (oc.getD e.index 0))) ++ [' ']) tbl

/-- The core set a call polls has runtime state on its first core (see
`policy_first`); calls that poll only their own core need nothing. -/
def Call.first : Call → Prop
  | Call.target _ policy _ _ => policy_first policy
  | Call.write _ policy _ => policy_first policy
  | _ => True

/-- Collaborators on the platform `flat_perf` with a measured core clock of
2000 MHz. -/
def port_env : Env :=
  { flat_env with cpu_khz := 2000000 }

/-! ## Vocabulary of the round trips and of the resync flag -/

/-- A platform in system I/O space whose second state repeats the frequency of
the first: 3000, 3000 and 2600 MHz with the status values 0, 1 and 2. -/
def dup_port_perf : acpi_processor_performance :=
  { flat_perf with
    states := [⟨3000, 0, 10, 10, 0x80, 0⟩, ⟨3000, 0, 10, 10, 0x81, 1⟩,
               ⟨2600, 0, 10, 10, 0x82, 2⟩] }

/-- Collaborators that all succeed, on the platform `dup_port_perf`. -/
def dup_port_env : Env :=
  { ex_env with acpi_processor_register_performance := (0, dup_port_perf) }

/-- The call is a transition request that resolves to a platform state other
than the one recorded as current in `w`. -/
def Call.moves (w : World) : Call → Prop
  | Call.target env policy target_freq relation =>
    ∃ d perf tbl next_state, w.acfreq_data policy.cpu = some d ∧ d.acpi_data = some perf ∧
      d.freq_table = some tbl ∧
      env.cpufreq_frequency_table_target policy tbl target_freq relation = some next_state ∧
      perf.state ≠ (tbl.getD next_state entry0).index
  | _ => False

/-- Every call of the sequence, made in the world the calls before it leave,
is a transition request to another state than the current one. -/
def all_move : World → List Call → Prop
  | _, [] => True
  | w, c :: rest => c.moves w ∧ ∀ w1, call w c = some w1 → all_move w1 rest

/-- The tokens of the default voltage-ids text for the snapshot `oc`: for every
table entry the decimal text of the voltage-id of its snapshot value, followed
by one blank. -/
def default_vid_tokens (oc : List Nat) (es : List cpufreq_frequency_table) :
    List (List Char × List Char) :=
  es.map fun e => (sprintf_u (extract_vid_from_control (u32 (oc.getD e.index 0))), [' '])

/-- The pairs of the default controls text for the snapshot `oc`: for every
table entry the decimal texts of the frequency-id and of the voltage-id of its
snapshot value, followed by one blank. -/
def default_control_pairs (oc : List Nat) (es : List cpufreq_frequency_table) :
    List (PairText × Char) :=
  es.map fun e =>
    (⟨sprintf_u (extract_fid_from_control (u32 (oc.getD e.index 0))),
      sprintf_u (extract_vid_from_control (u32 (oc.getD e.index 0)))⟩, ' ')

/-- The slots of a table from the sentinel on. -/
def table_rest (tbl : List cpufreq_frequency_table) : List cpufreq_frequency_table :=
  tbl.dropWhile fun e => decide (e.frequency ≠ CPUFREQ_TABLE_END)

/-- The platform states of the example platform with the voltage-ids of the
first and the last state lowered by one. -/
def lowered_states : List acpi_processor_px :=
  [⟨3000, 0, 10, 10, 0x0802, 0x0803⟩, ⟨2600, 0, 10, 10, 0x0602, 0x0602⟩,
   ⟨2200, 0, 10, 10, 0x0400, 0x0401⟩]

/-- Runtime state of core 0 on the example platform after the voltage-ids of
the first and the last state have been lowered by one: the snapshot holds the
control values of the platform. -/
def lowered_data : acpi_cpufreq_data :=
  written ex_data ex_perf [0x0803, 0x0602, 0x0401] lowered_states 0

/-- Core 0 with lowered voltage-ids on the example platform. -/
def lowered_world : World :=
  { ex_world 0x0602 0 with acfreq_data := fun c => if c = 0 then some lowered_data else none }

/-- A platform in fixed-hardware space whose two states carry the same
frequency-id: 3000 and 2600 MHz with the control values 0x0603 and 0x0602. -/
def twin_perf : acpi_processor_performance :=
  { ex_perf with
    states := [⟨3000, 0, 10, 10, 0x0603, 0x0603⟩, ⟨2600, 0, 10, 10, 0x0602, 0x0602⟩] }

/-- Collaborators that all succeed, on the platform `twin_perf`. -/
def twin_env : Env :=
  { ex_env with acpi_processor_register_performance := (0, twin_perf) }

/-- What a round trip of the defaults shows: the return value and the text
of the read, the return value of the write of that text, and the control
values of the platform states and the snapshot after it. -/
structure RoundTripView where
  read_ret : Int
  text : List Char
  write_ret : Int
  controls : List Nat
  snapshot : Option (List Nat)
deriving DecidableEq

/-- The round trip of the default controls on core `policy.cpu` in the world
`w`: the read, then the paired write of the text the read produced. -/
def controls_round_trip (env : Env) (w : World) (policy : cpufreq_policy) :
    Option RoundTripView :=
  (store_freq_attr_controls env (show_freq_attr_default_controls env w policy).2.2 policy
    (show_freq_attr_default_controls env w policy).2.1).map fun q =>
    { read_ret := (show_freq_attr_default_controls env w policy).1,
      text := (show_freq_attr_default_controls env w policy).2.1,
      write_ret := q.1,
      controls := control_values q.2 policy.cpu,
      snapshot := (q.2.acfreq_data policy.cpu).bind fun d => d.original_controls }

/-- A platform in fixed-hardware space whose control values do not fit 32
bits: 3000 and 2600 MHz with the control values 0x100000803 and 0x100000602. -/
def wide_perf : acpi_processor_performance :=
  { ex_perf with
    states := [⟨3000, 0, 10, 10, 0x100000803, 0x0803⟩, ⟨2600, 0, 10, 10, 0x100000602, 0x0602⟩] }

/-- Collaborators that all succeed, on the platform `wide_perf`. -/
def wide_env : Env :=
  { ex_env with acpi_processor_register_performance := (0, wide_perf) }

/-- A policy of the example platform whose core set holds the cores 0 and 1,
coordinated by the driver. -/
def pair_policy : cpufreq_policy :=
  { ex_policy with
    cpus := [0, 1], related_cpus := [0, 1], shared_type := CPUFREQ_SHARED_TYPE_ALL }

/-- The round trip of the default voltage-ids on core `policy.cpu` in the
world `w`: the read, then the ordered write of the text the read produced. -/
def vids_round_trip (env : Env) (w : World) (policy : cpufreq_policy) :
    Option RoundTripView :=
  (store_freq_attr_vids env (show_freq_attr_default_vids env w policy).2.2 policy
    (show_freq_attr_default_vids env w policy).2.1).map fun q =>
    { read_ret := (show_freq_attr_default_vids env w policy).1,
      text := (show_freq_attr_default_vids env w policy).2.1,
      write_ret := q.1,
      controls := control_values q.2 policy.cpu,
      snapshot := (q.2.acfreq_data policy.cpu).bind fun d => d.original_controls }

/-! # Properties -/

/-! ## Bit fields -/

theorem tb_ff (i : Nat) : (0xff : Nat).testBit i = decide (i < 8) := by
  have h : (0xff : Nat) = 2 ^ 8 - 1 := by norm_num
  rw [h, Nat.testBit_two_pow_sub_one]

theorem tb_ff00 (i : Nat) : (0xff00 : Nat).testBit i = (decide (8 ≤ i) && decide (i < 16)) := by
  have h : (0xff00 : Nat) = (2 ^ 8 - 1) <<< 8 := by decide
  rw [h, Nat.testBit_shiftLeft, Nat.testBit_two_pow_sub_one]
  by_cases h8 : 8 ≤ i
  · simp [h8]
    omega
  · simp [h8]

theorem tb_ffffff00 (i : Nat) : (0xffffff00 : Nat).testBit i = (decide (8 ≤ i) && decide (i < 32)) := by
  have h : (0xffffff00 : Nat) = (2 ^ 24 - 1) <<< 8 := by decide
  rw [h, Nat.testBit_shiftLeft, Nat.testBit_two_pow_sub_one]
  by_cases h8 : 8 ≤ i
  · simp [h8]
    omega
  · simp [h8]

theorem tb_small {v i : Nat} (hv : v ≤ 255) (hi : 8 ≤ i) : v.testBit i = false := by
  apply Nat.testBit_eq_false_of_lt
  calc v < 2 ^ 8 := by omega
    _ ≤ 2 ^ i := Nat.pow_le_pow_right (by norm_num) hi

theorem and_ff_le (x : Nat) : x &&& 0xff ≤ 255 := Nat.and_le_right

theorem vid_of_set (oc v : Nat) (hv : v ≤ 255) : ((oc &&& 0xffffff00) ||| v) &&& 0xff = v := by
  apply Nat.eq_of_testBit_eq
  intro i
  simp only [Nat.testBit_and, Nat.testBit_or, tb_ff, tb_ffffff00]
  by_cases h8 : i < 8
  · have : ¬ 8 ≤ i := by omega
    simp [h8, this]
  · have h8' : 8 ≤ i := by omega
    simp [h8, tb_small hv h8']

theorem fid_of_set (oc v : Nat) (hv : v ≤ 255) : ((oc &&& 0xffffff00) ||| v) &&& 0xff00 = oc &&& 0xff00 := by
  apply Nat.eq_of_testBit_eq
  intro i
  simp only [Nat.testBit_and, Nat.testBit_or, tb_ff00, tb_ffffff00]
  by_cases h8 : 8 ≤ i
  · by_cases h16 : i < 16
    · have : i < 32 := by omega
      simp [h8, h16, this, tb_small hv h8]
    · simp [h16]
  · simp [h8]

theorem u32_and_ff (x : Nat) : (x % 2 ^ 32) &&& 0xff = x &&& 0xff := by
  apply Nat.eq_of_testBit_eq
  intro i
  simp only [Nat.testBit_and, Nat.testBit_mod_two_pow, tb_ff]
  by_cases h8 : i < 8
  · have : i < 32 := by omega
    simp [h8, this]
  · simp [h8]

theorem u32_and_ff00 (x : Nat) : (x % 2 ^ 32) &&& 0xff00 = x &&& 0xff00 := by
  apply Nat.eq_of_testBit_eq
  intro i
  simp only [Nat.testBit_and, Nat.testBit_mod_two_pow, tb_ff00]
  by_cases h16 : i < 16
  · have : i < 32 := by omega
    simp [h16, this]
  · simp [h16]

theorem same_tables_refl (w : World) : same_tables w w := fun _ => rfl

theorem same_tables_trans {w w1 w2 : World} (h1 : same_tables w w1) (h2 : same_tables w1 w2) :
    same_tables w w2 := fun c => (h2 c).trans (h1 c)

theorem get_cur_val_data {w w1 : World} {mask : List Nat} {v : Nat}
    (h : get_cur_val w mask = some (v, w1)) :
    w1.acfreq_data = w.acfreq_data ∧ w1.acpi_pstate_strict = w.acpi_pstate_strict := by
  unfold get_cur_val at h
  split at h
  · cases h; exact ⟨rfl, rfl⟩
  · split at h
    · cases h
    · split at h
      · cases h; exact ⟨rfl, rfl⟩
      · split at h
        · split at h
          · cases h
          · cases h; exact ⟨rfl, rfl⟩
        · cases h; exact ⟨rfl, rfl⟩

theorem check_freqs_loop_data {mask : List Nat} {freq : Nat} {data : acpi_cpufreq_data} :
    ∀ (n : Nat) {w w1 : World} {r : Nat}, check_freqs_loop mask freq data n w = some (r, w1) →
      w1.acfreq_data = w.acfreq_data ∧ w1.acpi_pstate_strict = w.acpi_pstate_strict
  | 0, w, w1, r, h => by
    simp only [check_freqs_loop] at h
    cases h; exact ⟨rfl, rfl⟩
  | n + 1, w, w1, r, h => by
    simp only [check_freqs_loop] at h
    split at h
    · cases h
    · rename_i val w2 hg
      have hd := get_cur_val_data hg
      split at h
      · cases h; exact hd
      · have := check_freqs_loop_data n h
        exact ⟨this.1.trans hd.1, this.2.trans hd.2⟩

theorem get_cur_freq_on_cpu_same {w w1 : World} {cpu f : Nat}
    (h : get_cur_freq_on_cpu w cpu = some (f, w1)) :
    same_tables w w1 ∧ w1.acpi_pstate_strict = w.acpi_pstate_strict := by
  unfold get_cur_freq_on_cpu at h
  split at h
  · cases h; exact ⟨same_tables_refl _, rfl⟩
  · rename_i data hdata
    split at h
    · split at h
      · cases h
      · rename_i val w2 hg
        have hd := get_cur_val_data hg
        dsimp only at h
        split at h
        · cases h
          refine ⟨fun c => ?_, hd.2⟩
          by_cases hc : c = cpu
          · subst hc
            simp [World.set_data, hdata, strip]
          · simp [World.set_data, hc, hd.1]
        · cases h
          exact ⟨fun c => by rw [hd.1], hd.2⟩
    · cases h; exact ⟨same_tables_refl _, rfl⟩

theorem same_tables_set {w : World} {cpu : Nat} {d d1 : acpi_cpufreq_data}
    (hd : w.acfreq_data cpu = some d) (hs : strip d1 = strip d) :
    same_tables w (w.set_data cpu (some d1)) := by
  intro c
  by_cases hc : c = cpu
  · subst hc
    simp [World.set_data, hd, hs]
  · simp [World.set_data, hc]

theorem same_tables_emit {w w1 : World} (es : List Event) (h : same_tables w w1) :
    same_tables w (w1.emit es) := h

theorem acpi_cpufreq_target_write_same {w w1 : World} {policy : cpufreq_policy}
    {data : acpi_cpufreq_data} {perf : acpi_processor_performance}
    {freq_table : List cpufreq_frequency_table} {next_state : Nat} {r : Int}
    (hdata : w.acfreq_data policy.cpu = some data) (hperf : data.acpi_data = some perf)
    (h : acpi_cpufreq_target_write w policy data perf freq_table next_state = some (r, w1)) :
    same_tables w w1 ∧ w1.acpi_pstate_strict = w.acpi_pstate_strict := by
  have hfin : ∀ (w4 : World) (a b c : Nat), w4.acfreq_data = w.acfreq_data →
      same_tables w (target_finish w4 policy data perf a b c) := by
    intro w4 a b c h4 k
    by_cases hc : k = policy.cpu
    · subst hc
      simp [target_finish, World.set_data, World.emit, hdata, strip, hperf]
    · simp [target_finish, World.set_data, World.emit, hc, h4]
  unfold acpi_cpufreq_target_write at h
  split at h
  · cases h; exact ⟨same_tables_refl _, rfl⟩
  · split at h
    · split at h
      · cases h
      · rename_i ok w4 hchk
        have hck := check_freqs_loop_data 100 hchk
        split at h
        · cases h
          exact ⟨fun c => by rw [hck.1]; rfl, hck.2⟩
        · cases h
          exact ⟨hfin _ _ _ _ hck.1, hck.2⟩
    · cases h
      exact ⟨hfin _ _ _ _ rfl, rfl⟩

theorem acpi_cpufreq_target_same {env : Env} {w w1 : World} {policy : cpufreq_policy}
    {target_freq relation : Nat} {r : Int}
    (h : acpi_cpufreq_target env w policy target_freq relation = some (r, w1)) :
    same_tables w w1 ∧ w1.acpi_pstate_strict = w.acpi_pstate_strict := by
  unfold acpi_cpufreq_target at h
  split at h
  · cases h; exact ⟨same_tables_refl _, rfl⟩
  · rename_i data hdata
    split at h
    · rename_i perf freq_table hperf htbl
      split at h
      · cases h; exact ⟨same_tables_refl _, rfl⟩
      · split at h
        · split at h
          · have hs : same_tables w (w.set_data policy.cpu (some { data with resume := 0 })) :=
              same_tables_set hdata rfl
            have hd1 : (w.set_data policy.cpu (some { data with resume := 0 })).acfreq_data
                policy.cpu = some { data with resume := 0 } := by simp [World.set_data]
            have := acpi_cpufreq_target_write_same hd1 hperf h
            exact ⟨same_tables_trans hs this.1, this.2⟩
          · cases h; exact ⟨same_tables_refl _, rfl⟩
        · exact acpi_cpufreq_target_write_same hdata hperf h
    · cases h; exact ⟨same_tables_refl _, rfl⟩

theorem vid_ok_new_control (o v : Nat) (s : acpi_processor_px)
    (hv : v ≤ u32 o &&& INTEL_MSR_VID_MASK) :
    vid_ok o { s with control := (u32 o &&& NOT_INTEL_MSR_VID_MASK) ||| v } := by
  have h255 : v ≤ 255 := le_trans hv (and_ff_le _)
  constructor
  · show ((u32 o &&& 0xffffff00) ||| v) &&& 0xff ≤ o &&& 0xff
    rw [vid_of_set _ _ h255, ← u32_and_ff o]
    exact hv
  · show (((u32 o &&& 0xffffff00) ||| v) &&& 0xff00) >>> 8 = (o &&& 0xff00) >>> 8
    rw [fid_of_set _ _ h255, ← u32_and_ff00 o]
    rfl

theorem forall₂_set {R : Nat → acpi_processor_px → Prop} :
    ∀ {oc : List Nat} {states : List acpi_processor_px} (i : Nat) (x : acpi_processor_px),
      List.Forall₂ R oc states → R (oc.getD i 0) x → List.Forall₂ R oc (states.set i x)
  | _, _, _, _, List.Forall₂.nil, _ => List.Forall₂.nil
  | _, _, 0, _, List.Forall₂.cons _ ht, hx => List.Forall₂.cons hx ht
  | _, _, i + 1, x, List.Forall₂.cons hh ht, hx => List.Forall₂.cons hh (forall₂_set i x ht hx)

theorem store_freq_attr_vids_loop_ok (count : Nat) (oc : List Nat) :
    ∀ (tbl : List cpufreq_frequency_table) (curr : List Char) (off : Nat)
      (states : List acpi_processor_px),
      List.Forall₂ vid_ok oc states →
      List.Forall₂ vid_ok oc (store_freq_attr_vids_loop count oc tbl curr off states).states
  | [], _, _, _, h => h
  | e :: rest, curr, off, states, h => by
    unfold store_freq_attr_vids_loop
    split
    · exact h
    · dsimp only
      split
      · split <;> exact h
      · apply store_freq_attr_vids_loop_ok
        split
        · rename_i hle
          exact forall₂_set _ _ h (vid_ok_new_control _ _ _ hle)
        · exact h

theorem drop_cons_getD {oc : List Nat} : ∀ {k : Nat} {o : Nat} {tl : List Nat},
    oc.drop k = o :: tl → oc.getD k 0 = o ∧ oc.drop (k + 1) = tl := by
  induction oc with
  | nil => intro k o tl h; simp at h
  | cons a l ih =>
    intro k o tl h
    cases k with
    | zero => simp at h; simp [h.1, h.2]
    | succ k => simpa using ih (by simpa using h)

theorem store_freq_attr_controls_states_ok_aux (oc : List Nat) (f v : Nat) :
    ∀ (states : List acpi_processor_px) (k : Nat) (found : Bool) (ocs : List Nat),
      oc.drop k = ocs → List.Forall₂ vid_ok ocs states →
      List.Forall₂ vid_ok ocs (store_freq_attr_controls_states oc f v states k found).2
  | _, _, _, _, _, List.Forall₂.nil => by
    simp [store_freq_attr_controls_states]
  | s :: rest, k, found, o :: tl, hd, List.Forall₂.cons hh ht => by
    obtain ⟨ho, htl⟩ := drop_cons_getD hd
    unfold store_freq_attr_controls_states
    dsimp only
    split
    · refine List.Forall₂.cons ?_
        (store_freq_attr_controls_states_ok_aux oc f v rest (k + 1) true tl htl ht)
      split
      · rename_i hle
        rw [ho] at hle ⊢
        exact vid_ok_new_control _ _ _ hle
      · exact hh
    · exact List.Forall₂.cons hh
        (store_freq_attr_controls_states_ok_aux oc f v rest (k + 1) found tl htl ht)

theorem store_freq_attr_controls_states_ok (oc : List Nat) (f v : Nat)
    (states : List acpi_processor_px) (found : Bool) (h : List.Forall₂ vid_ok oc states) :
    List.Forall₂ vid_ok oc (store_freq_attr_controls_states oc f v states 0 found).2 :=
  store_freq_attr_controls_states_ok_aux oc f v states 0 found oc rfl h

theorem store_freq_attr_controls_loop_ok (oc : List Nat) :
    ∀ (fuel : Nat) (curr : List Char) (states : List acpi_processor_px)
      (r : Bool × List acpi_processor_px),
      List.Forall₂ vid_ok oc states →
      store_freq_attr_controls_loop oc fuel curr states = some r →
      List.Forall₂ vid_ok oc r.2
  | 0, _, _, _, _, h => by simp [store_freq_attr_controls_loop] at h
  | fuel + 1, curr, states, r, hs, h => by
    have hstep := store_freq_attr_controls_states_ok oc
    unfold store_freq_attr_controls_loop at h
    dsimp only at h
    split at h
    · split at h
      · split at h
        · split at h
          · split at h
            · exact store_freq_attr_controls_loop_ok oc fuel _ _ r (hstep _ _ _ false hs) h
            · cases h; exact hstep _ _ _ false hs
          · cases h; exact hstep _ _ _ false hs
        · cases h; exact hs
      · cases h; exact hs
    · cases h; exact hs

theorem get_cur_val_isSome {w : World} {mask : List Nat}
    (h : mask = [] ∨ ∃ d perf, w.acfreq_data (cpumask_first mask) = some d ∧
      d.acpi_data = some perf) :
    (get_cur_val w mask).isSome := by
  unfold get_cur_val
  split
  · rfl
  · rename_i hne
    rcases h with h | ⟨d, perf, hd, hp⟩
    · exact absurd h hne
    · rw [hd]
      dsimp only
      split
      · rfl
      · split
        · rw [hp]; rfl
        · rfl

theorem check_freqs_loop_isSome {mask : List Nat} {freq : Nat} {data : acpi_cpufreq_data} :
    ∀ (n : Nat) (w : World),
      (mask = [] ∨ ∃ d perf, w.acfreq_data (cpumask_first mask) = some d ∧
        d.acpi_data = some perf) →
      (check_freqs_loop mask freq data n w).isSome
  | 0, _, _ => rfl
  | n + 1, w, h => by
    unfold check_freqs_loop
    have hs := get_cur_val_isSome h
    cases hg : get_cur_val w mask with
    | none => rw [hg] at hs; cases hs
    | some p =>
      obtain ⟨val, w1⟩ := p
      dsimp only
      split
      · rfl
      · apply check_freqs_loop_isSome
        have hd := (get_cur_val_data hg).1
        rcases h with h | h
        · exact Or.inl h
        · refine Or.inr ?_
          simpa [World.emit, hd] using h

theorem cpumask_first_single (cpu : Nat) : cpumask_first [cpu] = cpu := by
  simp [cpumask_first]

theorem get_cur_freq_on_cpu_isSome (w : World) (cpu : Nat) :
    (get_cur_freq_on_cpu w cpu).isSome := by
  unfold get_cur_freq_on_cpu
  split
  · rfl
  · rename_i data hdata
    split
    · rename_i perf tbl hperf htbl
      have hs : (get_cur_val w [cpu]).isSome :=
        get_cur_val_isSome (Or.inr ⟨data, perf, by rw [cpumask_first_single]; exact hdata, hperf⟩)
      cases hg : get_cur_val w [cpu] with
      | none => rw [hg] at hs; cases hs
      | some p =>
        dsimp only
        split <;> rfl
    · rfl

theorem acpi_cpufreq_target_write_isSome {w : World} {policy : cpufreq_policy}
    {data : acpi_cpufreq_data} {perf : acpi_processor_performance}
    {freq_table : List cpufreq_frequency_table} {next_state : Nat}
    (hfirst : policy_first policy)
    (hdata : ∃ d p, w.acfreq_data policy.cpu = some d ∧ d.acpi_data = some p) :
    (acpi_cpufreq_target_write w policy data perf freq_table next_state).isSome := by
  unfold acpi_cpufreq_target_write
  split
  · rfl
  · rename_i cmd hcmd
    have hmask : cmd.mask = target_mask policy := by
      unfold target_cmd at hcmd
      split at hcmd
      · cases hcmd; rfl
      · split at hcmd
        · cases hcmd; rfl
        · cases hcmd
    split
    · have hs : (check_freqs
          (drv_write (w.emit (target_notify policy
            (u32 ((perf.states.getD perf.state px0).core_frequency * 1000))
            (freq_table.getD next_state entry0).frequency CPUFREQ_PRECHANGE)) cmd)
          cmd.mask (freq_table.getD next_state entry0).frequency data).isSome := by
        apply check_freqs_loop_isSome
        rw [hmask]
        rcases hfirst with h | h
        · exact Or.inl h
        · refine Or.inr ?_
          rw [h]
          simpa [drv_write, World.emit] using hdata
      revert hs
      cases check_freqs
          (drv_write (w.emit (target_notify policy
            (u32 ((perf.states.getD perf.state px0).core_frequency * 1000))
            (freq_table.getD next_state entry0).frequency CPUFREQ_PRECHANGE)) cmd)
          cmd.mask (freq_table.getD next_state entry0).frequency data with
      | none => intro hs; cases hs
      | some p =>
        intro _
        dsimp only
        split <;> rfl
    · rfl

theorem acpi_cpufreq_target_isSome (env : Env) (w : World) {policy : cpufreq_policy}
    (target_freq relation : Nat) (hfirst : policy_first policy) :
    (acpi_cpufreq_target env w policy target_freq relation).isSome := by
  unfold acpi_cpufreq_target
  split
  · rfl
  · rename_i data hdata
    split
    · rename_i perf tbl hperf htbl
      split
      · rfl
      · split
        · split
          · exact acpi_cpufreq_target_write_isSome hfirst
              ⟨{ data with resume := 0 }, perf, by simp [World.set_data], hperf⟩
          · rfl
        · exact acpi_cpufreq_target_write_isSome hfirst ⟨data, perf, hdata, hperf⟩
    · rfl

theorem deref_ne_nil {p : List Char} {c : Char} (h : deref p = c) (hc : c ≠ NUL) : p ≠ [] := by
  intro hp
  subst hp
  exact hc h.symm

theorem store_freq_attr_controls_loop_isSome (oc : List Nat) :
    ∀ (fuel : Nat) (curr : List Char) (states : List acpi_processor_px),
      curr.length < fuel → (store_freq_attr_controls_loop oc fuel curr states).isSome
  | 0, _, _, h => by omega
  | fuel + 1, curr, states, h => by
    unfold store_freq_attr_controls_loop
    dsimp only
    split
    · split
      · rename_i hcolon
        split
        · split
          · split
            · apply store_freq_attr_controls_loop_isSome
              have h1 := deref_ne_nil hcolon (by decide)
              have h2 : (List.drop (simple_strtoul curr).2 curr).length ≤ curr.length := by
                simp
              have h3 : 0 < (List.drop (simple_strtoul curr).2 curr).length :=
                List.length_pos.mpr h1
              simp only [List.length_tail, List.length_drop] at h2 h3 ⊢
              omega
            · rfl
          · rfl
        · rfl
      · rfl
    · rfl

theorem vid_ok_self : ∀ states : List acpi_processor_px,
    List.Forall₂ vid_ok (states.map fun s => s.control) states
  | [] => List.Forall₂.nil
  | _ :: rest => List.Forall₂.cons ⟨le_refl _, rfl⟩ (vid_ok_self rest)

theorem strip_eq {d d1 : acpi_cpufreq_data} (h : strip d1 = strip d) :
    d1.original_controls = d.original_controls ∧ d1.freq_table = d.freq_table ∧
    d1.cpu_feature = d.cpu_feature ∧
    ∀ perf, d.acpi_data = some perf →
      ∃ perf1, d1.acpi_data = some perf1 ∧ perf1.states = perf.states := by
  obtain ⟨a, t, r, f, o⟩ := d
  obtain ⟨a1, t1, r1, f1, o1⟩ := d1
  simp only [strip, acpi_cpufreq_data.mk.injEq] at h
  obtain ⟨ha, ht, -, hf, ho⟩ := h
  refine ⟨ho, ht, hf, ?_⟩
  intro perf hp
  simp only at hp
  subst hp
  cases a1 with
  | none => simp at ha
  | some p1 =>
    refine ⟨p1, rfl, ?_⟩
    simp only [Option.map_some', Option.some.injEq] at ha
    have := congrArg acpi_processor_performance.states ha
    simpa using this

theorem vid_bounded_of_same_tables {orig : List Nat} {w w1 : World} {cpu : Nat}
    (h : same_tables w w1) (hv : vid_bounded orig w cpu) : vid_bounded orig w1 cpu := by
  obtain ⟨d, hd, perf, hp, hj⟩ := hv
  have hc := h cpu
  rw [hd] at hc
  cases hd1 : w1.acfreq_data cpu with
  | none => rw [hd1] at hc; simp at hc
  | some d1 =>
    rw [hd1] at hc
    simp only [Option.map_some', Option.some.injEq] at hc
    obtain ⟨ho, -, -, hperf⟩ := strip_eq hc
    obtain ⟨perf1, hp1, hs1⟩ := hperf perf hp
    exact ⟨d1, hd1, perf1, hp1, by rw [ho, hs1]; exact hj⟩

theorem check_origial_table_inv {orig : List Nat} (env : Env) {d : acpi_cpufreq_data}
    {perf : acpi_processor_performance} (hp : d.acpi_data = some perf)
    (hj : snapshot_inv orig d) :
    snapshot_inv orig (check_origial_table env d perf).2 ∧
    (check_origial_table env d perf).2.acpi_data = some perf ∧
    (check_origial_table env d perf).2.freq_table = d.freq_table ∧
    (check_origial_table env d perf).2.cpu_feature = d.cpu_feature ∧
    ((check_origial_table env d perf).1 = 0 →
      (check_origial_table env d perf).2.original_controls = some orig ∧
      List.Forall₂ vid_ok orig perf.states) := by
  obtain ⟨perf1, hp1, hj⟩ := hj
  rw [hp] at hp1
  cases hp1
  unfold check_origial_table
  rcases hj with ⟨hn, hm⟩ | ⟨hs, hf⟩
  · rw [hn]
    dsimp only
    split
    · refine ⟨⟨perf, hp, Or.inl ⟨hn, hm⟩⟩, hp, rfl, rfl, ?_⟩
      intro h
      simp [ENOMEM] at h
    · have hself : List.Forall₂ vid_ok orig perf.states := hm ▸ vid_ok_self perf.states
      exact ⟨⟨perf, hp, Or.inr ⟨by rw [hm], hself⟩⟩, hp, rfl, rfl, fun _ => ⟨by rw [hm], hself⟩⟩
  · rw [hs]
    exact ⟨⟨perf, hp, Or.inr ⟨hs, hf⟩⟩, hp, rfl, rfl, fun _ => ⟨hs, hf⟩⟩

theorem vid_bounded_set {orig : List Nat} {w : World} {cpu : Nat} {d : acpi_cpufreq_data}
    (h : snapshot_inv orig d) : vid_bounded orig (w.set_data cpu (some d)) cpu :=
  ⟨d, by simp [World.set_data], h⟩

theorem store_freq_attr_vids_inv {orig : List Nat} {env : Env} {w w1 : World}
    {policy : cpufreq_policy} {buf : List Char} {r : Int}
    (hv : vid_bounded orig w policy.cpu)
    (h : store_freq_attr_vids env w policy buf = some (r, w1)) :
    vid_bounded orig w1 policy.cpu := by
  unfold store_freq_attr_vids at h
  split at h
  · cases h; exact hv
  · rename_i data hdata
    split at h
    · rename_i perf tbl hperf htbl
      split at h
      · cases h; exact hv
      · obtain ⟨d0, hd0, hj⟩ := hv
        rw [hdata] at hd0
        cases hd0
        obtain ⟨hc1, hc2, -, -, hc5⟩ := check_origial_table_inv env hperf hj
        dsimp only at h
        split at h
        · cases h
          exact vid_bounded_set hc1
        · rename_i hz
          obtain ⟨ho, hf⟩ := hc5 (by simpa using hz)
          have hloop := store_freq_attr_vids_loop_ok buf.length orig tbl buf 0 perf.states hf
          rw [ho] at h
          simp only [Option.getD_some] at h
          split at h
          · cases h
            exact vid_bounded_set ⟨_, rfl, Or.inr ⟨rfl, hloop⟩⟩
          · split at h
            · cases h
            · rename_i freq w2 hg
              split at h
              · cases h
              · rename_i r3 w3 ht
                cases h
                have h2 := (get_cur_freq_on_cpu_same hg).1
                have h3 := (acpi_cpufreq_target_same ht).1
                refine vid_bounded_of_same_tables (same_tables_trans h2 h3) ?_
                exact vid_bounded_set ⟨_, rfl, Or.inr ⟨rfl, hloop⟩⟩
    · cases h; exact hv

theorem store_freq_attr_controls_inv {orig : List Nat} {env : Env} {w w1 : World}
    {policy : cpufreq_policy} {buf : List Char} {r : Int}
    (hv : vid_bounded orig w policy.cpu)
    (h : store_freq_attr_controls env w policy buf = some (r, w1)) :
    vid_bounded orig w1 policy.cpu := by
  unfold store_freq_attr_controls at h
  split at h
  · cases h; exact hv
  · rename_i data hdata
    split at h
    · rename_i perf tbl hperf htbl
      split at h
      · cases h; exact hv
      · obtain ⟨d0, hd0, hj⟩ := hv
        rw [hdata] at hd0
        cases hd0
        obtain ⟨hc1, hc2, -, -, hc5⟩ := check_origial_table_inv env hperf hj
        dsimp only at h
        split at h
        · cases h
          exact vid_bounded_set hc1
        · rename_i hz
          obtain ⟨ho, hf⟩ := hc5 (by simpa using hz)
          rw [ho] at h
          simp only [Option.getD_some] at h
          split at h
          · cases h
          · rename_i res hres
            have hloop := store_freq_attr_controls_loop_ok orig _ _ _ res hf hres
            split at h
            · split at h
              · cases h
              · rename_i freq w2 hg
                split at h
                · cases h
                · rename_i r3 w3 ht
                  cases h
                  have h2 := (get_cur_freq_on_cpu_same hg).1
                  have h3 := (acpi_cpufreq_target_same ht).1
                  refine vid_bounded_of_same_tables (same_tables_trans h2 h3) ?_
                  exact vid_bounded_set ⟨_, rfl, Or.inr ⟨rfl, hloop⟩⟩
            · cases h
              exact vid_bounded_set ⟨_, rfl, Or.inr ⟨rfl, hloop⟩⟩
    · cases h; exact hv

theorem resync_isSome (env : Env) (w : World) {policy : cpufreq_policy} (ret : Int)
    (hfirst : policy_first policy) :
    (match get_cur_freq_on_cpu w policy.cpu with
      | none => none
      | some (freq, w2) =>
        match acpi_cpufreq_target env w2 policy freq CPUFREQ_RELATION_L with
        | none => none
        | some (_, w3) => some (ret, w3)).isSome := by
  have h1 := get_cur_freq_on_cpu_isSome w policy.cpu
  cases hg : get_cur_freq_on_cpu w policy.cpu with
  | none => rw [hg] at h1; cases h1
  | some p =>
    obtain ⟨freq, w2⟩ := p
    dsimp only
    have h2 := acpi_cpufreq_target_isSome env w2 freq CPUFREQ_RELATION_L hfirst
    cases ht : acpi_cpufreq_target env w2 policy freq CPUFREQ_RELATION_L with
    | none => rw [ht] at h2; cases h2
    | some q => rfl

theorem store_freq_attr_vids_isSome (env : Env) (w : World) {policy : cpufreq_policy}
    (buf : List Char) (hfirst : policy_first policy) :
    (store_freq_attr_vids env w policy buf).isSome := by
  unfold store_freq_attr_vids
  split
  · rfl
  · split
    · split
      · rfl
      · dsimp only
        split
        · rfl
        · split
          · rfl
          · exact resync_isSome env _ _ hfirst
    · rfl

theorem store_freq_attr_controls_isSome (env : Env) (w : World) {policy : cpufreq_policy}
    (buf : List Char) (hfirst : policy_first policy) :
    (store_freq_attr_controls env w policy buf).isSome := by
  unfold store_freq_attr_controls
  split
  · rfl
  · split
    · split
      · rfl
      · dsimp only
        split
        · rfl
        · rename_i data _ _ _ perf _ _ _ _ _
          have hl := store_freq_attr_controls_loop_isSome
            ((check_origial_table env data perf).2.original_controls.getD [])
            (buf.length + 1) buf perf.states (Nat.lt_succ_self _)
          revert hl
          cases store_freq_attr_controls_loop
            ((check_origial_table env data perf).2.original_controls.getD [])
            (buf.length + 1) buf perf.states with
          | none => intro hl; cases hl
          | some res =>
            intro _
            dsimp only
            split
            · exact resync_isSome env _ _ hfirst
            · rfl
    · rfl

theorem voltage_writes_isSome {policy : cpufreq_policy} (hfirst : policy_first policy) :
    ∀ (calls : List (Env × VoltageWrite)) (w : World), (voltage_writes policy w calls).isSome
  | [], _ => rfl
  | c :: rest, w => by
    unfold voltage_writes
    have h1 : (voltage_write c.1 w policy c.2).isSome := by
      cases hc : c.2 with
      | vids buf => exact store_freq_attr_vids_isSome _ _ _ hfirst
      | controls buf => exact store_freq_attr_controls_isSome _ _ _ hfirst
    cases hv : voltage_write c.1 w policy c.2 with
    | none => rw [hv] at h1; cases h1
    | some r => exact voltage_writes_isSome hfirst rest r.2

theorem voltage_writes_inv {orig : List Nat} {policy : cpufreq_policy} :
    ∀ (calls : List (Env × VoltageWrite)) (w w1 : World),
      vid_bounded orig w policy.cpu → voltage_writes policy w calls = some w1 →
      vid_bounded orig w1 policy.cpu
  | [], w, w1, hv, h => by
    simp only [voltage_writes, Option.some.injEq] at h
    exact h ▸ hv
  | c :: rest, w, w1, hv, h => by
    unfold voltage_writes at h
    split at h
    · cases h
    · rename_i r hr
      obtain ⟨ret, w2⟩ := r
      refine voltage_writes_inv rest w2 w1 ?_ h
      cases hc : c.2 with
      | vids buf =>
        rw [hc] at hr
        exact store_freq_attr_vids_inv hv hr
      | controls buf =>
        rw [hc] at hr
        exact store_freq_attr_controls_inv hv hr
/-- C1: from a core whose snapshot has not been taken, after every sequence of
ordered and paired voltage writes with arbitrary text every platform state has
a voltage-id at most that of its original control value and the frequency-id
of its original control value, and the snapshot, once taken, is the list of
those original control values.  When the policy's core is the first of its
core set, every call of the sequence returns. -/
theorem voltage_writes_never_raise (policy : cpufreq_policy) (w0 : World)
    (d0 : acpi_cpufreq_data) (perf0 : acpi_processor_performance)
    (calls : List (Env × VoltageWrite))
    (h0 : w0.acfreq_data policy.cpu = some d0) (hp : d0.acpi_data = some perf0)
    (hfresh : d0.original_controls = none) :
    (policy_first policy → (voltage_writes policy w0 calls).isSome) ∧
    ∀ w, voltage_writes policy w0 calls = some w →
      ∃ d perf, w.acfreq_data policy.cpu = some d ∧ d.acpi_data = some perf ∧
        (d.original_controls = none ∨
          d.original_controls = some (perf0.states.map fun s => s.control)) ∧
        List.Forall₂ vid_ok (perf0.states.map fun s => s.control) perf.states := by
  refine ⟨fun hfirst => voltage_writes_isSome hfirst calls w0, ?_⟩
  intro w hw
  have hv0 : vid_bounded (perf0.states.map fun s => s.control) w0 policy.cpu :=
    ⟨d0, h0, perf0, hp, Or.inl ⟨hfresh, rfl⟩⟩
  obtain ⟨d, hd, perf, hperf, hj⟩ := voltage_writes_inv calls w0 w hv0 hw
  refine ⟨d, perf, hd, hperf, ?_, ?_⟩
  · rcases hj with ⟨hn, _⟩ | ⟨hs, _⟩
    · exact Or.inl hn
    · exact Or.inr hs
  · rcases hj with ⟨_, hm⟩ | ⟨_, hf⟩
    · rw [← hm]
      exact vid_ok_self perf.states
    · exact hf

theorem voltage_writes_never_raise_witness :
    ∃ w, voltage_writes ex_policy (ex_world 0x0602 1)
        [(ex_env, VoltageWrite.vids "2 9 0\n".toList),
         (ex_env, VoltageWrite.controls "6:1,4:0".toList)] = some w ∧
      control_values w 0 = [0x0802, 0x0601, 0x0400] ∧
      ∃ d perf, w.acfreq_data ex_policy.cpu = some d ∧ d.acpi_data = some perf ∧
        (d.original_controls = none ∨
          d.original_controls = some (ex_perf.states.map fun s => s.control)) ∧
        List.Forall₂ vid_ok (ex_perf.states.map fun s => s.control) perf.states := by
  have h := voltage_writes_never_raise ex_policy (ex_world 0x0602 1) ex_data ex_perf
    [(ex_env, VoltageWrite.vids "2 9 0\n".toList),
     (ex_env, VoltageWrite.controls "6:1,4:0".toList)] rfl rfl rfl
  have hs := h.1 (Or.inr (by decide))
  obtain ⟨w, hw⟩ := Option.isSome_iff_exists.mp hs
  refine ⟨w, hw, ?_, h.2 w hw⟩
  have hc : (voltage_writes ex_policy (ex_world 0x0602 1)
        [(ex_env, VoltageWrite.vids "2 9 0\n".toList),
         (ex_env, VoltageWrite.controls "6:1,4:0".toList)]).map (fun w => control_values w 0)
      = some [0x0802, 0x0601, 0x0400] := by decide
  rw [hw] at hc
  simpa using hc
/-! ## Parsing -/

theorem simple_strtoul_loop_digits (rest : List Char) (hr : stops rest) :
    ∀ (ds : List Char) (result n : Nat), (∀ c ∈ ds, isdigit c = true) →
      simple_strtoul_loop (ds ++ rest) result n =
        (ds.foldl (fun r c => r * 10 + (c.toNat - '0'.toNat)) result, n + ds.length)
  | [], result, n, _ => by
    cases rest with
    | nil => rfl
    | cons c cs =>
      have : isdigit c = false := hr
      simp [simple_strtoul_loop, this]
  | d :: ds, result, n, h => by
    have hd : isdigit d = true := h d (List.mem_cons_self _ _)
    have ih := simple_strtoul_loop_digits rest hr ds (result * 10 + (d.toNat - '0'.toNat)) (n + 1)
      (fun c hc => h c (List.mem_cons_of_mem _ hc))
    rw [List.cons_append, simple_strtoul_loop, if_pos hd, ih, List.foldl_cons, List.length_cons,
      Nat.add_assoc, Nat.add_comm 1]

theorem simple_strtoul_number {ds rest : List Char} (hd : is_number ds) (hr : stops rest) :
    simple_strtoul (ds ++ rest) = (decimal ds, ds.length) := by
  unfold simple_strtoul
  rw [simple_strtoul_loop_digits rest hr ds 0 0 hd.2]
  simp [decimal]

theorem is_number_length {ds : List Char} (hd : is_number ds) : ds.length ≠ 0 := by
  intro h
  exact hd.1 (List.length_eq_zero.mp h)

theorem stops_of_deref {rest : List Char} {c : Char} (h : deref rest = c)
    (hc : isdigit c = false) : stops rest := by
  unfold stops
  rw [h]
  exact hc

/-- The scan of the platform states for one pair is the pair rule on every
state, and reports whether some state carries the frequency-id. -/
theorem store_freq_attr_controls_states_eq (oc : List Nat) (f v : Nat) :
    ∀ (states : List acpi_processor_px) (k : Nat) (found : Bool) (ocs : List Nat),
      oc.drop k = ocs → ocs.length = states.length →
      store_freq_attr_controls_states oc f v states k found =
        (found || decide (f ∈ current_fids states), List.zipWith (pair_rule f v) ocs states)
  | [], _, found, ocs, _, _ => by
    simp [store_freq_attr_controls_states, current_fids]
  | s :: rest, k, found, [], _, hl => by simp at hl
  | s :: rest, k, found, o :: tl, hd, hl => by
    obtain ⟨ho, htl⟩ := drop_cons_getD hd
    have hl1 : tl.length = rest.length := by simpa using hl
    unfold store_freq_attr_controls_states
    dsimp only
    rw [ho]
    split
    · rename_i hf
      rw [store_freq_attr_controls_states_eq oc f v rest (k + 1) true tl htl hl1]
      simp [pair_rule, hf, ho, current_fids]
    · rename_i hf
      rw [store_freq_attr_controls_states_eq oc f v rest (k + 1) found tl htl hl1]
      simp [pair_rule, hf, current_fids]

theorem stops_colon (rest : List Char) : stops (':' :: rest) := by
  show isdigit ':' = false
  decide

/-- One iteration of the pair loop on a well-formed pair. -/
theorem store_freq_attr_controls_loop_pair (oc : List Nat) (fuel : Nat) (p : PairText)
    (rest : List Char) (states : List acpi_processor_px)
    (hp : p.ok) (hr : stops rest) (hl : oc.length = states.length) :
    store_freq_attr_controls_loop oc (fuel + 1) (p.text ++ rest) states =
      if deref rest = ',' ∨ deref rest = ' ' then
        if p.new_fid ∈ current_fids states then
          store_freq_attr_controls_loop oc fuel rest.tail
            (List.zipWith (pair_rule p.new_fid p.new_vid) oc states)
        else some (false, List.zipWith (pair_rule p.new_fid p.new_vid) oc states)
      else some (decide (p.new_fid ∈ current_fids states),
        List.zipWith (pair_rule p.new_fid p.new_vid) oc states) := by
  have e1 : p.text ++ rest = p.fid ++ (':' :: (p.vid ++ rest)) := by simp [PairText.text]
  have s1 : simple_strtoul (p.fid ++ (':' :: (p.vid ++ rest))) = (decimal p.fid, p.fid.length) :=
    simple_strtoul_number hp.1 (stops_colon _)
  have s2 : simple_strtoul (p.vid ++ rest) = (decimal p.vid, p.vid.length) :=
    simple_strtoul_number hp.2 hr
  have n1 := is_number_length hp.1
  have n2 := is_number_length hp.2
  have hst := store_freq_attr_controls_states_eq oc p.new_fid p.new_vid states 0 false oc rfl hl
  rw [e1, store_freq_attr_controls_loop]
  simp only [s1, ne_eq, n1, not_false_eq_true, if_true, List.drop_left, deref, List.headD_cons,
    List.tail_cons, s2, n2]
  simp only [PairText.new_fid, PairText.new_vid] at hst ⊢
  rw [hst]
  simp only [Bool.false_or]
  by_cases hsep : rest.headD NUL = ',' ∨ rest.headD NUL = ' '
  · simp only [hsep, if_true]
    by_cases hf : u32 (decimal p.fid) ∈ current_fids states
    · simp [hf]
    · simp [hf]
  · simp only [hsep, if_false]

theorem extract_fid_u32 (x : Nat) :
    extract_fid_from_control (u32 x) = extract_fid_from_control x := by
  show ((x % 2 ^ 32) &&& 0xff00) >>> 8 = (x &&& 0xff00) >>> 8
  rw [u32_and_ff00]

theorem extract_vid_u32 (x : Nat) :
    extract_vid_from_control (u32 x) = extract_vid_from_control x := by
  show (x % 2 ^ 32) &&& 0xff = x &&& 0xff
  rw [u32_and_ff]

theorem pair_rule_ok {f v o : Nat} {s : acpi_processor_px} (h : vid_ok o s) :
    vid_ok o (pair_rule f v o s) ∧
    extract_fid_from_control (u32 (pair_rule f v o s).control) =
      extract_fid_from_control (u32 s.control) := by
  unfold pair_rule
  split
  · split
    · rename_i hle
      have hn := vid_ok_new_control o v s hle
      refine ⟨hn, ?_⟩
      rw [extract_fid_u32, extract_fid_u32, hn.2, h.2]
    · exact ⟨h, rfl⟩
  · exact ⟨h, rfl⟩

theorem pair_rule_sets_vid (f v o : Nat) (s : acpi_processor_px)
    (hf : f = extract_fid_from_control (u32 s.control))
    (hv : v ≤ extract_vid_from_control (u32 o)) :
    extract_vid_from_control (pair_rule f v o s).control = v := by
  unfold pair_rule
  rw [if_pos hf, if_pos hv]
  exact vid_of_set _ _ (le_trans hv (and_ff_le _))

theorem zipWith_pair_rule_ok (f v : Nat) :
    ∀ {oc : List Nat} {states : List acpi_processor_px}, List.Forall₂ vid_ok oc states →
      List.Forall₂ vid_ok oc (List.zipWith (pair_rule f v) oc states) ∧
      current_fids (List.zipWith (pair_rule f v) oc states) = current_fids states
  | _, _, List.Forall₂.nil => ⟨List.Forall₂.nil, rfl⟩
  | _, _, List.Forall₂.cons hh ht => by
    obtain ⟨h1, h2⟩ := zipWith_pair_rule_ok f v ht
    obtain ⟨h3, h4⟩ := @pair_rule_ok f v _ _ hh
    refine ⟨List.Forall₂.cons h3 h1, ?_⟩
    simp only [current_fids, List.zipWith_cons_cons, List.map_cons] at h2 ⊢
    rw [h4, h2]

theorem zipWith_pair_rule_unmatched {f v : Nat} :
    ∀ {oc : List Nat} {states : List acpi_processor_px}, oc.length = states.length →
      f ∉ current_fids states → List.zipWith (pair_rule f v) oc states = states
  | [], [], _, _ => rfl
  | [], _ :: _, h, _ => by simp at h
  | _ :: _, [], h, _ => by simp at h
  | o :: oc, s :: states, h, hno => by
    have h1 : f ≠ extract_fid_from_control (u32 s.control) := by
      intro he
      exact hno (by simp [current_fids, he])
    have h2 : f ∉ current_fids states := by
      intro he
      exact hno (by simp only [current_fids, List.map_cons, List.mem_cons] at he ⊢; exact Or.inr he)
    have h3 : oc.length = states.length := by simpa using h
    simp only [List.zipWith_cons_cons, zipWith_pair_rule_unmatched h3 h2]
    simp [pair_rule, h1]

theorem apply_pairs_ok (oc : List Nat) :
    ∀ (ps : List PairText) {states : List acpi_processor_px}, List.Forall₂ vid_ok oc states →
      List.Forall₂ vid_ok oc (apply_pairs oc ps states) ∧
      current_fids (apply_pairs oc ps states) = current_fids states
  | [], _, h => ⟨h, rfl⟩
  | p :: ps, _, h => by
    obtain ⟨h1, h2⟩ := zipWith_pair_rule_ok p.new_fid p.new_vid h
    obtain ⟨h3, h4⟩ := apply_pairs_ok oc ps h1
    exact ⟨h3, h4.trans h2⟩

theorem apply_pairs_append (oc : List Nat) (last : PairText) :
    ∀ (qs : List PairText) (st : List acpi_processor_px),
      apply_pairs oc (qs ++ [last]) st =
        List.zipWith (pair_rule last.new_fid last.new_vid) oc (apply_pairs oc qs st)
  | [], _ => rfl
  | q :: qs, st => by
    show apply_pairs oc (qs ++ [last]) _ = _
    rw [apply_pairs_append oc last qs]
    rfl

theorem stops_separator {c : Char} (rest : List Char) (hc : is_separator c) :
    stops (c :: rest) := by
  show isdigit c = false
  rcases hc with h | h <;> subst h <;> decide

/-- The pair loop on a run of well-formed pairs that each name a frequency-id
some state carries, each followed by a separator: the pair rule is applied for
every pair and the loop goes on behind them. -/
theorem store_freq_attr_controls_loop_pairs (oc : List Nat) (tail : List Char) :
    ∀ (ps : List (PairText × Char)) (fuel : Nat) (states : List acpi_processor_px),
      (∀ p ∈ ps, p.1.ok ∧ is_separator p.2 ∧ p.1.new_fid ∈ current_fids states) →
      List.Forall₂ vid_ok oc states →
      store_freq_attr_controls_loop oc (ps.length + fuel) (pairs_text ps ++ tail) states =
        store_freq_attr_controls_loop oc fuel tail
          (apply_pairs oc (ps.map fun p => p.1) states)
  | [], fuel, states, _, _ => by simp [pairs_text, apply_pairs]
  | p :: ps, fuel, states, hps, hf => by
    obtain ⟨hok, hsep, hin⟩ := hps p (List.mem_cons_self _ _)
    obtain ⟨h1, h2⟩ := zipWith_pair_rule_ok p.1.new_fid p.1.new_vid hf
    have hl : oc.length = states.length := hf.length_eq
    have e : pairs_text (p :: ps) ++ tail = p.1.text ++ (p.2 :: (pairs_text ps ++ tail)) := by
      simp [pairs_text]
    have hfuel : (p :: ps).length + fuel = (ps.length + fuel) + 1 := by
      simp only [List.length_cons]; omega
    rw [e, hfuel, store_freq_attr_controls_loop_pair oc _ p.1 _ states hok
      (stops_separator _ hsep) hl]
    have hd : deref (p.2 :: (pairs_text ps ++ tail)) = ',' ∨
        deref (p.2 :: (pairs_text ps ++ tail)) = ' ' := by
      rcases hsep with h | h
      · exact Or.inr h
      · exact Or.inl h
    rw [if_pos hd, if_pos hin, List.tail_cons]
    rw [store_freq_attr_controls_loop_pairs oc tail ps fuel _ ?_ h1]
    · simp [apply_pairs]
    · intro q hq
      obtain ⟨a, b, c⟩ := hps q (List.mem_cons_of_mem _ hq)
      exact ⟨a, b, h2 ▸ c⟩

theorem pairs_text_length : ∀ ps : List (PairText × Char), ps.length ≤ (pairs_text ps).length
  | [] => Nat.le_refl _
  | p :: ps => by
    have := pairs_text_length ps
    simp only [pairs_text, List.length_cons, List.length_append]
    omega

/-! ## The attribute writes in terms of their loops -/

theorem check_origial_table_ok {orig : List Nat} (env : Env) {d : acpi_cpufreq_data}
    {perf : acpi_processor_performance} (hp : d.acpi_data = some perf)
    (hj : snapshot_inv orig d) (hk : d.original_controls = none → env.kcalloc_ok = true) :
    check_origial_table env d perf = (0, { d with original_controls := some orig }) := by
  obtain ⟨perf1, hp1, hj⟩ := hj
  rw [hp] at hp1
  cases hp1
  unfold check_origial_table
  rcases hj with ⟨hn, hm⟩ | ⟨hs, _⟩
  · rw [hn]
    simp [hk hn, hm]
  · rw [hs]
    obtain ⟨a, t, r, f, o⟩ := d
    simp only at hs
    subst hs
    rfl

theorem store_freq_attr_controls_unfold {orig : List Nat} {env : Env} {w : World}
    {policy : cpufreq_policy} {data : acpi_cpufreq_data} {perf : acpi_processor_performance}
    {tbl : List cpufreq_frequency_table} (buf : List Char)
    (hdata : w.acfreq_data policy.cpu = some data) (hperf : data.acpi_data = some perf)
    (htbl : data.freq_table = some tbl) (hmsr : data.cpu_feature = SYSTEM_INTEL_MSR_CAPABLE)
    (hj : snapshot_inv orig data) (hk : data.original_controls = none → env.kcalloc_ok = true) :
    store_freq_attr_controls env w policy buf =
      match store_freq_attr_controls_loop orig (buf.length + 1) buf perf.states with
      | none => none
      | some r =>
        if r.1 then
          match get_cur_freq_on_cpu
              (w.set_data policy.cpu (some (written data perf orig r.2 1))) policy.cpu with
          | none => none
          | some (freq, w2) =>
            match acpi_cpufreq_target env w2 policy freq CPUFREQ_RELATION_L with
            | none => none
            | some (_, w3) => some ((buf.length : Nat), w3)
        else some (-EINVAL, w.set_data policy.cpu (some (written data perf orig r.2 data.resume))) := by
  unfold store_freq_attr_controls
  rw [hdata]
  simp only [hperf, htbl, hmsr, ne_eq, not_true_eq_false, if_false,
    check_origial_table_ok env hperf hj hk, Option.getD_some, written]

theorem store_freq_attr_vids_unfold {orig : List Nat} {env : Env} {w : World}
    {policy : cpufreq_policy} {data : acpi_cpufreq_data} {perf : acpi_processor_performance}
    {tbl : List cpufreq_frequency_table} (buf : List Char)
    (hdata : w.acfreq_data policy.cpu = some data) (hperf : data.acpi_data = some perf)
    (htbl : data.freq_table = some tbl) (hmsr : data.cpu_feature = SYSTEM_INTEL_MSR_CAPABLE)
    (hj : snapshot_inv orig data) (hk : data.original_controls = none → env.kcalloc_ok = true) :
    store_freq_attr_vids env w policy buf =
      if ¬ (store_freq_attr_vids_loop buf.length orig tbl buf 0 perf.states).ok then
        some (-EINVAL, w.set_data policy.cpu (some (written data perf orig
          (store_freq_attr_vids_loop buf.length orig tbl buf 0 perf.states).states data.resume)))
      else
        match get_cur_freq_on_cpu
            (w.set_data policy.cpu (some (written data perf orig
              (store_freq_attr_vids_loop buf.length orig tbl buf 0 perf.states).states 1)))
            policy.cpu with
        | none => none
        | some (freq, w2) =>
          match acpi_cpufreq_target env w2 policy freq CPUFREQ_RELATION_L with
          | none => none
          | some (_, w3) =>
            some (((store_freq_attr_vids_loop buf.length orig tbl buf 0 perf.states).off : Nat),
              w3) := by
  unfold store_freq_attr_vids
  rw [hdata]
  simp only [hperf, htbl, hmsr, ne_eq, not_true_eq_false, if_false,
    check_origial_table_ok env hperf hj hk, Option.getD_some, written]

/-- C2 (as amended): frequency-ids are compared as the 32-bit values the write
reads from the text, the decimal value of the digits modulo 2^32.  An input of
well-formed pairs that each name a frequency-id some state carries, followed
by a well-formed pair whose frequency-id no state carries, makes the paired
write return `InvalidInput` without raising the resync flag or calling the
transition controller; the pairs before the unmatched one have been applied by
the pair rule and stay applied, the unmatched pair and everything behind it
change nothing. -/
theorem store_freq_attr_controls_unmatched (env : Env) (w : World) (policy : cpufreq_policy)
    (data : acpi_cpufreq_data) (perf : acpi_processor_performance)
    (tbl : List cpufreq_frequency_table) (orig : List Nat)
    (ps : List (PairText × Char)) (bad : PairText) (rest : List Char)
    (hdata : w.acfreq_data policy.cpu = some data) (hperf : data.acpi_data = some perf)
    (htbl : data.freq_table = some tbl) (hmsr : data.cpu_feature = SYSTEM_INTEL_MSR_CAPABLE)
    (hj : snapshot_inv orig data) (hk : data.original_controls = none → env.kcalloc_ok = true)
    (hps : ∀ p ∈ ps, p.1.ok ∧ is_separator p.2 ∧
      u32 (decimal p.1.fid) ∈ current_fids perf.states)
    (hbad : bad.ok) (hno : u32 (decimal bad.fid) ∉ current_fids perf.states)
    (hrest : stops rest) :
    store_freq_attr_controls env w policy (pairs_text ps ++ (bad.text ++ rest)) =
      some (-EINVAL, w.set_data policy.cpu (some (written data perf orig
        (apply_pairs orig (ps.map fun p => p.1) perf.states) data.resume))) := by
  have hps : ∀ p ∈ ps, p.1.ok ∧ is_separator p.2 ∧ p.1.new_fid ∈ current_fids perf.states := hps
  have hno : bad.new_fid ∉ current_fids perf.states := hno
  have hf : List.Forall₂ vid_ok orig perf.states := by
    obtain ⟨perf1, hp1, h⟩ := hj
    rw [hperf] at hp1
    cases hp1
    rcases h with ⟨_, hm⟩ | ⟨_, hf⟩
    · exact hm ▸ vid_ok_self perf.states
    · exact hf
  obtain ⟨hf1, hfid⟩ := apply_pairs_ok orig (ps.map fun p => p.1) hf
  have hlen : ps.length ≤ (pairs_text ps ++ (bad.text ++ rest)).length := by
    have := pairs_text_length ps
    simp only [List.length_append]
    omega
  obtain ⟨k, hk1⟩ : ∃ k, (pairs_text ps ++ (bad.text ++ rest)).length + 1 = ps.length + (k + 1) :=
    ⟨(pairs_text ps ++ (bad.text ++ rest)).length - ps.length, by omega⟩
  have hloop : store_freq_attr_controls_loop orig
      ((pairs_text ps ++ (bad.text ++ rest)).length + 1) (pairs_text ps ++ (bad.text ++ rest))
      perf.states = some (false, apply_pairs orig (ps.map fun p => p.1) perf.states) := by
    rw [hk1, store_freq_attr_controls_loop_pairs orig _ ps (k + 1) perf.states hps hf,
      store_freq_attr_controls_loop_pair orig k bad rest _ hbad hrest hf1.length_eq, hfid]
    have hz : List.zipWith (pair_rule bad.new_fid bad.new_vid) orig
        (apply_pairs orig (ps.map fun p => p.1) perf.states) =
        apply_pairs orig (ps.map fun p => p.1) perf.states := by
      rw [← hfid] at hno
      exact zipWith_pair_rule_unmatched hf1.length_eq hno
    simp [hno, hz]
  rw [store_freq_attr_controls_unfold _ hdata hperf htbl hmsr hj hk, hloop]
  simp

theorem store_freq_attr_controls_unmatched_witness :
    store_freq_attr_controls ex_env (ex_world 0x0602 0) ex_policy "6:1,3:0".toList =
      some (-EINVAL, (ex_world 0x0602 0).set_data 0 (some (written ex_data ex_perf
        [0x0803, 0x0602, 0x0401]
        [⟨3000, 0, 10, 10, 0x0803, 0x0803⟩, ⟨2600, 0, 10, 10, 0x0601, 0x0602⟩,
         ⟨2200, 0, 10, 10, 0x0401, 0x0401⟩] 1))) :=
  store_freq_attr_controls_unmatched ex_env (ex_world 0x0602 0) ex_policy ex_data ex_perf
    ex_table [0x0803, 0x0602, 0x0401] [(⟨['6'], ['1']⟩, ',')] ⟨['3'], ['0']⟩ []
    rfl rfl rfl rfl ⟨ex_perf, rfl, Or.inl ⟨rfl, rfl⟩⟩ (fun _ => rfl)
    (by
      intro p hp
      simp only [List.mem_singleton] at hp
      subst hp
      exact ⟨⟨⟨by decide, by decide⟩, ⟨by decide, by decide⟩⟩, Or.inr rfl, by decide⟩)
    ⟨⟨by decide, by decide⟩, ⟨by decide, by decide⟩⟩ (by decide)
    (by show isdigit (deref []) = false; decide)

/-- C2 (counterexample): on the example platform the input `6:1,3:0` names the
frequency-id 3, which no state carries; the paired write returns `InvalidInput`
and yet the state matched by the earlier pair `6:1` has changed from 0x0602 to
0x0601.  The input `4294967302:1` names the frequency-id 4294967302, which no
state carries either; the paired write reads it as 6, returns the input length
12 and lowers the state of frequency-id 6 to 0x0601. -/
theorem store_freq_attr_controls_not_atomic :
    3 ∉ current_fids ex_perf.states ∧
    control_values (ex_world 0x0602 0) 0 = [0x0803, 0x0602, 0x0401] ∧
    (store_freq_attr_controls ex_env (ex_world 0x0602 0) ex_policy "6:1,3:0".toList).map
      (fun r => (r.1, control_values r.2 0)) = some (-EINVAL, [0x0803, 0x0601, 0x0401]) ∧
    ¬ ((store_freq_attr_controls ex_env (ex_world 0x0602 0) ex_policy "6:1,3:0".toList).map
      (fun r => control_values r.2 0) = some (control_values (ex_world 0x0602 0) 0)) ∧
    4294967302 ∉ current_fids ex_perf.states ∧
    (store_freq_attr_controls ex_env (ex_world 0x0602 0) ex_policy "4294967302:1".toList).map
      (fun r => (r.1, control_values r.2 0)) = some (12, [0x0803, 0x0601, 0x0401]) := by
  decide

/-- The resync at the end of a successful write returns and leaves the tables
of every core as they are. -/
theorem resync_same (env : Env) (w : World) {policy : cpufreq_policy} (ret : Int)
    (hfirst : policy_first policy) :
    ∃ w3, (match get_cur_freq_on_cpu w policy.cpu with
      | none => none
      | some (freq, w2) =>
        match acpi_cpufreq_target env w2 policy freq CPUFREQ_RELATION_L with
        | none => none
        | some (_, w3) => some (ret, w3)) = some (ret, w3) ∧ same_tables w w3 := by
  have h1 := get_cur_freq_on_cpu_isSome w policy.cpu
  cases hg : get_cur_freq_on_cpu w policy.cpu with
  | none => rw [hg] at h1; cases h1
  | some p =>
    obtain ⟨freq, w2⟩ := p
    have h2 := acpi_cpufreq_target_isSome env w2 freq CPUFREQ_RELATION_L hfirst
    cases ht : acpi_cpufreq_target env w2 policy freq CPUFREQ_RELATION_L with
    | none => rw [ht] at h2; cases h2
    | some q =>
      obtain ⟨r, w3⟩ := q
      refine ⟨w3, ?_, same_tables_trans (get_cur_freq_on_cpu_same hg).1
        (acpi_cpufreq_target_same ht).1⟩
      simp [ht]

theorem same_tables_written {w w3 : World} {cpu : Nat} {data : acpi_cpufreq_data}
    {perf : acpi_processor_performance} {orig : List Nat} {states : List acpi_processor_px}
    {resume : Nat}
    (h : same_tables (w.set_data cpu (some (written data perf orig states resume))) w3) :
    ∃ d1 perf1, w3.acfreq_data cpu = some d1 ∧ d1.acpi_data = some perf1 ∧
      perf1.states = states ∧ d1.original_controls = some orig ∧
      d1.freq_table = data.freq_table ∧ d1.cpu_feature = data.cpu_feature := by
  have hc := h cpu
  simp only [World.set_data, if_true, Option.map_some'] at hc
  cases hd1 : w3.acfreq_data cpu with
  | none => rw [hd1] at hc; simp at hc
  | some d1 =>
    rw [hd1] at hc
    simp only [Option.map_some', Option.some.injEq] at hc
    obtain ⟨ho, ht, hf, hperf⟩ := strip_eq hc
    obtain ⟨perf1, hp1, hs1⟩ := hperf _ rfl
    exact ⟨d1, perf1, rfl, hp1, hs1, ho, ht, hf⟩

theorem control_values_eq {w : World} {cpu : Nat} {d : acpi_cpufreq_data}
    {perf : acpi_processor_performance} (hd : w.acfreq_data cpu = some d)
    (hp : d.acpi_data = some perf) :
    control_values w cpu = perf.states.map fun s => s.control := by
  simp [control_values, hd, hp]

/-- C5 (counterexample): on the example platform with the control values
0x0803, 0x0602 and 0x0401 the pairs of the inputs `6:1, 4:0` and `6:1,4:0 `
are well-formed and each match a state, and yet the paired write returns
`InvalidInput`: behind a separator character it accepts nothing but a pair.
In the input `6:4294967296` the voltage-id exceeds the original voltage-id 2
of the matched state, and yet the write returns the input length 12 and sets
the voltage-id of that state to 0. -/
theorem store_freq_attr_controls_separators :
    control_values (ex_world 0x0602 0) 0 = [0x0803, 0x0602, 0x0401] ∧
    (store_freq_attr_controls ex_env (ex_world 0x0602 0) ex_policy "6:1, 4:0".toList).map
      (fun r => (r.1, control_values r.2 0)) = some (-EINVAL, [0x0803, 0x0601, 0x0401]) ∧
    (store_freq_attr_controls ex_env (ex_world 0x0602 0) ex_policy "6:1,4:0 ".toList).map
      (fun r => (r.1, control_values r.2 0)) = some (-EINVAL, [0x0803, 0x0601, 0x0400]) ∧
    (store_freq_attr_controls ex_env (ex_world 0x0602 0) ex_policy "6:4294967296".toList).map
      (fun r => (r.1, control_values r.2 0)) = some (12, [0x0803, 0x0600, 0x0401]) := by
  decide

/-- C5 (amended): frequency-ids and voltage-ids are the 32-bit values the write
reads from the text, the decimal value of the digits modulo 2^32.  A paired
write whose pairs are all well-formed, follow each other with exactly one
separator character between two pairs and none behind the last pair, and each
name a frequency-id some platform state carries succeeds with the input
length, and the platform states are those the pair rule gives for the pairs in
order: every state that carries the frequency-id of a pair gets the low 32
bits of its snapshot value with the voltage-id of the pair when that does not
exceed its snapshot voltage-id and stays as it is otherwise, and a state no
pair names is unchanged. -/
theorem store_freq_attr_controls_applies (env : Env) (w : World) (policy : cpufreq_policy)
    (data : acpi_cpufreq_data) (perf : acpi_processor_performance)
    (tbl : List cpufreq_frequency_table) (orig : List Nat)
    (ps : List (PairText × Char)) (last : PairText) (rest : List Char)
    (hdata : w.acfreq_data policy.cpu = some data) (hperf : data.acpi_data = some perf)
    (htbl : data.freq_table = some tbl) (hmsr : data.cpu_feature = SYSTEM_INTEL_MSR_CAPABLE)
    (hj : snapshot_inv orig data) (hk : data.original_controls = none → env.kcalloc_ok = true)
    (hps : ∀ p ∈ ps, p.1.ok ∧ is_separator p.2 ∧
      u32 (decimal p.1.fid) ∈ current_fids perf.states)
    (hlast : last.ok) (hin : u32 (decimal last.fid) ∈ current_fids perf.states)
    (hrest : stops rest) (hend : ¬ is_separator (deref rest))
    (hfirst : policy_first policy) :
    ∃ (w1 : World) (d1 : acpi_cpufreq_data) (perf1 : acpi_processor_performance),
      store_freq_attr_controls env w policy (pairs_text ps ++ (last.text ++ rest)) =
        some (((pairs_text ps ++ (last.text ++ rest)).length : Int), w1) ∧
      w1.acfreq_data policy.cpu = some d1 ∧ d1.acpi_data = some perf1 ∧
      d1.original_controls = some orig ∧
      perf1.states = apply_pairs orig ((ps.map fun p => p.1) ++ [last]) perf.states ∧
      (∀ f v o s, f = extract_fid_from_control (u32 s.control) →
        v ≤ extract_vid_from_control (u32 o) →
        extract_vid_from_control (pair_rule f v o s).control = v) := by
  have hps : ∀ p ∈ ps, p.1.ok ∧ is_separator p.2 ∧ p.1.new_fid ∈ current_fids perf.states := hps
  have hin : last.new_fid ∈ current_fids perf.states := hin
  have hf : List.Forall₂ vid_ok orig perf.states := by
    obtain ⟨perf1, hp1, h⟩ := hj
    rw [hperf] at hp1
    cases hp1
    rcases h with ⟨_, hm⟩ | ⟨_, hf⟩
    · exact hm ▸ vid_ok_self perf.states
    · exact hf
  obtain ⟨hf1, hfid⟩ := apply_pairs_ok orig (ps.map fun p => p.1) hf
  have hlen : ps.length ≤ (pairs_text ps ++ (last.text ++ rest)).length := by
    have := pairs_text_length ps
    simp only [List.length_append]
    omega
  obtain ⟨k, hk1⟩ : ∃ k, (pairs_text ps ++ (last.text ++ rest)).length + 1 = ps.length + (k + 1) :=
    ⟨(pairs_text ps ++ (last.text ++ rest)).length - ps.length, by omega⟩
  have happ := apply_pairs_append orig last
  have hloop : store_freq_attr_controls_loop orig
      ((pairs_text ps ++ (last.text ++ rest)).length + 1) (pairs_text ps ++ (last.text ++ rest))
      perf.states = some (true, apply_pairs orig ((ps.map fun p => p.1) ++ [last]) perf.states) := by
    rw [hk1, store_freq_attr_controls_loop_pairs orig _ ps (k + 1) perf.states hps hf,
      store_freq_attr_controls_loop_pair orig k last rest _ hlast hrest hf1.length_eq, hfid,
      happ]
    have hns : ¬ (deref rest = ',' ∨ deref rest = ' ') := fun h =>
      hend (h.elim Or.inr Or.inl)
    simp [hns, hin]
  rw [store_freq_attr_controls_unfold _ hdata hperf htbl hmsr hj hk, hloop]
  simp only [if_true]
  obtain ⟨w3, h3, hsame⟩ := resync_same env (w.set_data policy.cpu (some (written data perf orig
    (apply_pairs orig ((ps.map fun p => p.1) ++ [last]) perf.states) 1)))
    ((pairs_text ps ++ (last.text ++ rest)).length : Int) hfirst
  obtain ⟨d1, perf1, hd1, hp1, hs1, ho1, -, -⟩ := same_tables_written hsame
  refine ⟨w3, d1, perf1, ?_, hd1, hp1, ho1, hs1, pair_rule_sets_vid⟩
  simpa [World.set_data] using h3

theorem store_freq_attr_controls_applies_witness :
    ∃ w1, store_freq_attr_controls ex_env (ex_world 0x0602 0) ex_policy "6:1,4:0".toList =
        some (7, w1) ∧
      control_values w1 0 = [0x0803, 0x0601, 0x0400] := by
  obtain ⟨w1, d1, perf1, h1, h2, h3, _, h5, _⟩ :=
    store_freq_attr_controls_applies ex_env (ex_world 0x0602 0) ex_policy ex_data ex_perf
      ex_table [0x0803, 0x0602, 0x0401] [(⟨['6'], ['1']⟩, ',')] ⟨['4'], ['0']⟩ []
      rfl rfl rfl rfl ⟨ex_perf, rfl, Or.inl ⟨rfl, rfl⟩⟩ (fun _ => rfl)
      (by
        intro p hp
        simp only [List.mem_singleton] at hp
        subst hp
        exact ⟨⟨⟨by decide, by decide⟩, ⟨by decide, by decide⟩⟩, Or.inr rfl, by decide⟩)
      ⟨⟨by decide, by decide⟩, ⟨by decide, by decide⟩⟩ (by decide)
      (by show isdigit (deref []) = false; decide)
      (by unfold is_separator; decide)
      (Or.inr (by decide))
  refine ⟨w1, h1, ?_⟩
  have h6 : perf1.states.map (fun s => s.control) = [0x0803, 0x0601, 0x0400] := by
    rw [h5]; decide
  exact (control_values_eq h2 h3).trans h6
/-! ## The ordered write on well-formed tokens -/

theorem skip_separators_run (count : Nat) (rest : List Char)
    (hrest : ¬ is_separator (deref rest)) :
    ∀ (seps : List Char) (off : Nat), (∀ c ∈ seps, is_separator c) →
      off + (seps ++ rest).length = count →
      skip_separators count (seps ++ rest) off = (rest, off + seps.length)
  | [], off, _, _ => by
    cases rest with
    | nil => rfl
    | cons c cs =>
      have hc : ¬ (c = ' ' ∨ c = ',') := hrest
      simp [skip_separators, hc]
  | s :: seps, off, hs, hlen => by
    have h1 : s = ' ' ∨ s = ',' := hs s (List.mem_cons_self _ _)
    have h2 : off < count := by
      simp only [List.cons_append, List.length_cons] at hlen
      omega
    have ih := skip_separators_run count rest hrest seps (off + 1)
      (fun c hc => hs c (List.mem_cons_of_mem _ hc))
      (by simp only [List.cons_append, List.length_cons] at hlen ⊢; omega)
    rw [List.cons_append, skip_separators, if_pos ⟨h2, h1⟩, ih, List.length_cons,
      Nat.add_assoc, Nat.add_comm 1]

/-- One iteration of the token loop on a well-formed token. -/
theorem store_freq_attr_vids_loop_token (count : Nat) (oc : List Nat)
    (e : cpufreq_frequency_table) (tbl : List cpufreq_frequency_table)
    (t : List Char × List Char) (rest : List Char) (off : Nat)
    (states : List acpi_processor_px)
    (he : e.frequency ≠ CPUFREQ_TABLE_END) (hnum : is_number t.1)
    (hsep : ∀ c ∈ t.2, is_separator c) (hstop : stops (t.2 ++ rest))
    (hrest : ¬ is_separator (deref rest)) (hlen : off + (t.1 ++ t.2 ++ rest).length = count) :
    store_freq_attr_vids_loop count oc (e :: tbl) (t.1 ++ t.2 ++ rest) off states =
      store_freq_attr_vids_loop count oc tbl rest (off + (t.1 ++ t.2).length)
        (vid_rule oc e (token_vid t) states) := by
  have s1 : simple_strtoul (t.1 ++ (t.2 ++ rest)) = (decimal t.1, t.1.length) :=
    simple_strtoul_number hnum hstop
  have n1 := is_number_length hnum
  have hsk := skip_separators_run count rest hrest t.2 (off + t.1.length) hsep
    (by simp only [List.length_append] at hlen ⊢; omega)
  rw [List.append_assoc, store_freq_attr_vids_loop, if_neg he]
  simp only [s1, n1, if_false, List.drop_left, hsk]
  simp only [vid_rule, token_vid, List.length_append, Nat.add_assoc]

theorem vids_text_cons (t : List Char × List Char) (ts : List (List Char × List Char))
    (tail : List Char) :
    vids_text (t :: ts) ++ tail = t.1 ++ t.2 ++ (vids_text ts ++ tail) := by
  simp [vids_text]

/-- The token loop on a run of well-formed tokens, one per table entry: the
tokens are applied in order and the loop goes on behind them. -/
theorem store_freq_attr_vids_loop_tokens (count : Nat) (oc : List Nat)
    (tbl : List cpufreq_frequency_table) (tail : List Char) :
    ∀ (es : List cpufreq_frequency_table) (ts : List (List Char × List Char)) (off : Nat)
      (states : List acpi_processor_px),
      es.length = ts.length → (∀ e ∈ es, e.frequency ≠ CPUFREQ_TABLE_END) →
      tokens_ok ts tail → off + (vids_text ts ++ tail).length = count →
      store_freq_attr_vids_loop count oc (es ++ tbl) (vids_text ts ++ tail) off states =
        store_freq_attr_vids_loop count oc tbl tail (off + (vids_text ts).length)
          (apply_vids oc es ts states)
  | [], [], off, states, _, _, _, _ => by simp [vids_text, apply_vids]
  | [], _ :: _, _, _, h, _, _, _ => by simp at h
  | _ :: _, [], _, _, h, _, _, _ => by simp at h
  | e :: es, t :: ts, off, states, hl, hes, hok, hlen => by
    obtain ⟨hn, hs, hst, hns, hok1⟩ := hok
    have hlen1 : off + (t.1 ++ t.2 ++ (vids_text ts ++ tail)).length = count := by
      rw [← vids_text_cons]; exact hlen
    rw [vids_text_cons, List.cons_append,
      store_freq_attr_vids_loop_token count oc e (es ++ tbl) t (vids_text ts ++ tail) off states
        (hes e (List.mem_cons_self _ _)) hn hs hst hns hlen1,
      store_freq_attr_vids_loop_tokens count oc tbl tail es ts _ _ (by simpa using hl)
        (fun e he => hes e (List.mem_cons_of_mem _ he)) hok1
        (by simp only [List.length_append] at hlen1 ⊢; omega)]
    simp only [vids_text, apply_vids, List.length_append, Nat.add_assoc]
theorem vid_rule_length (oc : List Nat) (e : cpufreq_frequency_table) (v : Nat)
    (states : List acpi_processor_px) : (vid_rule oc e v states).length = states.length := by
  unfold vid_rule
  split <;> simp

theorem vid_rule_getD_self (oc : List Nat) (e : cpufreq_frequency_table) (v : Nat)
    (states : List acpi_processor_px) (h : e.index < states.length) :
    (vid_rule oc e v states).getD e.index px0 =
      { states.getD e.index px0 with
        control := vid_result (oc.getD e.index 0) v (states.getD e.index px0).control } := by
  unfold vid_rule vid_result
  split
  · simp [List.getD_eq_getElem?_getD, List.getElem?_set, h]
  · rfl

theorem vid_rule_getD_other (oc : List Nat) (e : cpufreq_frequency_table) (v : Nat)
    (states : List acpi_processor_px) {j : Nat} (h : j ≠ e.index) :
    (vid_rule oc e v states).getD j px0 = states.getD j px0 := by
  unfold vid_rule
  split
  · simp [List.getD_eq_getElem?_getD, List.getElem?_set, Ne.symm h]
  · rfl

theorem apply_vids_length (oc : List Nat) :
    ∀ (es : List cpufreq_frequency_table) (ts : List (List Char × List Char))
      (states : List acpi_processor_px), (apply_vids oc es ts states).length = states.length
  | [], _, _ => by simp [apply_vids]
  | _ :: _, [], _ => by simp [apply_vids]
  | e :: es, t :: ts, states => by
    rw [apply_vids, apply_vids_length oc es ts, vid_rule_length]

theorem apply_vids_getD_other (oc : List Nat) {j : Nat} :
    ∀ (es : List cpufreq_frequency_table) (ts : List (List Char × List Char))
      (states : List acpi_processor_px), j ∉ es.map (fun e => e.index) →
      (apply_vids oc es ts states).getD j px0 = states.getD j px0
  | [], _, _, _ => by simp [apply_vids]
  | _ :: _, [], _, _ => by simp [apply_vids]
  | e :: es, t :: ts, states, h => by
    simp only [List.map_cons, List.mem_cons, not_or] at h
    rw [apply_vids, apply_vids_getD_other oc es ts _ h.2, vid_rule_getD_other oc e _ states h.1]

theorem apply_vids_getD_entry (oc : List Nat) :
    ∀ (es : List cpufreq_frequency_table) (ts : List (List Char × List Char))
      (states : List acpi_processor_px),
      (es.map fun e => e.index).Nodup → (∀ e ∈ es, e.index < states.length) →
      ∀ e t, (e, t) ∈ es.zip ts →
        (apply_vids oc es ts states).getD e.index px0 =
          { states.getD e.index px0 with
            control := vid_result (oc.getD e.index 0) (token_vid t)
              (states.getD e.index px0).control }
  | [], _, _, _, _, _, _, h => by simp at h
  | _ :: _, [], _, _, _, _, _, h => by simp at h
  | e0 :: es, t0 :: ts, states, hnd, hin, e, t, h => by
    simp only [List.map_cons, List.nodup_cons] at hnd
    simp only [List.zip_cons_cons, List.mem_cons, Prod.mk.injEq] at h
    rw [apply_vids]
    rcases h with ⟨rfl, rfl⟩ | h
    · rw [apply_vids_getD_other oc es ts _ hnd.1,
        vid_rule_getD_self oc e _ states (hin e (List.mem_cons_self _ _))]
    · have hne : e.index ≠ e0.index := by
        intro he
        apply hnd.1
        rw [← he]
        exact List.mem_map_of_mem _ (List.of_mem_zip h).1
      rw [apply_vids_getD_entry oc es ts _ hnd.2
        (fun e he => by rw [vid_rule_length]; exact hin e (List.mem_cons_of_mem _ he)) e t h,
        vid_rule_getD_other oc e0 _ states hne]
theorem snapshot_inv_forall₂ {orig : List Nat} {data : acpi_cpufreq_data}
    {perf : acpi_processor_performance} (hperf : data.acpi_data = some perf)
    (hj : snapshot_inv orig data) : List.Forall₂ vid_ok orig perf.states := by
  obtain ⟨perf1, hp1, h⟩ := hj
  rw [hperf] at hp1
  cases hp1
  rcases h with ⟨_, hm⟩ | ⟨_, hf⟩
  · exact hm ▸ vid_ok_self perf.states
  · exact hf

theorem tb_u32_small {o i : Nat} (ho : o < 2 ^ 32) (hi : 32 ≤ i) : o.testBit i = false := by
  apply Nat.testBit_eq_false_of_lt
  calc o < 2 ^ 32 := ho
    _ ≤ 2 ^ i := Nat.pow_le_pow_right (by norm_num) hi

/-- What an applied voltage-id does to the bits of a control value: the low
byte is the voltage-id and, for a snapshot value that fits the 32-bit register
value, every higher bit is the one of the snapshot value. -/
theorem vid_result_bits (o v c : Nat) (hv : v ≤ u32 o &&& INTEL_MSR_VID_MASK) :
    vid_result o v c = (u32 o &&& NOT_INTEL_MSR_VID_MASK) ||| v ∧
    vid_result o v c &&& 0xff = v ∧
    (o < 2 ^ 32 → vid_result o v c >>> 8 = o >>> 8) := by
  have h255 : v ≤ 255 := le_trans hv (and_ff_le _)
  have h1 : vid_result o v c = (u32 o &&& NOT_INTEL_MSR_VID_MASK) ||| v := by
    unfold vid_result
    rw [if_pos hv]
  refine ⟨h1, ?_, ?_⟩
  · rw [h1]
    exact vid_of_set _ _ h255
  · intro ho
    rw [h1]
    have hu : u32 o = o := Nat.mod_eq_of_lt ho
    rw [hu]
    apply Nat.eq_of_testBit_eq
    intro i
    show (((o &&& 0xffffff00) ||| v) >>> 8).testBit i = (o >>> 8).testBit i
    simp only [Nat.testBit_shiftRight, Nat.testBit_or, Nat.testBit_and, tb_ffffff00]
    have h8 : 8 ≤ 8 + i := by omega
    rw [tb_small h255 h8]
    by_cases h32 : 8 + i < 32
    · simp [h8, h32]
    · simp [h32, tb_u32_small ho (by omega : 32 ≤ 8 + i)]

theorem store_freq_attr_vids_loop_end (count : Nat) (oc : List Nat)
    (later : List cpufreq_frequency_table) (tail : List Char) (off : Nat)
    (states : List acpi_processor_px)
    (hend : (∀ x, later.head? = some x → x.frequency = CPUFREQ_TABLE_END) ∨ tail = ['\n'])
    (hlen : off + tail.length = count) :
    (store_freq_attr_vids_loop count oc later tail off states).ok = true ∧
    (store_freq_attr_vids_loop count oc later tail off states).states = states := by
  cases later with
  | nil => exact ⟨rfl, rfl⟩
  | cons x xs =>
    rw [store_freq_attr_vids_loop]
    by_cases hx : x.frequency = CPUFREQ_TABLE_END
    · rw [if_pos hx]; exact ⟨rfl, rfl⟩
    · rcases hend with h | h
      · exact absurd (h x rfl) hx
      · subst h
        have h1 : off + 1 = count := by simpa using hlen
        rw [if_neg hx]
        have hs : (simple_strtoul ['\n']).2 = 0 := by decide
        have hd : deref ['\n'] = '\n' := rfl
        simp only [hs, if_true, h1, hd, and_self]

/-- C4 (counterexample): on the example platform the first token of the input
`4294967296 2 1` exceeds the snapshot voltage-id 3 of the first entry, and yet
the ordered write changes the control value of that state from 0x0803 to
0x0800: the token is read as 0.  On a platform with the control values
0x100000803 and 0x100000602 the input `2 1` leaves the control values 0x0802
and 0x0601: the bits above the low 32 of the original control values are
lost. -/
theorem store_freq_attr_vids_wraps :
    control_values (ex_world 0x0602 0) 0 = [0x0803, 0x0602, 0x0401] ∧
    (store_freq_attr_vids ex_env (ex_world 0x0602 0) ex_policy
      "4294967296 2 1\n".toList).map (fun r => (r.1, control_values r.2 0)) =
      some (14, [0x0800, 0x0602, 0x0401]) ∧
    ((acpi_cpufreq_cpu_init wide_env boot_world ex_policy).bind fun r =>
      (store_freq_attr_vids wide_env r.2.1 r.2.2 "2 1\n".toList).map fun q =>
        (r.1, q.1, control_values r.2.1 0, control_values q.2 0)) =
      some (0, 3, [0x100000803, 0x100000602], [0x0802, 0x0601]) := by
  decide

/-- C4 (amended): in an ordered write of well-formed tokens, one per table
entry in order, the voltage-id `v` of each token, read as the 32-bit value of
its decimal text (the decimal value modulo 2^32), is applied to the platform
state of its entry if and only if `v` does not exceed the snapshot voltage-id
of that state: when applied, the control value becomes the low 32 bits of the
snapshot value with the low byte replaced by `v` (the snapshot value with only
its low byte replaced when it fits 32 bits); when `v` exceeds the bound the
control value stays as it is, the call does not fail, and the later tokens are
processed by the same rule.  States of no entry with a token are unchanged. -/
theorem store_freq_attr_vids_applies (env : Env) (w : World) (policy : cpufreq_policy)
    (data : acpi_cpufreq_data) (perf : acpi_processor_performance) (orig : List Nat)
    (es later : List cpufreq_frequency_table)
    (ts : List (List Char × List Char)) (tail : List Char)
    (hdata : w.acfreq_data policy.cpu = some data) (hperf : data.acpi_data = some perf)
    (htbl : data.freq_table = some (es ++ later))
    (hmsr : data.cpu_feature = SYSTEM_INTEL_MSR_CAPABLE)
    (hj : snapshot_inv orig data) (hk : data.original_controls = none → env.kcalloc_ok = true)
    (hl : es.length = ts.length) (hes : ∀ x ∈ es, x.frequency ≠ CPUFREQ_TABLE_END)
    (hnd : (es.map fun x => x.index).Nodup) (hin : ∀ x ∈ es, x.index < perf.states.length)
    (hok : tokens_ok ts tail)
    (hend : (∀ x, later.head? = some x → x.frequency = CPUFREQ_TABLE_END) ∨ tail = ['\n'])
    (hfirst : policy_first policy) :
    ∃ (ret : Int) (w1 : World) (d1 : acpi_cpufreq_data) (perf1 : acpi_processor_performance),
      store_freq_attr_vids env w policy (vids_text ts ++ tail) = some (ret, w1) ∧ 0 ≤ ret ∧
      w1.acfreq_data policy.cpu = some d1 ∧ d1.acpi_data = some perf1 ∧
      (∀ x t, (x, t) ∈ es.zip ts →
        perf1.states.getD x.index px0 =
          { perf.states.getD x.index px0 with
            control :=
              if u32 (decimal t.1) ≤ u32 (orig.getD x.index 0) &&& INTEL_MSR_VID_MASK then
                (u32 (orig.getD x.index 0) &&& NOT_INTEL_MSR_VID_MASK) ||| u32 (decimal t.1)
              else (perf.states.getD x.index px0).control }) ∧
      (∀ x t, (x, t) ∈ es.zip ts →
        u32 (decimal t.1) ≤ u32 (orig.getD x.index 0) &&& INTEL_MSR_VID_MASK →
        (perf1.states.getD x.index px0).control &&& 0xff = u32 (decimal t.1) ∧
        (orig.getD x.index 0 < 2 ^ 32 →
          (perf1.states.getD x.index px0).control >>> 8 = orig.getD x.index 0 >>> 8)) ∧
      (∀ j, j ∉ es.map (fun x => x.index) → perf1.states.getD j px0 = perf.states.getD j px0) := by
  have hloop := store_freq_attr_vids_loop_tokens (vids_text ts ++ tail).length orig later tail
    es ts 0 perf.states hl hes hok (by simp)
  obtain ⟨hok1, hst1⟩ := store_freq_attr_vids_loop_end (vids_text ts ++ tail).length orig later
    tail (0 + (vids_text ts).length) (apply_vids orig es ts perf.states) hend (by simp)
  rw [← hloop] at hok1 hst1
  rw [store_freq_attr_vids_unfold _ hdata hperf htbl hmsr hj hk, hst1]
  simp only [hok1, not_true_eq_false, if_false]
  obtain ⟨w3, h3, hsame⟩ := resync_same env (w.set_data policy.cpu (some (written data perf orig
    (apply_vids orig es ts perf.states) 1)))
    ((store_freq_attr_vids_loop (vids_text ts ++ tail).length orig (es ++ later)
      (vids_text ts ++ tail) 0 perf.states).off : Int) hfirst
  obtain ⟨d1, perf1, hd1, hp1, hs1, -, -, -⟩ := same_tables_written hsame
  refine ⟨((store_freq_attr_vids_loop (vids_text ts ++ tail).length orig (es ++ later)
      (vids_text ts ++ tail) 0 perf.states).off : Nat), w3, d1, perf1, ?_,
    Int.natCast_nonneg _, hd1, hp1, ?_, ?_, ?_⟩
  · simpa [World.set_data] using h3
  · rw [hs1]
    exact apply_vids_getD_entry orig es ts perf.states hnd hin
  · rw [hs1]
    intro x t hxt hv
    rw [apply_vids_getD_entry orig es ts perf.states hnd hin x t hxt]
    exact (vid_result_bits _ _ _ hv).2
  · rw [hs1]
    exact fun j hj => apply_vids_getD_other orig es ts perf.states hj

theorem store_freq_attr_vids_applies_witness :
    ∃ (ret : Int) (w1 : World),
      store_freq_attr_vids ex_env (ex_world 0x0602 0) ex_policy "2 9,0\n".toList =
        some (ret, w1) ∧ 0 ≤ ret ∧
      control_values w1 0 = [0x0802, 0x0602, 0x0400] := by
  obtain ⟨ret, w1, d1, perf1, h1, h2, -, -, -, -, -⟩ :=
    store_freq_attr_vids_applies ex_env (ex_world 0x0602 0) ex_policy ex_data ex_perf
      [0x0803, 0x0602, 0x0401] [⟨0, 3000000⟩, ⟨1, 2600000⟩, ⟨2, 2200000⟩]
      [⟨0, CPUFREQ_TABLE_END⟩] [(['2'], [' ']), (['9'], [',']), (['0'], [])] ['\n']
      rfl rfl rfl rfl ⟨ex_perf, rfl, Or.inl ⟨rfl, rfl⟩⟩ (fun _ => rfl) rfl
      (by decide) (by decide) (by decide)
      (by
        refine ⟨⟨by decide, by decide⟩, by unfold is_separator; decide, ?_, ?_,
          ⟨by decide, by decide⟩, by unfold is_separator; decide, ?_, ?_,
          ⟨by decide, by decide⟩, by unfold is_separator; decide, ?_, ?_, trivial⟩
        · show isdigit ' ' = false; decide
        · show ¬ is_separator '9'
          unfold is_separator; decide
        · show isdigit ',' = false; decide
        · show ¬ is_separator '0'
          unfold is_separator; decide
        · show isdigit '\n' = false; decide
        · show ¬ is_separator '\n'
          unfold is_separator; decide)
      (Or.inl (by decide)) (Or.inr (by decide))
  refine ⟨ret, w1, h1, h2, ?_⟩
  have hc : (store_freq_attr_vids ex_env (ex_world 0x0602 0) ex_policy
      (vids_text [(['2'], [' ']), (['9'], [',']), (['0'], [])] ++ ['\n'])).map
      (fun r => control_values r.2 0) = some [0x0802, 0x0602, 0x0400] := by decide
  rw [h1] at hc
  simpa using hc
/-! ## Initialisation -/

theorem accepted_entries_length_le :
    ∀ (states : List acpi_processor_px) (i last : Nat),
      (accepted_entries states i last).length ≤ states.length
  | [], _, _ => Nat.le_refl _
  | s :: rest, i, last => by
    unfold accepted_entries
    split
    · exact Nat.le_succ_of_le (accepted_entries_length_le rest _ _)
    · simp only [List.length_cons]
      exact Nat.succ_le_succ (accepted_entries_length_le rest _ _)

theorem getD_append_last (pre1 post : List cpufreq_frequency_table)
    (l : cpufreq_frequency_table) :
    (pre1 ++ [l] ++ post).getD ((pre1 ++ [l]).length - 1) entry0 = l := by
  induction pre1 with
  | nil => rfl
  | cons a pre1 ih =>
    simp only [List.cons_append, List.length_cons, List.length_append, List.length_nil,
      Nat.zero_add, Nat.add_sub_cancel] at ih ⊢
    exact ih

/-- The table-building loop writes the accepted entries behind the entries
`pre` it has already written and leaves the other slots as they are. -/
theorem table_init_loop_eq :
    ∀ (states : List acpi_processor_px) (i last : Nat)
      (pre post : List cpufreq_frequency_table),
      states.length + 1 ≤ post.length →
      (0 < i → ∃ pre1 l, pre = pre1 ++ [l] ∧ l.frequency = last) →
      table_init_loop states i (pre ++ post) pre.length =
        (pre ++ accepted_entries states i last ++
          post.drop (accepted_entries states i last).length,
         pre.length + (accepted_entries states i last).length)
  | [], _, _, pre, post, _, _ => by simp [table_init_loop, accepted_entries]
  | s :: rest, i, last, pre, post, hlen, hpre => by
    have hcond : (i > 0 ∧ s.core_frequency ≥
        ((pre ++ post).getD (pre.length - 1) entry0).frequency / 1000) ↔
        (i > 0 ∧ s.core_frequency ≥ last / 1000) := by
      constructor
      · rintro ⟨hi, h⟩
        obtain ⟨pre1, l, rfl, hl⟩ := hpre hi
        refine ⟨hi, ?_⟩
        have : ((pre1 ++ [l] ++ post).getD ((pre1 ++ [l]).length - 1) entry0) = l :=
          getD_append_last pre1 post l
        rw [this, hl] at h
        exact h
      · rintro ⟨hi, h⟩
        obtain ⟨pre1, l, rfl, hl⟩ := hpre hi
        refine ⟨hi, ?_⟩
        have : ((pre1 ++ [l] ++ post).getD ((pre1 ++ [l]).length - 1) entry0) = l :=
          getD_append_last pre1 post l
        rw [this, hl]
        exact h
    rw [table_init_loop, accepted_entries]
    by_cases hc : i > 0 ∧ s.core_frequency ≥ last / 1000
    · rw [if_pos (hcond.mpr hc), if_pos hc]
      exact table_init_loop_eq rest (i + 1) last pre post
        (by simp only [List.length_cons] at hlen; omega) (fun _ => hpre hc.1)
    · rw [if_neg (fun h => hc (hcond.mp h)), if_neg hc]
      cases post with
      | nil => simp at hlen
      | cons y post1 =>
        have hset : (pre ++ y :: post1).set pre.length ⟨i, u32 (s.core_frequency * 1000)⟩ =
            (pre ++ [⟨i, u32 (s.core_frequency * 1000)⟩]) ++ post1 := by
          simp
        have hl1 : pre.length + 1 = (pre ++ [(⟨i, u32 (s.core_frequency * 1000)⟩ :
            cpufreq_frequency_table)]).length := by simp
        rw [hset, hl1, table_init_loop_eq rest (i + 1) (u32 (s.core_frequency * 1000))
          (pre ++ [⟨i, u32 (s.core_frequency * 1000)⟩]) post1
          (by simp only [List.length_cons] at hlen ⊢; omega)
          (fun _ => ⟨pre, _, rfl, rfl⟩)]
        simp [Nat.add_assoc, Nat.add_comm 1]

/-- The table of initialisation: the accepted entries, the sentinel in the slot
behind them, and the untouched rest of the allocation. -/
theorem table_init_eq (perf : acpi_processor_performance) (mem : List cpufreq_frequency_table)
    (hmem : perf.states.length + 1 ≤ mem.length) :
    table_init perf mem =
      (accepted_entries perf.states 0 0 ++
        ⟨(mem.getD (accepted_entries perf.states 0 0).length entry0).index, CPUFREQ_TABLE_END⟩ ::
          mem.drop ((accepted_entries perf.states 0 0).length + 1),
       (accepted_entries perf.states 0 0).length) := by
  have h := table_init_loop_eq perf.states 0 0 [] mem hmem (fun h => absurd h (Nat.lt_irrefl 0))
  simp only [List.nil_append, List.length_nil, Nat.zero_add] at h
  have hle := accepted_entries_length_le perf.states 0 0
  have hlt : (accepted_entries perf.states 0 0).length < mem.length := by omega
  unfold table_init
  simp only [h]
  congr 1
  rw [List.set_append_right _ _ (Nat.le_refl _), Nat.sub_self]
  congr 1
  have hd : List.drop (accepted_entries perf.states 0 0).length mem =
      mem.getD (accepted_entries perf.states 0 0).length entry0 ::
        List.drop ((accepted_entries perf.states 0 0).length + 1) mem := by
    rw [List.getD_eq_getElem _ _ hlt]
    exact List.drop_eq_getElem_cons hlt
  rw [List.getD_append_right _ _ _ _ (Nat.le_refl _), Nat.sub_self, hd]
  simp

theorem u32_lt (x : Nat) : u32 x < 2 ^ 32 := Nat.mod_lt _ (by norm_num)

theorem u32_khz_ne_end (c : Nat) : u32 (c * 1000) ≠ CPUFREQ_TABLE_END := by
  unfold u32 CPUFREQ_TABLE_END
  omega

/-- The accepted entries have strictly decreasing frequencies, none of them the
sentinel value, all below the frequency accepted before them, and strictly
increasing platform indices within the platform states. -/
theorem accepted_entries_sorted :
    ∀ (states : List acpi_processor_px) (i last : Nat), (0 < i → last < 2 ^ 32) →
      ((accepted_entries states i last).map fun e => e.frequency).Pairwise (fun a b => a > b) ∧
      ((accepted_entries states i last).map fun e => e.index).Pairwise (fun a b => a < b) ∧
      ∀ e ∈ accepted_entries states i last,
        i ≤ e.index ∧ e.index < i + states.length ∧ e.frequency ≠ CPUFREQ_TABLE_END ∧
        e.frequency < 2 ^ 32 ∧ (0 < i → e.frequency < last)
  | [], _, _, _ => by simp [accepted_entries]
  | s :: rest, i, last, hlast => by
    unfold accepted_entries
    split
    · obtain ⟨h1, h2, h3⟩ := accepted_entries_sorted rest (i + 1) last (fun _ => hlast (by omega))
      refine ⟨h1, h2, ?_⟩
      intro e he
      obtain ⟨a, b, c, d, f⟩ := h3 e he
      simp only [List.length_cons]
      exact ⟨by omega, by omega, c, d, fun _ => f (by omega)⟩
    · rename_i hc
      obtain ⟨h1, h2, h3⟩ := accepted_entries_sorted rest (i + 1) (u32 (s.core_frequency * 1000))
        (fun _ => u32_lt _)
      have hx : 0 < i → u32 (s.core_frequency * 1000) < last := by
        intro hi
        have hl := hlast hi
        have h4 : s.core_frequency < last / 1000 := by
          by_contra h5
          exact hc ⟨hi, by omega⟩
        have h5 : s.core_frequency * 1000 < last := by omega
        unfold u32
        rw [Nat.mod_eq_of_lt (by omega)]
        exact h5
      refine ⟨?_, ?_, ?_⟩
      · simp only [List.map_cons, List.pairwise_cons]
        refine ⟨?_, h1⟩
        intro b hb
        obtain ⟨e, he, rfl⟩ := List.mem_map.mp hb
        exact (h3 e he).2.2.2.2 (by omega)
      · simp only [List.map_cons, List.pairwise_cons]
        refine ⟨?_, h2⟩
        intro b hb
        obtain ⟨e, he, rfl⟩ := List.mem_map.mp hb
        have := (h3 e he).1
        omega
      · intro e he
        simp only [List.mem_cons] at he
        simp only [List.length_cons]
        rcases he with rfl | he
        · exact ⟨Nat.le_refl _, Nat.lt_add_of_pos_right (Nat.succ_pos _), u32_khz_ne_end _,
            u32_lt _, hx⟩
        · obtain ⟨a, b, c, d, f⟩ := h3 e he
          exact ⟨by omega, by omega, c, d, fun hi => lt_trans (f (by omega)) (hx hi)⟩

/-- What a successful initialisation leaves: the backend is selected, the
table is the table of `table_init` on the allocated slots, the resync flag is
set and no snapshot is taken. -/
theorem acpi_cpufreq_cpu_init_ok {env : Env} {w w1 : World} {policy p1 : cpufreq_policy}
    (h : acpi_cpufreq_cpu_init env w policy = some (0, w1, p1)) :
    ∃ cpu_feature mem st,
      init_cpu_feature env env.acpi_processor_register_performance.2 = some cpu_feature ∧
      env.kmalloc_freq_table = some mem ∧
      w1.acfreq_data policy.cpu = some
        { acpi_data := some { env.acpi_processor_register_performance.2 with state := st },
          freq_table := some (table_init env.acpi_processor_register_performance.2
            ((List.range (env.acpi_processor_register_performance.2.state_count + 1)).map
              mem)).1,
          resume := 1, cpu_feature := cpu_feature, original_controls := none } := by
  have hcpu : (init_policy_cpus env env.acpi_processor_register_performance.2 policy).cpu =
      policy.cpu := by
    unfold init_policy_cpus
    dsimp only
    split_ifs <;> rfl
  unfold acpi_cpufreq_cpu_init at h
  split at h
  · rename_i hb
    simp only [Option.some.injEq, Prod.mk.injEq] at h
    exact absurd h.1 hb
  · split at h
    · rename_i hb
      simp only [Option.some.injEq, Prod.mk.injEq] at h
      exact absurd h.1 hb
    · split at h
      · simp [ENOMEM] at h
      · split at h
        · rename_i hb
          simp only [Option.some.injEq, Prod.mk.injEq] at h
          exact absurd h.1 hb
        · split at h
          · simp [ENODEV] at h
          · rename_i cpu_feature hfeat
            split at h
            · simp [ENOMEM] at h
            · rename_i mem hmem
              refine ⟨cpu_feature, mem, ?_⟩
              unfold init_activate at h
              dsimp only at h
              split at h
              · rename_i hb
                simp only [Option.some.injEq, Prod.mk.injEq] at h
                exact absurd h.1 hb
              · split at h
                · simp only [Option.some.injEq, Prod.mk.injEq, true_and] at h
                  refine ⟨(acpi_cpufreq_guess_freq env
                    env.acpi_processor_register_performance.2).1, hfeat, hmem, ?_⟩
                  rw [← h.1, hcpu]
                  simp [World.set_data]
                · split at h
                  · cases h
                  · simp only [Option.some.injEq, Prod.mk.injEq, true_and] at h
                    refine ⟨0, hfeat, hmem, ?_⟩
                    rw [← h.1, hcpu]
                    simp [World.set_data]
/-- C8: the operating-point table a successful initialisation builds consists
of the accepted entries, whose frequencies are strictly decreasing and none of
which is the sentinel value, followed immediately by the sentinel; this holds
for every platform table, so in particular for one with at least two entries
after deduplication. -/
theorem acpi_cpufreq_cpu_init_table_sorted (env : Env) (w w1 : World)
    (policy p1 : cpufreq_policy)
    (h : acpi_cpufreq_cpu_init env w policy = some (0, w1, p1)) :
    ∃ (data : acpi_cpufreq_data) (sentinel_index : Nat) (rest : List cpufreq_frequency_table),
      w1.acfreq_data policy.cpu = some data ∧
      data.freq_table = some
        (accepted_entries env.acpi_processor_register_performance.2.states 0 0 ++
          ⟨sentinel_index, CPUFREQ_TABLE_END⟩ :: rest) ∧
      ((accepted_entries env.acpi_processor_register_performance.2.states 0 0).map
        fun e => e.frequency).Pairwise (fun a b => a > b) ∧
      ∀ e ∈ accepted_entries env.acpi_processor_register_performance.2.states 0 0,
        e.frequency ≠ CPUFREQ_TABLE_END := by
  obtain ⟨cpu_feature, mem, st, -, -, hd⟩ := acpi_cpufreq_cpu_init_ok h
  obtain ⟨h1, -, h3⟩ := accepted_entries_sorted
    env.acpi_processor_register_performance.2.states 0 0 (fun h => absurd h (Nat.lt_irrefl 0))
  have ht := table_init_eq env.acpi_processor_register_performance.2
    ((List.range (env.acpi_processor_register_performance.2.state_count + 1)).map mem)
    (by simp [acpi_processor_performance.state_count])
  refine ⟨_,
    (((List.range (env.acpi_processor_register_performance.2.state_count + 1)).map mem).getD
      (accepted_entries env.acpi_processor_register_performance.2.states 0 0).length
      entry0).index,
    ((List.range (env.acpi_processor_register_performance.2.state_count + 1)).map mem).drop
      ((accepted_entries env.acpi_processor_register_performance.2.states 0 0).length + 1),
    hd, ?_, h1, fun e he => (h3 e he).2.2.1⟩
  simp only [Option.some.injEq]
  rw [ht]

theorem acpi_cpufreq_cpu_init_table_sorted_witness :
    ∃ w1 p1, acpi_cpufreq_cpu_init ex_env boot_world ex_policy = some (0, w1, p1) ∧
      table_of w1 0 = ex_table ∧
      ∃ (data : acpi_cpufreq_data) (sentinel_index : Nat) (rest : List cpufreq_frequency_table),
        w1.acfreq_data ex_policy.cpu = some data ∧
        data.freq_table = some
          (accepted_entries ex_env.acpi_processor_register_performance.2.states 0 0 ++
            ⟨sentinel_index, CPUFREQ_TABLE_END⟩ :: rest) ∧
        ((accepted_entries ex_env.acpi_processor_register_performance.2.states 0 0).map
          fun e => e.frequency).Pairwise (fun a b => a > b) ∧
        ∀ e ∈ accepted_entries ex_env.acpi_processor_register_performance.2.states 0 0,
          e.frequency ≠ CPUFREQ_TABLE_END := by
  have hs : (acpi_cpufreq_cpu_init ex_env boot_world ex_policy).map
      (fun r => (r.1, table_of r.2.1 0)) = some (0, ex_table) := by decide
  cases hr : acpi_cpufreq_cpu_init ex_env boot_world ex_policy with
  | none => rw [hr] at hs; cases hs
  | some r =>
    obtain ⟨ret, w1, p1⟩ := r
    rw [hr] at hs
    simp only [Option.map_some', Option.some.injEq, Prod.mk.injEq] at hs
    obtain ⟨rfl, ht⟩ := hs
    exact ⟨w1, p1, rfl, ht, acpi_cpufreq_cpu_init_table_sorted ex_env boot_world w1 ex_policy p1 hr⟩

/-- C9 (as amended): initialisation fails with `UnsupportedPlatform` and leaves
the core without runtime state whenever the platform table has fewer than two
platform states; the number of accepted entries is not looked at. -/
theorem acpi_cpufreq_cpu_init_no_states (env : Env) (w : World) (policy : cpufreq_policy)
    (hb : w.blacklisted = 0) (hb1 : acpi_cpufreq_blacklist env.cpu_data = 0)
    (hz : env.kzalloc_ok = true) (hr : env.acpi_processor_register_performance.1 = 0)
    (hc : env.acpi_processor_register_performance.2.state_count ≤ 1) :
    ∃ w1 p1, acpi_cpufreq_cpu_init env w policy = some (-ENODEV, w1, p1) ∧
      w1.acfreq_data policy.cpu = none := by
  refine ⟨{ w with blacklisted := acpi_cpufreq_blacklist env.cpu_data }.set_data policy.cpu none,
    init_policy_cpus env env.acpi_processor_register_performance.2 policy, ?_, ?_⟩
  · unfold acpi_cpufreq_cpu_init
    simp [hb, hb1, hz, hr, init_cpu_feature, hc]
  · simp [World.set_data]

theorem acpi_cpufreq_cpu_init_no_states_witness :
    ∃ w1 p1,
      acpi_cpufreq_cpu_init
        { ex_env with
          acpi_processor_register_performance :=
            (0, { ex_perf with states := [⟨3000, 0, 10, 10, 0x0803, 0x0803⟩] }) }
        boot_world ex_policy = some (-ENODEV, w1, p1) ∧
      w1.acfreq_data ex_policy.cpu = none :=
  acpi_cpufreq_cpu_init_no_states _ boot_world ex_policy rfl rfl rfl rfl (by decide)

/-- C9 (counterexample): a platform table of two states that share one
frequency yields a table with a single accepted entry, and initialisation
succeeds and leaves the core with runtime state. -/
theorem acpi_cpufreq_cpu_init_flat_accepted :
    (accepted_entries flat_perf.states 0 0).length = 1 ∧
    (acpi_cpufreq_cpu_init flat_env boot_world ex_policy).map
      (fun r => (r.1, (r.2.1.acfreq_data 0).isSome, table_of r.2.1 0)) =
      some (0, true, [⟨0, 2000000⟩, ⟨0, CPUFREQ_TABLE_END⟩, ⟨0, 0⟩]) := by
  decide
/-! ## Events of the transition controller -/

theorem get_cur_val_read {w : World} {mask : List Nat} {d : acpi_cpufreq_data}
    {perf : acpi_processor_performance} (hmask : mask ≠ [])
    (hd : w.acfreq_data (cpumask_first mask) = some d) (hp : d.acpi_data = some perf)
    (hb : has_backend d) :
    get_cur_val w mask = some (u32 (w.hw_read w.nreads),
      { w with nreads := w.nreads + 1, log := w.log ++ [Event.drv_read (read_cmd d mask)] }) := by
  unfold get_cur_val
  rw [if_neg hmask, hd]
  dsimp only
  rcases hb with hb | hb
  · rw [if_pos hb]
    simp [drv_read, read_cmd, hb]
  · have hne : d.cpu_feature ≠ SYSTEM_INTEL_MSR_CAPABLE := by rw [hb]; decide
    rw [if_neg hne, if_pos hb, hp]
    simp [drv_read, read_cmd, hne, hp]

theorem get_cur_val_log {w w1 : World} {mask : List Nat} {v : Nat}
    (h : get_cur_val w mask = some (v, w1)) : ∃ es, w1.log = w.log ++ es := by
  unfold get_cur_val at h
  split at h
  · cases h; exact ⟨[], by simp⟩
  · split at h
    · cases h
    · split at h
      · cases h; exact ⟨_, rfl⟩
      · split at h
        · split at h
          · cases h
          · cases h; exact ⟨_, rfl⟩
        · cases h; exact ⟨[], by simp⟩

theorem check_freqs_loop_log {mask : List Nat} {freq : Nat} {data : acpi_cpufreq_data} :
    ∀ (n : Nat) {w w1 : World} {r : Nat}, check_freqs_loop mask freq data n w = some (r, w1) →
      ∃ es, w1.log = w.log ++ es
  | 0, w, w1, r, h => by
    simp only [check_freqs_loop] at h
    cases h; exact ⟨[], by simp⟩
  | n + 1, w, w1, r, h => by
    simp only [check_freqs_loop] at h
    split at h
    · cases h
    · rename_i val w2 hg
      obtain ⟨es, hes⟩ := get_cur_val_log hg
      split at h
      · cases h; exact ⟨es, hes⟩
      · obtain ⟨es1, hes1⟩ := check_freqs_loop_log n h
        exact ⟨es ++ [Event.udelay 10] ++ es1, by
          rw [hes1]; simp [World.emit, hes]⟩

/-- Polls that never find the frequency use up the whole budget. -/
theorem check_freqs_loop_timeout {mask : List Nat} {freq : Nat} {data d : acpi_cpufreq_data}
    {perf : acpi_processor_performance} (hmask : mask ≠ []) (hp : d.acpi_data = some perf)
    (hb : has_backend d) :
    ∀ (n : Nat) (w : World), w.acfreq_data (cpumask_first mask) = some d →
      (∀ k, k < n → extract_freq (u32 (w.hw_read (w.nreads + k))) data ≠ freq) →
      check_freqs_loop mask freq data n w =
        some (0, { w with nreads := w.nreads + n, log := w.log ++ polls (read_cmd d mask) n })
  | 0, w, _, _ => by simp [check_freqs_loop, polls]
  | n + 1, w, hd, hne => by
    rw [check_freqs_loop, get_cur_val_read hmask hd hp hb]
    dsimp only
    have h0 : extract_freq (u32 (w.hw_read w.nreads)) data ≠ freq := hne 0 (Nat.succ_pos _)
    rw [if_neg h0,
      check_freqs_loop_timeout hmask hp hb n _ (by simpa [World.emit] using hd)
        (fun k hk => by
          have := hne (k + 1) (by omega)
          simpa [World.emit, Nat.add_assoc, Nat.add_comm 1] using this)]
    simp [World.emit, polls, Nat.add_assoc, Nat.add_comm 1]

theorem acpi_cpufreq_target_write_log {w w1 : World} {policy : cpufreq_policy}
    {data : acpi_cpufreq_data} {perf : acpi_processor_performance}
    {freq_table : List cpufreq_frequency_table} {next_state : Nat} {r : Int} {cmd : drv_cmd}
    (hcmd : target_cmd data perf (freq_table.getD next_state entry0).index (target_mask policy)
      = some cmd)
    (h : acpi_cpufreq_target_write w policy data perf freq_table next_state = some (r, w1)) :
    ∃ rest, w1.log = w.log ++ (target_notify policy
        (u32 ((perf.states.getD perf.state px0).core_frequency * 1000))
        (freq_table.getD next_state entry0).frequency CPUFREQ_PRECHANGE ++
      Event.drv_write cmd :: rest) := by
  unfold acpi_cpufreq_target_write at h
  rw [hcmd] at h
  dsimp only at h
  split at h
  · split at h
    · cases h
    · rename_i ok w4 hchk
      obtain ⟨es, hes⟩ := check_freqs_loop_log 100 hchk
      split at h
      · cases h
        exact ⟨es, by rw [hes]; simp [drv_write, World.emit]⟩
      · cases h
        exact ⟨es ++ target_notify policy
            (u32 ((perf.states.getD perf.state px0).core_frequency * 1000))
            (freq_table.getD next_state entry0).frequency CPUFREQ_POSTCHANGE, by
          simp [target_finish, World.set_data, World.emit, hes, drv_write]⟩
  · cases h
    exact ⟨target_notify policy
        (u32 ((perf.states.getD perf.state px0).core_frequency * 1000))
        (freq_table.getD next_state entry0).frequency CPUFREQ_POSTCHANGE, by
      simp [target_finish, World.set_data, World.emit, drv_write]⟩

theorem target_cmd_some {data : acpi_cpufreq_data} (perf : acpi_processor_performance)
    (next_perf_state : Nat) (mask : List Nat) (hb : has_backend data) :
    ∃ cmd, target_cmd data perf next_perf_state mask = some cmd ∧
      cmd.val = u32 (perf.states.getD next_perf_state px0).control ∧ cmd.mask = mask ∧
      cmd.type = data.cpu_feature ∧
      (data.cpu_feature = SYSTEM_INTEL_MSR_CAPABLE → cmd.msr_reg = MSR_IA32_PERF_CTL) := by
  unfold target_cmd
  rcases hb with hb | hb
  · rw [if_pos hb]
    exact ⟨_, rfl, rfl, rfl, hb.symm, fun _ => rfl⟩
  · have hne : data.cpu_feature ≠ SYSTEM_INTEL_MSR_CAPABLE := by rw [hb]; decide
    rw [if_neg hne, if_pos hb]
    exact ⟨_, rfl, rfl, rfl, hb.symm, fun h => absurd h hne⟩
/-- C6: when the requested frequency resolves to the platform state that is
already current, `acpi_cpufreq_target` with the resync flag clear returns
success and changes nothing: no register write, no notification, the same
current state.  With the resync flag set, on a core with a backend, every
return of the call has sent the pre-change notifications and then issued the
register write with the control value of that state (and the call returns when
the policy's core is the first of its core set).  The flag is set by the resume
callback and by every successful initialisation. -/
theorem acpi_cpufreq_target_at_current (env : Env) (w : World) (policy : cpufreq_policy)
    (target_freq relation : Nat) (data : acpi_cpufreq_data)
    (perf : acpi_processor_performance) (tbl : List cpufreq_frequency_table) (next_state : Nat)
    (hdata : w.acfreq_data policy.cpu = some data) (hperf : data.acpi_data = some perf)
    (htbl : data.freq_table = some tbl)
    (hres : env.cpufreq_frequency_table_target policy tbl target_freq relation = some next_state)
    (hcur : perf.state = (tbl.getD next_state entry0).index) :
    (data.resume = 0 → acpi_cpufreq_target env w policy target_freq relation = some (0, w)) ∧
    (data.resume ≠ 0 → has_backend data →
      (policy_first policy →
        (acpi_cpufreq_target env w policy target_freq relation).isSome) ∧
      ∀ r w1, acpi_cpufreq_target env w policy target_freq relation = some (r, w1) →
        ∃ cmd rest,
          w1.log = w.log ++ (target_notify policy
              (u32 ((perf.states.getD perf.state px0).core_frequency * 1000))
              (tbl.getD next_state entry0).frequency CPUFREQ_PRECHANGE ++
            Event.drv_write cmd :: rest) ∧
          cmd.val = u32 (perf.states.getD perf.state px0).control ∧
          cmd.mask = target_mask policy ∧ cmd.type = data.cpu_feature) ∧
    acpi_cpufreq_resume w policy =
      some (0, w.set_data policy.cpu (some { data with resume := 1 })) ∧
    (∀ env0 w0 policy0 w1 p1, acpi_cpufreq_cpu_init env0 w0 policy0 = some (0, w1, p1) →
      ∃ d, w1.acfreq_data policy0.cpu = some d ∧ d.resume = 1) := by
  have hunf : acpi_cpufreq_target env w policy target_freq relation =
      if data.resume ≠ 0 then
        acpi_cpufreq_target_write (w.set_data policy.cpu (some { data with resume := 0 }))
          policy { data with resume := 0 } perf tbl next_state
      else some (0, w) := by
    unfold acpi_cpufreq_target
    rw [hdata]
    simp only [hperf, htbl, hres, hcur, if_true]
  refine ⟨?_, ?_, ?_, ?_⟩
  · intro h0
    rw [hunf, if_neg (by simpa using h0)]
  · intro h1 hb
    refine ⟨fun hfirst => acpi_cpufreq_target_isSome env w target_freq relation hfirst, ?_⟩
    intro r w1 h
    rw [hunf, if_pos h1] at h
    have hb0 : has_backend { data with resume := 0 } := hb
    obtain ⟨cmd, hcmd, hval, hmask, htype, -⟩ := target_cmd_some perf
      (tbl.getD next_state entry0).index (target_mask policy) hb0
    obtain ⟨rest, hlog⟩ := acpi_cpufreq_target_write_log hcmd h
    refine ⟨cmd, rest, ?_, ?_, hmask, htype⟩
    · simpa [World.set_data] using hlog
    · rw [hval, hcur]
  · unfold acpi_cpufreq_resume
    rw [hdata]
  · intro env0 w0 policy0 w1 p1 h
    obtain ⟨f, mem, st, -, -, hd⟩ := acpi_cpufreq_cpu_init_ok h
    exact ⟨_, hd, rfl⟩

theorem acpi_cpufreq_target_at_current_witness :
    (acpi_cpufreq_target ex_env (ex_world 0x0803 0) ex_policy 3000000 CPUFREQ_RELATION_L).map
      (fun r => (r.1, r.2.log)) =
      some (0, [Event.notify 0 3000000 3000000 CPUFREQ_PRECHANGE,
        Event.drv_write ⟨SYSTEM_INTEL_MSR_CAPABLE, [0], MSR_IA32_PERF_CTL, 0, 0, 0x0803⟩,
        Event.notify 0 3000000 3000000 CPUFREQ_POSTCHANGE]) ∧
    (ex_data.resume ≠ 0 → has_backend ex_data →
      (policy_first ex_policy →
        (acpi_cpufreq_target ex_env (ex_world 0x0803 0) ex_policy 3000000
          CPUFREQ_RELATION_L).isSome) ∧
      ∀ r w1, acpi_cpufreq_target ex_env (ex_world 0x0803 0) ex_policy 3000000
          CPUFREQ_RELATION_L = some (r, w1) →
        ∃ cmd rest,
          w1.log = (ex_world 0x0803 0).log ++ (target_notify ex_policy
              (u32 ((ex_perf.states.getD ex_perf.state px0).core_frequency * 1000))
              (ex_table.getD 0 entry0).frequency CPUFREQ_PRECHANGE ++
            Event.drv_write cmd :: rest) ∧
          cmd.val = u32 (ex_perf.states.getD ex_perf.state px0).control ∧
          cmd.mask = target_mask ex_policy ∧ cmd.type = ex_data.cpu_feature) :=
  ⟨by decide,
   (acpi_cpufreq_target_at_current ex_env (ex_world 0x0803 0) ex_policy 3000000
      CPUFREQ_RELATION_L ex_data ex_perf ex_table 0 rfl rfl rfl (by decide) rfl).2.1⟩

/-- C7: in strict mode, when a transition reaches the write phase and each of
the 100 register reads after the write extracts a frequency other than the one
of the target entry, `acpi_cpufreq_target` returns `TransitionTimeout`; the
events of the call are the pre-change notifications, the register write and
exactly 100 polls (a read and a delay each), with no post-change notification,
and the recorded current state is the one before the call. -/
theorem acpi_cpufreq_target_timeout (env : Env) (w : World) (policy : cpufreq_policy)
    (target_freq relation : Nat) (data : acpi_cpufreq_data)
    (perf : acpi_processor_performance) (tbl : List cpufreq_frequency_table) (next_state : Nat)
    (hdata : w.acfreq_data policy.cpu = some data) (hperf : data.acpi_data = some perf)
    (htbl : data.freq_table = some tbl)
    (hres : env.cpufreq_frequency_table_target policy tbl target_freq relation = some next_state)
    (hgo : perf.state ≠ (tbl.getD next_state entry0).index ∨ data.resume ≠ 0)
    (hb : has_backend data) (hstrict : w.acpi_pstate_strict ≠ 0)
    (hmask : target_mask policy ≠ [])
    (hfirst : cpumask_first (target_mask policy) = policy.cpu)
    (hne : ∀ k, k < 100 → extract_freq (u32 (w.hw_read (w.nreads + k))) data ≠
      (tbl.getD next_state entry0).frequency) :
    ∃ w1 cmd,
      acpi_cpufreq_target env w policy target_freq relation = some (-EAGAIN, w1) ∧
      w1.log = w.log ++ (target_notify policy
          (u32 ((perf.states.getD perf.state px0).core_frequency * 1000))
          (tbl.getD next_state entry0).frequency CPUFREQ_PRECHANGE ++
        Event.drv_write cmd :: polls (read_cmd data (target_mask policy)) 100) ∧
      cmd.val = u32 (perf.states.getD (tbl.getD next_state entry0).index px0).control ∧
      w1.nreads = w.nreads + 100 ∧
      current_state w1 policy.cpu = some perf.state := by
  -- the write phase on a world `v` whose runtime state `d` is `data` up to the flag
  have hwrite : ∀ (v : World) (d : acpi_cpufreq_data),
      v.acfreq_data policy.cpu = some d → d.acpi_data = some perf →
      d.cpu_feature = data.cpu_feature → (∀ x, extract_freq x d = extract_freq x data) →
      read_cmd d (target_mask policy) = read_cmd data (target_mask policy) →
      v.acpi_pstate_strict = w.acpi_pstate_strict → v.hw_read = w.hw_read →
      v.nreads = w.nreads → v.log = w.log →
      ∃ w1 cmd,
        acpi_cpufreq_target_write v policy d perf tbl next_state = some (-EAGAIN, w1) ∧
        w1.log = w.log ++ (target_notify policy
            (u32 ((perf.states.getD perf.state px0).core_frequency * 1000))
            (tbl.getD next_state entry0).frequency CPUFREQ_PRECHANGE ++
          Event.drv_write cmd :: polls (read_cmd data (target_mask policy)) 100) ∧
        cmd.val = u32 (perf.states.getD (tbl.getD next_state entry0).index px0).control ∧
        w1.nreads = w.nreads + 100 ∧
        current_state w1 policy.cpu = some perf.state := by
    intro v d hvd hdp hdf hde hrc hvs hvh hvn hvl
    have hbd : has_backend d := by unfold has_backend; rw [hdf]; exact hb
    obtain ⟨cmd, hcmd, hval, hcm, -, -⟩ := target_cmd_some perf
      (tbl.getD next_state entry0).index (target_mask policy) hbd
    have hloop := @check_freqs_loop_timeout (target_mask policy)
      (tbl.getD next_state entry0).frequency d d perf hmask hdp hbd 100
      (drv_write (v.emit (target_notify policy
        (u32 ((perf.states.getD perf.state px0).core_frequency * 1000))
        (tbl.getD next_state entry0).frequency CPUFREQ_PRECHANGE)) cmd)
      (by rw [hfirst]; simpa [drv_write, World.emit] using hvd)
      (by
        intro k hk
        rw [hde]
        simpa [drv_write, World.emit, hvh, hvn] using hne k hk)
    refine ⟨{ drv_write (v.emit (target_notify policy
        (u32 ((perf.states.getD perf.state px0).core_frequency * 1000))
        (tbl.getD next_state entry0).frequency CPUFREQ_PRECHANGE)) cmd with
        nreads := (drv_write (v.emit (target_notify policy
          (u32 ((perf.states.getD perf.state px0).core_frequency * 1000))
          (tbl.getD next_state entry0).frequency CPUFREQ_PRECHANGE)) cmd).nreads + 100,
        log := (drv_write (v.emit (target_notify policy
          (u32 ((perf.states.getD perf.state px0).core_frequency * 1000))
          (tbl.getD next_state entry0).frequency CPUFREQ_PRECHANGE)) cmd).log ++
          polls (read_cmd d (target_mask policy)) 100 }, cmd, ?_, ?_, hval, ?_, ?_⟩
    · unfold acpi_cpufreq_target_write
      rw [hcmd]
      dsimp only
      rw [if_pos (by simpa [drv_write, World.emit, hvs] using hstrict), hcm]
      unfold check_freqs
      rw [hloop]
      rfl
    · simp [drv_write, World.emit, hvl, hrc]
    · simp [drv_write, World.emit, hvn]
    · simp [current_state, drv_write, World.emit, hvd, hdp]
  have hunf : acpi_cpufreq_target env w policy target_freq relation =
      if perf.state = (tbl.getD next_state entry0).index then
        if data.resume ≠ 0 then
          acpi_cpufreq_target_write (w.set_data policy.cpu (some { data with resume := 0 }))
            policy { data with resume := 0 } perf tbl next_state
        else some (0, w)
      else acpi_cpufreq_target_write w policy data perf tbl next_state := by
    unfold acpi_cpufreq_target
    rw [hdata]
    simp only [hperf, htbl, hres]
  rw [hunf]
  by_cases hc : perf.state = (tbl.getD next_state entry0).index
  · have hr : data.resume ≠ 0 := hgo.resolve_left (fun h => h hc)
    rw [if_pos hc, if_pos hr]
    exact hwrite (w.set_data policy.cpu (some { data with resume := 0 }))
      { data with resume := 0 } (by simp [World.set_data]) hperf rfl
      (fun _ => rfl) rfl rfl rfl rfl rfl
  · rw [if_neg hc]
    exact hwrite w data hdata hperf rfl (fun _ => rfl) rfl rfl rfl rfl rfl

theorem acpi_cpufreq_target_timeout_witness :
    ∃ w1 cmd,
      acpi_cpufreq_target ex_env (ex_world 0x0803 1) ex_policy 2600000 CPUFREQ_RELATION_L =
        some (-EAGAIN, w1) ∧
      w1.log = (ex_world 0x0803 1).log ++ (target_notify ex_policy
          (u32 ((ex_perf.states.getD ex_perf.state px0).core_frequency * 1000))
          (ex_table.getD 1 entry0).frequency CPUFREQ_PRECHANGE ++
        Event.drv_write cmd :: polls (read_cmd ex_data (target_mask ex_policy)) 100) ∧
      cmd.val = u32 (ex_perf.states.getD (ex_table.getD 1 entry0).index px0).control ∧
      w1.nreads = (ex_world 0x0803 1).nreads + 100 ∧
      current_state w1 ex_policy.cpu = some ex_perf.state :=
  acpi_cpufreq_target_timeout ex_env (ex_world 0x0803 1) ex_policy 2600000 CPUFREQ_RELATION_L
    ex_data ex_perf ex_table 1 rfl rfl rfl (by decide) (Or.inl (by decide))
    (Or.inl rfl) (by decide) (by decide) (by decide)
    (fun _ _ => by
      show extract_freq (u32 0x0803) ex_data ≠ (ex_table.getD 1 entry0).frequency
      decide)
/-! ## The resync at the end of a voltage write -/

theorem tb_ffff (i : Nat) : (0xffff : Nat).testBit i = decide (i < 16) := by
  have h : (0xffff : Nat) = 2 ^ 16 - 1 := by decide
  rw [h, Nat.testBit_two_pow_sub_one]

theorem tb_ffff0000 (i : Nat) :
    (0xffff0000 : Nat).testBit i = (decide (16 ≤ i) && decide (i < 32)) := by
  have h : (0xffff0000 : Nat) = (2 ^ 16 - 1) <<< 16 := by decide
  rw [h, Nat.testBit_shiftLeft, Nat.testBit_two_pow_sub_one]
  by_cases h16 : 16 ≤ i
  · simp [h16]
    omega
  · simp [h16]

/-- C17: the model-register write of `val` over a register holding the 32-bit
halves `lo` and `hi` stores `hi` as it was and a low half whose bits 0 to 15
are those of `val` and whose bits from 16 on are those of `lo`: it is `lo` with
its low 16 bits cleared plus the low 16 bits of `val`, again a 32-bit value. -/
theorem do_drv_write_msr_frame (lo hi val : Nat) (hlo : lo < 2 ^ 32) :
    (do_drv_write_msr lo hi val).2 = hi ∧
    (∀ i, (do_drv_write_msr lo hi val).1.testBit i =
      if i < 16 then val.testBit i else lo.testBit i) ∧
    (do_drv_write_msr lo hi val).1 = 2 ^ 16 * (lo / 2 ^ 16) + val % 2 ^ 16 ∧
    (do_drv_write_msr lo hi val).1 < 2 ^ 32 := by
  have hbits : ∀ i, (do_drv_write_msr lo hi val).1.testBit i =
      if i < 16 then val.testBit i else lo.testBit i := by
    intro i
    simp only [do_drv_write_msr, NOT_INTEL_MSR_RANGE, INTEL_MSR_RANGE, Nat.testBit_or,
      Nat.testBit_and, tb_ffff, tb_ffff0000]
    by_cases h16 : i < 16
    · simp [h16, Nat.not_le.mpr h16]
    · by_cases h32 : i < 32
      · simp [h16, h32, Nat.not_lt.mp h16]
      · simp [h16, h32, Nat.not_lt.mp h16, tb_u32_small hlo (Nat.not_lt.mp h32)]
  have heq : (do_drv_write_msr lo hi val).1 = 2 ^ 16 * (lo / 2 ^ 16) + val % 2 ^ 16 := by
    apply Nat.eq_of_testBit_eq
    intro i
    rw [hbits, Nat.testBit_mul_pow_two_add _ (Nat.mod_lt _ (by norm_num))]
    by_cases h16 : i < 16
    · rw [if_pos h16, if_pos h16, Nat.testBit_mod_two_pow]
      simp [h16]
    · rw [if_neg h16, if_neg h16, ← Nat.shiftRight_eq_div_pow, Nat.testBit_shiftRight]
      congr 1
      omega
  refine ⟨rfl, hbits, heq, ?_⟩
  rw [heq]
  omega

theorem do_drv_write_msr_frame_witness :
    0x12340803 < 2 ^ 32 ∧ do_drv_write_msr 0x12340803 0x77 0xabcd0601 = (0x12340601, 0x77) ∧
    (do_drv_write_msr 0x12340803 0x77 0xabcd0601).2 = 0x77 ∧
    (∀ i, (do_drv_write_msr 0x12340803 0x77 0xabcd0601).1.testBit i =
      if i < 16 then (0xabcd0601 : Nat).testBit i else (0x12340803 : Nat).testBit i) ∧
    (do_drv_write_msr 0x12340803 0x77 0xabcd0601).1 =
      2 ^ 16 * (0x12340803 / 2 ^ 16) + 0xabcd0601 % 2 ^ 16 ∧
    (do_drv_write_msr 0x12340803 0x77 0xabcd0601).1 < 2 ^ 32 :=
  ⟨by decide, by decide, do_drv_write_msr_frame 0x12340803 0x77 0xabcd0601 (by decide)⟩

/-! ## Failed resolution -/

/-- C12: when the resolution of the requested frequency and relation to a
table entry fails, `acpi_cpufreq_target` returns `NotSupported` and the world
after the call is the world before it: the event log has no new notification
and no register write, and the runtime state of the core, with its recorded
current state and its resync flag, is untouched. -/
theorem acpi_cpufreq_target_unresolved (env : Env) (w : World) (policy : cpufreq_policy)
    (target_freq relation : Nat) (data : acpi_cpufreq_data)
    (perf : acpi_processor_performance) (tbl : List cpufreq_frequency_table)
    (hdata : w.acfreq_data policy.cpu = some data) (hperf : data.acpi_data = some perf)
    (htbl : data.freq_table = some tbl)
    (hres : env.cpufreq_frequency_table_target policy tbl target_freq relation = none) :
    acpi_cpufreq_target env w policy target_freq relation = some (-ENODEV, w) := by
  unfold acpi_cpufreq_target
  rw [hdata]
  simp only [hperf, htbl, hres]

theorem acpi_cpufreq_target_unresolved_witness :
    table_target_model { ex_policy with min := 5000000, max := 6000000 } ex_table 2600000
      CPUFREQ_RELATION_L = none ∧
    acpi_cpufreq_target ex_env (ex_world 0x0803 0)
      { ex_policy with min := 5000000, max := 6000000 } 2600000 CPUFREQ_RELATION_L =
      some (-ENODEV, ex_world 0x0803 0) :=
  ⟨by decide,
   acpi_cpufreq_target_unresolved ex_env (ex_world 0x0803 0)
    { ex_policy with min := 5000000, max := 6000000 } 2600000 CPUFREQ_RELATION_L
    ex_data ex_perf ex_table rfl rfl rfl (by decide)⟩

/-! ## The voltage override without the model-register backend -/

/-- C14: on a core that fails the capability check of the voltage override (no
runtime state, no platform table, no operating-point table, or a backend other
than the model-register one), each of the five attribute reads and the two
attribute writes returns `NoDevice` and leaves the world as it was: no
snapshot, no changed control value, the same resync flag, no event. -/
theorem voltage_override_no_device (env : Env) (w : World) (policy : cpufreq_policy)
    (buf : List Char)
    (hcap : check_cpu_control_capability (w.acfreq_data policy.cpu) = false) :
    show_freq_attr_vids w policy = (-ENODEV, [], w) ∧
    show_freq_attr_default_vids env w policy = (-ENODEV, [], w) ∧
    show_freq_attr_fids w policy = (-ENODEV, [], w) ∧
    show_freq_attr_controls w policy = (-ENODEV, [], w) ∧
    show_freq_attr_default_controls env w policy = (-ENODEV, [], w) ∧
    store_freq_attr_vids env w policy buf = some (-ENODEV, w) ∧
    store_freq_attr_controls env w policy buf = some (-ENODEV, w) := by
  unfold check_cpu_control_capability at hcap
  unfold show_freq_attr_vids show_freq_attr_default_vids show_freq_attr_fids
    show_freq_attr_controls show_freq_attr_default_controls store_freq_attr_vids
    store_freq_attr_controls
  cases hd : w.acfreq_data policy.cpu with
  | none => simp
  | some d =>
    rw [hd] at hcap
    cases ha : d.acpi_data with
    | none => simp [ha]
    | some perf =>
      cases ht : d.freq_table with
      | none => simp [ha, ht]
      | some tbl =>
        have hne : d.cpu_feature ≠ SYSTEM_INTEL_MSR_CAPABLE := by
          intro h
          simp [ha, ht, h] at hcap
        simp [ha, ht, hne]

theorem voltage_override_no_device_witness :
    flat_data.cpu_feature = SYSTEM_IO_CAPABLE ∧
    show_freq_attr_vids flat_world ex_policy = (-ENODEV, [], flat_world) ∧
    show_freq_attr_default_vids ex_env flat_world ex_policy = (-ENODEV, [], flat_world) ∧
    show_freq_attr_fids flat_world ex_policy = (-ENODEV, [], flat_world) ∧
    show_freq_attr_controls flat_world ex_policy = (-ENODEV, [], flat_world) ∧
    show_freq_attr_default_controls ex_env flat_world ex_policy = (-ENODEV, [], flat_world) ∧
    store_freq_attr_vids ex_env flat_world ex_policy "3 4\n".toList =
      some (-ENODEV, flat_world) ∧
    store_freq_attr_controls ex_env flat_world ex_policy "0:3".toList =
      some (-ENODEV, flat_world) :=
  ⟨rfl, voltage_override_no_device ex_env flat_world ex_policy _ (by decide)⟩

/-! ## Frequency of a raw register value -/

theorem extract_msr_loop_eq (fid : Nat) (perf : acpi_processor_performance) (first : Nat) :
    ∀ tbl : List cpufreq_frequency_table,
      extract_msr_loop fid perf first tbl =
        match (table_entries tbl).find? fun e => decide (fid =
            (perf.states.getD e.index px0).status &&& INTEL_MSR_FID_MASK) with
        | some e => e.frequency
        | none => first
  | [] => rfl
  | e :: rest => by
    rw [extract_msr_loop]
    by_cases hend : e.frequency = CPUFREQ_TABLE_END
    · simp [hend, table_entries]
    · rw [if_neg hend]
      have ht : table_entries (e :: rest) = e :: table_entries rest := by
        simp [table_entries, hend]
      rw [ht]
      by_cases hm : fid = (perf.states.getD e.index px0).status &&& INTEL_MSR_FID_MASK
      · rw [if_pos hm, List.find?_cons_of_pos _ (by simpa using hm)]
      · rw [if_neg hm, List.find?_cons_of_neg _ (by simpa using hm)]
        exact extract_msr_loop_eq fid perf first rest

theorem table_entries_head {tbl : List cpufreq_frequency_table} (h : table_entries tbl ≠ []) :
    ∃ e rest, table_entries tbl = e :: rest ∧ tbl.getD 0 entry0 = e := by
  cases tbl with
  | nil => exact absurd rfl h
  | cons e rest =>
    by_cases hend : e.frequency = CPUFREQ_TABLE_END
    · exact absurd (by simp [table_entries, hend]) h
    · exact ⟨e, table_entries rest, by simp [table_entries, hend], rfl⟩

/-- C20 (as amended): for the model-register backend `extract_msr` returns the
frequency of the first table entry whose platform state has a status value
with the frequency-id bits (8 to 15) of the raw value, the voltage-id bits (0
to 7) not being compared, and the frequency of slot 0 when no entry matches;
for a table with at least one entry the result is the frequency of one of its
entries. -/
theorem extract_msr_first_match (msr : Nat) (data : acpi_cpufreq_data)
    (perf : acpi_processor_performance) (tbl : List cpufreq_frequency_table)
    (hperf : data.acpi_data = some perf) (htbl : data.freq_table = some tbl) :
    extract_msr msr data =
      (match (table_entries tbl).find? (fid_match msr perf) with
       | some e => e.frequency
       | none => (tbl.getD 0 entry0).frequency) ∧
    (table_entries tbl ≠ [] → ∃ e ∈ table_entries tbl, extract_msr msr data = e.frequency) := by
  have h1 : extract_msr msr data =
      (match (table_entries tbl).find? (fid_match msr perf) with
       | some e => e.frequency
       | none => (tbl.getD 0 entry0).frequency) := by
    unfold extract_msr
    simp only [hperf, htbl]
    rw [extract_msr_loop_eq]
    rfl
  refine ⟨h1, fun hne => ?_⟩
  rw [h1]
  cases hf : (table_entries tbl).find? (fid_match msr perf) with
  | some e => exact ⟨e, List.mem_of_find?_eq_some hf, rfl⟩
  | none =>
    obtain ⟨e, rest, he, h0⟩ := table_entries_head hne
    exact ⟨e, by rw [he]; exact List.mem_cons_self _ _, by rw [h0]⟩

theorem extract_msr_first_match_witness :
    extract_msr 0x0605 ex_data = 2600000 ∧
    extract_msr 0x0605 ex_data =
      (match (table_entries ex_table).find? (fid_match 0x0605 ex_perf) with
       | some e => e.frequency
       | none => (ex_table.getD 0 entry0).frequency) ∧
    (table_entries ex_table ≠ [] →
      ∃ e ∈ table_entries ex_table, extract_msr 0x0605 ex_data = e.frequency) :=
  ⟨by decide, extract_msr_first_match 0x0605 ex_data ex_perf ex_table rfl rfl⟩

/-- C20 (counterexample): on the example platform the raw value 0x0605 agrees
on its low 16 bits with the status or control value of no platform state, so
the claim gives the frequency of entry 0, 3000000; `extract_msr` returns
2600000, the frequency of the entry whose state has frequency-id 6. -/
theorem extract_msr_not_low_range :
    (∀ e ∈ table_entries ex_table,
      low_range_match 0x0605 (ex_perf.states.getD e.index px0).status = false ∧
      low_range_match 0x0605 (ex_perf.states.getD e.index px0).control = false) ∧
    (ex_table.getD 0 entry0).frequency = 3000000 ∧
    extract_msr 0x0605 ex_data = 2600000 := by
  decide

/-! ## Drift detection -/

/-- C15 (the code at the failing input): on a platform whose second state
repeats the frequency of the first, the table is 3000000 (state 0) and 2600000
(state 2).  After initialisation and two transitions to 2600000 the recorded
current state is 2 and the resync flag is clear; the hardware reports 2600000,
the frequency of the table entry of state 2, and yet the query sets the flag:
it compares with slot 2 of the table, the sentinel. -/
theorem get_cur_freq_on_cpu_spurious_drift :
    ((acpi_cpufreq_cpu_init dup_env dup_boot ex_policy).bind fun r1 =>
      (acpi_cpufreq_target dup_env r1.2.1 r1.2.2 2600000 CPUFREQ_RELATION_L).bind fun r2 =>
      (acpi_cpufreq_target dup_env r2.2 r1.2.2 2600000 CPUFREQ_RELATION_L).bind fun r3 =>
      (drift_view r3.2 0).map fun v => (r1.1, r2.1, r3.1, v)) =
    some (0, 0, 0,
      { table := [⟨0, 3000000⟩, ⟨2, 2600000⟩, ⟨0, CPUFREQ_TABLE_END⟩, ⟨0, 0⟩],
        state := some 2, flag_before := some 0, freq := 2600000, flag_after := some 1 }) := by
  decide

/-! ## Selection of the backend -/

/-- C18: the backend switch of initialisation selects the port backend when
the control and the status register are both in system I/O space, and the
model-register backend when both are in fixed-hardware space and the processor
has the EST feature; a successful initialisation binds runtime state with the
backend selected so, and its two registers are in one address space.  When the
two address spaces differ, an initialisation that gets as far as the platform
table (not blacklisted, runtime state allocated, performance data registered)
returns `UnsupportedPlatform` and leaves no runtime state bound to the core;
no initialisation of such a platform succeeds. -/
theorem acpi_cpufreq_cpu_init_backend (env : Env) (w : World) (policy : cpufreq_policy) :
    (1 < env.acpi_processor_register_performance.2.state_count →
      env.acpi_processor_register_performance.2.control_register.space_id =
        ACPI_ADR_SPACE_SYSTEM_IO →
      env.acpi_processor_register_performance.2.status_register.space_id =
        ACPI_ADR_SPACE_SYSTEM_IO →
      init_cpu_feature env env.acpi_processor_register_performance.2 =
        some SYSTEM_IO_CAPABLE) ∧
    (1 < env.acpi_processor_register_performance.2.state_count →
      env.acpi_processor_register_performance.2.control_register.space_id =
        ACPI_ADR_SPACE_FIXED_HARDWARE →
      env.acpi_processor_register_performance.2.status_register.space_id =
        ACPI_ADR_SPACE_FIXED_HARDWARE →
      check_est_cpu env.cpu_data = true →
      init_cpu_feature env env.acpi_processor_register_performance.2 =
        some SYSTEM_INTEL_MSR_CAPABLE) ∧
    (∀ w1 p1, acpi_cpufreq_cpu_init env w policy = some (0, w1, p1) →
      ∃ d, w1.acfreq_data policy.cpu = some d ∧
        init_cpu_feature env env.acpi_processor_register_performance.2 = some d.cpu_feature ∧
        env.acpi_processor_register_performance.2.control_register.space_id =
          env.acpi_processor_register_performance.2.status_register.space_id) ∧
    (env.acpi_processor_register_performance.2.control_register.space_id ≠
        env.acpi_processor_register_performance.2.status_register.space_id →
      (∀ r w1 p1, acpi_cpufreq_cpu_init env w policy = some (r, w1, p1) → r ≠ 0) ∧
      (w.blacklisted = 0 → acpi_cpufreq_blacklist env.cpu_data = 0 →
        env.kzalloc_ok = true → env.acpi_processor_register_performance.1 = 0 →
        ∃ w1 p1, acpi_cpufreq_cpu_init env w policy = some (-ENODEV, w1, p1) ∧
          w1.acfreq_data policy.cpu = none)) := by
  have hsame : ∀ f, init_cpu_feature env env.acpi_processor_register_performance.2 = some f →
      env.acpi_processor_register_performance.2.control_register.space_id =
        env.acpi_processor_register_performance.2.status_register.space_id := by
    intro f hf
    by_contra hne
    unfold init_cpu_feature at hf
    split at hf
    · cases hf
    · cases hf
  have hok : ∀ w1 p1, acpi_cpufreq_cpu_init env w policy = some (0, w1, p1) →
      ∃ d, w1.acfreq_data policy.cpu = some d ∧
        init_cpu_feature env env.acpi_processor_register_performance.2 = some d.cpu_feature ∧
        env.acpi_processor_register_performance.2.control_register.space_id =
          env.acpi_processor_register_performance.2.status_register.space_id := by
    intro w1 p1 h
    obtain ⟨f, mem, st, hf, -, hd⟩ := acpi_cpufreq_cpu_init_ok h
    exact ⟨_, hd, hf, hsame f hf⟩
  refine ⟨?_, ?_, hok, ?_⟩
  · intro hc h1 h2
    unfold init_cpu_feature
    rw [if_neg (Nat.not_le.mpr hc), if_neg (by rw [h1, h2]; exact fun h => h rfl), if_pos h1]
  · intro hc h1 h2 he
    have hio : env.acpi_processor_register_performance.2.control_register.space_id ≠
        ACPI_ADR_SPACE_SYSTEM_IO := by rw [h1]; decide
    unfold init_cpu_feature
    rw [if_neg (Nat.not_le.mpr hc), if_neg (by rw [h1, h2]; exact fun h => h rfl), if_neg hio,
      if_pos h1, if_neg (by simp [he])]
  · intro hne
    refine ⟨?_, ?_⟩
    · intro r w1 p1 h h0
      subst h0
      obtain ⟨d, -, -, hs⟩ := hok w1 p1 h
      exact hne hs
    · intro hb hb1 hz hr
      have hnone : init_cpu_feature env env.acpi_processor_register_performance.2 = none := by
        unfold init_cpu_feature
        split
        · rfl
        · rfl
      refine ⟨{ w with blacklisted := acpi_cpufreq_blacklist env.cpu_data }.set_data policy.cpu
          none, init_policy_cpus env env.acpi_processor_register_performance.2 policy, ?_, ?_⟩
      · unfold acpi_cpufreq_cpu_init
        simp [hb, hb1, hz, hr, hnone]
      · simp [World.set_data]

theorem acpi_cpufreq_cpu_init_backend_witness :
    init_cpu_feature flat_env flat_env.acpi_processor_register_performance.2 =
      some SYSTEM_IO_CAPABLE ∧
    init_cpu_feature ex_env ex_env.acpi_processor_register_performance.2 =
      some SYSTEM_INTEL_MSR_CAPABLE ∧
    (∃ w1 p1 d, acpi_cpufreq_cpu_init ex_env boot_world ex_policy = some (0, w1, p1) ∧
      w1.acfreq_data ex_policy.cpu = some d ∧
      init_cpu_feature ex_env ex_env.acpi_processor_register_performance.2 =
        some d.cpu_feature) ∧
    (∃ w1 p1, acpi_cpufreq_cpu_init mixed_env boot_world ex_policy = some (-ENODEV, w1, p1) ∧
      w1.acfreq_data ex_policy.cpu = none) := by
  refine ⟨(acpi_cpufreq_cpu_init_backend flat_env boot_world ex_policy).1 (by decide) rfl rfl,
    (acpi_cpufreq_cpu_init_backend ex_env boot_world ex_policy).2.1 (by decide) rfl rfl rfl,
    ?_,
    ((acpi_cpufreq_cpu_init_backend mixed_env boot_world ex_policy).2.2.2 (by decide)).2
      rfl rfl rfl rfl⟩
  have hs : (acpi_cpufreq_cpu_init ex_env boot_world ex_policy).map (fun r => r.1) = some 0 := by
    decide
  cases hr : acpi_cpufreq_cpu_init ex_env boot_world ex_policy with
  | none => rw [hr] at hs; cases hs
  | some r =>
    obtain ⟨ret, w1, p1⟩ := r
    rw [hr] at hs
    simp only [Option.map_some', Option.some.injEq] at hs
    subst hs
    obtain ⟨d, hd, hf, -⟩ :=
      (acpi_cpufreq_cpu_init_backend ex_env boot_world ex_policy).2.2.1 w1 p1 hr
    exact ⟨w1, p1, d, rfl, hd, hf⟩

/-! ## Events of a completed transition -/

theorem get_cur_val_polls {w w1 : World} {mask : List Nat} {v : Nat}
    (h : get_cur_val w mask = some (v, w1)) :
    ∃ es, w1.log = w.log ++ es ∧ (∀ e ∈ es, is_poll e = true) ∧
      w1.acfreq_data = w.acfreq_data ∧ w1.acpi_pstate_strict = w.acpi_pstate_strict := by
  unfold get_cur_val at h
  split at h
  · cases h; exact ⟨[], by simp, by simp, rfl, rfl⟩
  · split at h
    · cases h
    · split at h
      · cases h; exact ⟨_, rfl, by simp [is_poll], rfl, rfl⟩
      · split at h
        · split at h
          · cases h
          · cases h; exact ⟨_, rfl, by simp [is_poll], rfl, rfl⟩
        · cases h; exact ⟨[], by simp, by simp, rfl, rfl⟩

theorem check_freqs_loop_polls {mask : List Nat} {freq : Nat} {data : acpi_cpufreq_data} :
    ∀ (n : Nat) {w w1 : World} {r : Nat}, check_freqs_loop mask freq data n w = some (r, w1) →
      ∃ es, w1.log = w.log ++ es ∧ (∀ e ∈ es, is_poll e = true) ∧
        w1.acfreq_data = w.acfreq_data
  | 0, w, w1, r, h => by
    simp only [check_freqs_loop] at h
    cases h; exact ⟨[], by simp, by simp, rfl⟩
  | n + 1, w, w1, r, h => by
    simp only [check_freqs_loop] at h
    split at h
    · cases h
    · rename_i val w2 hg
      obtain ⟨es, hes, hp, hd, -⟩ := get_cur_val_polls hg
      split at h
      · cases h; exact ⟨es, hes, hp, hd⟩
      · obtain ⟨es1, hes1, hp1, hd1⟩ := check_freqs_loop_polls n h
        refine ⟨es ++ [Event.udelay 10] ++ es1, ?_, ?_, ?_⟩
        · rw [hes1]; simp [World.emit, hes]
        · intro e he
          simp only [List.mem_append, List.mem_singleton] at he
          rcases he with (he | he) | he
          · exact hp e he
          · rw [he]; rfl
          · exact hp1 e he
        · rw [hd1]; simpa [World.emit] using hd

/-- The write phase, when it returns success: its events and the runtime state
it stores. -/
theorem acpi_cpufreq_target_write_done {w w1 : World} {policy : cpufreq_policy}
    {data : acpi_cpufreq_data} {perf : acpi_processor_performance}
    {freq_table : List cpufreq_frequency_table} {next_state : Nat}
    (h : acpi_cpufreq_target_write w policy data perf freq_table next_state = some (0, w1)) :
    ∃ cmd ps,
      target_cmd data perf (freq_table.getD next_state entry0).index (target_mask policy)
        = some cmd ∧
      w1.log = w.log ++ (target_notify policy
          (u32 ((perf.states.getD perf.state px0).core_frequency * 1000))
          (freq_table.getD next_state entry0).frequency CPUFREQ_PRECHANGE ++
        Event.drv_write cmd :: (ps ++ target_notify policy
          (u32 ((perf.states.getD perf.state px0).core_frequency * 1000))
          (freq_table.getD next_state entry0).frequency CPUFREQ_POSTCHANGE)) ∧
      (∀ e ∈ ps, is_poll e = true) ∧ (w.acpi_pstate_strict = 0 → ps = []) ∧
      w1.acfreq_data policy.cpu = some { data with
        acpi_data := some { perf with state := (freq_table.getD next_state entry0).index } } := by
  unfold acpi_cpufreq_target_write at h
  split at h
  · simp [ENODEV] at h
  · rename_i cmd hcmd
    refine ⟨cmd, ?_⟩
    split at h
    · rename_i hstrict
      split at h
      · cases h
      · rename_i ok w4 hchk
        obtain ⟨es, hes, hp, hd⟩ := check_freqs_loop_polls 100 hchk
        split at h
        · simp [EAGAIN] at h
        · simp only [Option.some.injEq, Prod.mk.injEq, true_and] at h
          refine ⟨es, hcmd, ?_, hp, ?_, ?_⟩
          · rw [← h]
            simp [target_finish, World.set_data, World.emit, hes, drv_write]
          · intro h0
            exact absurd (by simpa [drv_write, World.emit] using h0) hstrict
          · rw [← h]
            simp [target_finish, World.set_data]
    · rename_i hstrict
      simp only [Option.some.injEq, Prod.mk.injEq, true_and] at h
      refine ⟨[], hcmd, ?_, by simp, fun _ => rfl, ?_⟩
      · rw [← h]
        simp [target_finish, World.set_data, World.emit, drv_write]
      · rw [← h]
        simp [target_finish, World.set_data]

theorem acpi_cpufreq_target_write_relaxed {w : World} {policy : cpufreq_policy}
    {data : acpi_cpufreq_data} (perf : acpi_processor_performance)
    (freq_table : List cpufreq_frequency_table) (next_state : Nat)
    (hb : has_backend data) (hstrict : w.acpi_pstate_strict = 0) :
    ∃ w1, acpi_cpufreq_target_write w policy data perf freq_table next_state = some (0, w1) := by
  obtain ⟨cmd, hcmd, -⟩ := target_cmd_some perf (freq_table.getD next_state entry0).index
    (target_mask policy) hb
  unfold acpi_cpufreq_target_write
  rw [hcmd]
  dsimp only
  rw [if_neg (by simpa [drv_write, World.emit] using hstrict)]
  exact ⟨_, rfl⟩

/-- C11 (counterexample): on the platform whose state 0 has the frequency
5000000 MHz, after initialisation, the transition request for the only table
entry reaches the write phase and succeeds; its notifications carry the old
frequency 705032704, not 1000 times the `core_frequency` 5000000 of the
current state, which is 5000000000. -/
theorem acpi_cpufreq_target_old_truncated :
    ((acpi_cpufreq_cpu_init fast_env boot_world ex_policy).bind fun r =>
      (acpi_cpufreq_target fast_env r.2.1 r.2.2 705032704 CPUFREQ_RELATION_L).map fun q =>
        (r.1, current_state r.2.1 0, q.1, q.2.log.drop r.2.1.log.length)) =
      some (0, some 0, 0,
        [Event.notify 0 705032704 705032704 CPUFREQ_PRECHANGE,
         Event.drv_write ⟨SYSTEM_INTEL_MSR_CAPABLE, [0], MSR_IA32_PERF_CTL, 0, 0, 0x0803⟩,
         Event.notify 0 705032704 705032704 CPUFREQ_POSTCHANGE]) ∧
    1000 * (fast_perf.states.getD 0 px0).core_frequency = 5000000000 := by
  decide

/-- C11 (amended): a call of `acpi_cpufreq_target` that reaches the write phase
(the resolved state differs from the current one, or the resync flag is set)
and returns success has added to the event log, in this order: one pre-change
notification for every core of `policy->cpus`, the register write with the
control value of the target state, the verification polls of strict mode (none
in non-strict mode), and one post-change notification for every core of
`policy->cpus`.  Every notification carries as old frequency 1000 times the
`core_frequency` of the current state before the call reduced modulo 2^32 (1000
times it whenever that fits 32 bits) and as new frequency the frequency of the
target entry.  Afterwards the recorded current state is the platform index of
the target entry.  In non-strict mode such a call on a core with a backend
always returns success. -/
theorem acpi_cpufreq_target_events (env : Env) (w : World) (policy : cpufreq_policy)
    (target_freq relation : Nat) (data : acpi_cpufreq_data)
    (perf : acpi_processor_performance) (tbl : List cpufreq_frequency_table) (next_state : Nat)
    (hdata : w.acfreq_data policy.cpu = some data) (hperf : data.acpi_data = some perf)
    (htbl : data.freq_table = some tbl)
    (hres : env.cpufreq_frequency_table_target policy tbl target_freq relation = some next_state)
    (hgo : perf.state ≠ (tbl.getD next_state entry0).index ∨ data.resume ≠ 0) :
    (has_backend data → w.acpi_pstate_strict = 0 →
      ∃ w1, acpi_cpufreq_target env w policy target_freq relation = some (0, w1)) ∧
    (∀ w1, acpi_cpufreq_target env w policy target_freq relation = some (0, w1) →
      ∃ cmd ps,
        w1.log = w.log ++ ((policy.cpus.map fun i => Event.notify i
            ((1000 * (perf.states.getD perf.state px0).core_frequency) % 2 ^ 32)
            (tbl.getD next_state entry0).frequency CPUFREQ_PRECHANGE) ++
          Event.drv_write cmd :: (ps ++ policy.cpus.map fun i => Event.notify i
            ((1000 * (perf.states.getD perf.state px0).core_frequency) % 2 ^ 32)
            (tbl.getD next_state entry0).frequency CPUFREQ_POSTCHANGE)) ∧
        (∀ e ∈ ps, is_poll e = true) ∧ (w.acpi_pstate_strict = 0 → ps = []) ∧
        cmd.val = u32 (perf.states.getD (tbl.getD next_state entry0).index px0).control ∧
        cmd.mask = target_mask policy ∧
        current_state w1 policy.cpu = some (tbl.getD next_state entry0).index) ∧
    (1000 * (perf.states.getD perf.state px0).core_frequency < 2 ^ 32 →
      (1000 * (perf.states.getD perf.state px0).core_frequency) % 2 ^ 32 =
        1000 * (perf.states.getD perf.state px0).core_frequency) := by
  have hold : u32 ((perf.states.getD perf.state px0).core_frequency * 1000) =
      (1000 * (perf.states.getD perf.state px0).core_frequency) % 2 ^ 32 := by
    rw [Nat.mul_comm]
    rfl
  have hunf : acpi_cpufreq_target env w policy target_freq relation =
      if perf.state = (tbl.getD next_state entry0).index then
        acpi_cpufreq_target_write (w.set_data policy.cpu (some { data with resume := 0 }))
          policy { data with resume := 0 } perf tbl next_state
      else acpi_cpufreq_target_write w policy data perf tbl next_state := by
    unfold acpi_cpufreq_target
    rw [hdata]
    simp only [hperf, htbl, hres]
    split
    · rename_i hcur
      rcases hgo with hgo | hgo
      · exact absurd hcur hgo
      · rw [if_pos hgo]
    · rfl
  have hval : ∀ {d : acpi_cpufreq_data} {cmd : drv_cmd},
      target_cmd d perf (tbl.getD next_state entry0).index (target_mask policy) = some cmd →
      cmd.val = u32 (perf.states.getD (tbl.getD next_state entry0).index px0).control ∧
        cmd.mask = target_mask policy := by
    intro d cmd hc
    unfold target_cmd at hc
    split at hc
    · cases hc; exact ⟨rfl, rfl⟩
    · split at hc
      · cases hc; exact ⟨rfl, rfl⟩
      · cases hc
  refine ⟨?_, ?_, ?_⟩
  · intro hb hstrict
    rw [hunf]
    split
    · exact acpi_cpufreq_target_write_relaxed perf tbl next_state hb hstrict
    · exact acpi_cpufreq_target_write_relaxed perf tbl next_state hb hstrict
  · intro w1 h
    rw [hunf] at h
    split at h
    · obtain ⟨cmd, ps, hcmd, hlog, hp, hs, hd⟩ := acpi_cpufreq_target_write_done h
      rw [hold] at hlog
      refine ⟨cmd, ps, hlog, hp, hs, (hval hcmd).1, (hval hcmd).2, ?_⟩
      unfold current_state
      rw [hd]
      rfl
    · obtain ⟨cmd, ps, hcmd, hlog, hp, hs, hd⟩ := acpi_cpufreq_target_write_done h
      rw [hold] at hlog
      refine ⟨cmd, ps, hlog, hp, hs, (hval hcmd).1, (hval hcmd).2, ?_⟩
      unfold current_state
      rw [hd]
      rfl
  · intro hfit
    exact Nat.mod_eq_of_lt hfit

theorem acpi_cpufreq_target_events_witness :
    ∃ w1, acpi_cpufreq_target ex_env (ex_world 0x0602 1) pair_policy 2600000
        CPUFREQ_RELATION_L = some (0, w1) ∧
      w1.log = [Event.notify 0 3000000 2600000 CPUFREQ_PRECHANGE,
        Event.notify 1 3000000 2600000 CPUFREQ_PRECHANGE,
        Event.drv_write ⟨SYSTEM_INTEL_MSR_CAPABLE, [0, 1], MSR_IA32_PERF_CTL, 0, 0, 0x0602⟩,
        Event.drv_read ⟨SYSTEM_INTEL_MSR_CAPABLE, [0, 1], MSR_IA32_PERF_STATUS, 0, 0, 0⟩,
        Event.notify 0 3000000 2600000 CPUFREQ_POSTCHANGE,
        Event.notify 1 3000000 2600000 CPUFREQ_POSTCHANGE] ∧
      ∃ cmd ps,
        w1.log = (ex_world 0x0602 1).log ++ ((pair_policy.cpus.map fun i => Event.notify i
            ((1000 * (ex_perf.states.getD ex_perf.state px0).core_frequency) % 2 ^ 32)
            (ex_table.getD 1 entry0).frequency CPUFREQ_PRECHANGE) ++
          Event.drv_write cmd :: (ps ++ pair_policy.cpus.map fun i => Event.notify i
            ((1000 * (ex_perf.states.getD ex_perf.state px0).core_frequency) % 2 ^ 32)
            (ex_table.getD 1 entry0).frequency CPUFREQ_POSTCHANGE)) ∧
        (∀ e ∈ ps, is_poll e = true) ∧ ((ex_world 0x0602 1).acpi_pstate_strict = 0 → ps = []) ∧
        cmd.val = u32 (ex_perf.states.getD (ex_table.getD 1 entry0).index px0).control ∧
        cmd.mask = target_mask pair_policy ∧
        current_state w1 pair_policy.cpu = some (ex_table.getD 1 entry0).index := by
  have hs : (acpi_cpufreq_target ex_env (ex_world 0x0602 1) pair_policy 2600000
      CPUFREQ_RELATION_L).map (fun r => (r.1, r.2.log)) =
      some (0, [Event.notify 0 3000000 2600000 CPUFREQ_PRECHANGE,
        Event.notify 1 3000000 2600000 CPUFREQ_PRECHANGE,
        Event.drv_write ⟨SYSTEM_INTEL_MSR_CAPABLE, [0, 1], MSR_IA32_PERF_CTL, 0, 0, 0x0602⟩,
        Event.drv_read ⟨SYSTEM_INTEL_MSR_CAPABLE, [0, 1], MSR_IA32_PERF_STATUS, 0, 0, 0⟩,
        Event.notify 0 3000000 2600000 CPUFREQ_POSTCHANGE,
        Event.notify 1 3000000 2600000 CPUFREQ_POSTCHANGE]) := by decide
  cases hr : acpi_cpufreq_target ex_env (ex_world 0x0602 1) pair_policy 2600000
      CPUFREQ_RELATION_L with
  | none => rw [hr] at hs; cases hs
  | some r =>
    obtain ⟨ret, w1⟩ := r
    rw [hr] at hs
    simp only [Option.map_some', Option.some.injEq, Prod.mk.injEq] at hs
    obtain ⟨rfl, hlog⟩ := hs
    exact ⟨w1, rfl, hlog,
      (acpi_cpufreq_target_events ex_env (ex_world 0x0602 1) pair_policy 2600000
        CPUFREQ_RELATION_L ex_data ex_perf ex_table 1 rfl rfl rfl (by decide)
        (Or.inl (by decide))).2.1 w1 hr⟩

/-! ## The build rule of the table -/

theorem accepted_entries_eq_build_rule :
    ∀ (states : List acpi_processor_px) (i last cf : Nat),
      (0 < i → last = 1000 * cf ∧ last < 2 ^ 32) →
      (i = 0 → ∀ s ∈ states.head?, s.core_frequency * 1000 < 2 ^ 32) →
      accepted_entries states i last = build_rule states i cf
  | [], _, _, _, _, _ => rfl
  | s :: rest, i, last, cf, hlast, hhead => by
    unfold accepted_entries build_rule
    by_cases hskip : i > 0 ∧ s.core_frequency ≥ last / 1000
    · obtain ⟨hl, -⟩ := hlast hskip.1
      have hge : ¬ (i = 0 ∨ s.core_frequency < cf) := by
        intro h
        rcases h with h | h
        · omega
        · have := hskip.2
          omega
      rw [if_pos hskip, if_neg hge]
      exact accepted_entries_eq_build_rule rest (i + 1) last cf (fun _ => hlast hskip.1)
        (fun h => absurd h (Nat.succ_ne_zero i))
    · have hfit : s.core_frequency * 1000 < 2 ^ 32 := by
        by_cases hi : i = 0
        · exact hhead hi s (by simp)
        · obtain ⟨hl, hb⟩ := hlast (Nat.pos_of_ne_zero hi)
          have : ¬ s.core_frequency ≥ last / 1000 := fun h => hskip ⟨Nat.pos_of_ne_zero hi, h⟩
          omega
      have hacc : i = 0 ∨ s.core_frequency < cf := by
        by_cases hi : i = 0
        · exact Or.inl hi
        · obtain ⟨hl, hb⟩ := hlast (Nat.pos_of_ne_zero hi)
          have : ¬ s.core_frequency ≥ last / 1000 := fun h => hskip ⟨Nat.pos_of_ne_zero hi, h⟩
          exact Or.inr (by omega)
      have hu : u32 (s.core_frequency * 1000) = 1000 * s.core_frequency := by
        unfold u32
        rw [Nat.mod_eq_of_lt hfit, Nat.mul_comm]
      rw [if_neg hskip, if_pos hacc, hu]
      congr 1
      exact accepted_entries_eq_build_rule rest (i + 1) (1000 * s.core_frequency)
        s.core_frequency (fun _ => ⟨rfl, by omega⟩) (fun h => absurd h (Nat.succ_ne_zero i))

theorem accepted_entries_frequency :
    ∀ (states : List acpi_processor_px) (i last : Nat),
      ∀ e ∈ accepted_entries states i last,
        i ≤ e.index ∧ e.frequency = u32 ((states.getD (e.index - i) px0).core_frequency * 1000)
  | [], _, _ => by simp [accepted_entries]
  | s :: rest, i, last => by
    intro e he
    unfold accepted_entries at he
    split at he
    · obtain ⟨h1, h2⟩ := accepted_entries_frequency rest (i + 1) last e he
      refine ⟨by omega, ?_⟩
      rw [h2]
      have : e.index - i = (e.index - (i + 1)) + 1 := by omega
      rw [this, List.getD_cons_succ]
    · simp only [List.mem_cons] at he
      rcases he with rfl | he
      · exact ⟨Nat.le_refl _, by simp⟩
      · obtain ⟨h1, h2⟩ := accepted_entries_frequency rest (i + 1) _ e he
        refine ⟨by omega, ?_⟩
        rw [h2]
        have : e.index - i = (e.index - (i + 1)) + 1 := by omega
        rw [this, List.getD_cons_succ]

theorem accepted_entries_pos (s : acpi_processor_px) (rest : List acpi_processor_px)
    (last : Nat) : 1 ≤ (accepted_entries (s :: rest) 0 last).length := by
  unfold accepted_entries
  rw [if_neg (fun h => absurd h.1 (Nat.lt_irrefl 0))]
  simp

/-- C19 (as amended): the table a successful initialisation builds consists of
exactly the platform states `i` with `i = 0` or `core_frequency[i]` strictly
lower than the stored frequency of the most recently accepted entry divided by
1000, in increasing platform-index order, followed by the sentinel; each
accepted entry has the platform index `i` and as frequency the 32-bit value of
1000 times `core_frequency[i]`.  Whenever 1000 times `core_frequency[0]` fits
32 bits this is the build rule of the specification: the comparison is with the
`core_frequency` of the most recently accepted state and every frequency is
exactly 1000 times `core_frequency[i]`.  The number of accepted entries is at
least 1 and at most `state_count`, and the table has `state_count + 1` slots,
so the sentinel is inside the allocation. -/
theorem acpi_cpufreq_cpu_init_build_rule (env : Env) (w w1 : World)
    (policy p1 : cpufreq_policy)
    (h : acpi_cpufreq_cpu_init env w policy = some (0, w1, p1)) :
    ∃ (data : acpi_cpufreq_data) (tbl : List cpufreq_frequency_table) (sentinel_index : Nat)
      (rest : List cpufreq_frequency_table),
      w1.acfreq_data policy.cpu = some data ∧ data.freq_table = some tbl ∧
      tbl = accepted_entries env.acpi_processor_register_performance.2.states 0 0 ++
        ⟨sentinel_index, CPUFREQ_TABLE_END⟩ :: rest ∧
      table_entries tbl = accepted_entries env.acpi_processor_register_performance.2.states 0 0 ∧
      ((∀ s ∈ env.acpi_processor_register_performance.2.states.head?,
          s.core_frequency * 1000 < 2 ^ 32) →
        table_entries tbl = build_rule env.acpi_processor_register_performance.2.states 0 0) ∧
      ((table_entries tbl).map fun e => e.index).Pairwise (fun a b => a < b) ∧
      (∀ e ∈ table_entries tbl,
        e.index < env.acpi_processor_register_performance.2.state_count ∧
        e.frequency = u32 ((env.acpi_processor_register_performance.2.states.getD e.index
          px0).core_frequency * 1000)) ∧
      1 ≤ (table_entries tbl).length ∧
      (table_entries tbl).length ≤ env.acpi_processor_register_performance.2.state_count ∧
      tbl.length = env.acpi_processor_register_performance.2.state_count + 1 := by
  obtain ⟨cpu_feature, mem, st, hfeat, -, hd⟩ := acpi_cpufreq_cpu_init_ok h
  obtain ⟨-, h2, h3⟩ := accepted_entries_sorted
    env.acpi_processor_register_performance.2.states 0 0 (fun h => absurd h (Nat.lt_irrefl 0))
  have hmem : ((List.range (env.acpi_processor_register_performance.2.state_count + 1)).map
      mem).length = env.acpi_processor_register_performance.2.states.length + 1 := by
    simp [acpi_processor_performance.state_count]
  have ht := table_init_eq env.acpi_processor_register_performance.2
    ((List.range (env.acpi_processor_register_performance.2.state_count + 1)).map mem)
    (by rw [hmem])
  have hle := accepted_entries_length_le env.acpi_processor_register_performance.2.states 0 0
  have hent : table_entries
      (accepted_entries env.acpi_processor_register_performance.2.states 0 0 ++
        ⟨(((List.range (env.acpi_processor_register_performance.2.state_count + 1)).map
            mem).getD
          (accepted_entries env.acpi_processor_register_performance.2.states 0 0).length
          entry0).index, CPUFREQ_TABLE_END⟩ ::
        ((List.range (env.acpi_processor_register_performance.2.state_count + 1)).map mem).drop
          ((accepted_entries env.acpi_processor_register_performance.2.states 0 0).length + 1))
      = accepted_entries env.acpi_processor_register_performance.2.states 0 0 := by
    unfold table_entries
    rw [List.takeWhile_append_of_pos (fun e he => by simpa using (h3 e he).2.2.1)]
    simp
  have hcount : 1 < env.acpi_processor_register_performance.2.states.length := by
    unfold init_cpu_feature at hfeat
    split at hfeat
    · cases hfeat
    · rename_i hc
      simpa [acpi_processor_performance.state_count] using hc
  refine ⟨_, _, _, _, hd, rfl, by rw [ht], ?_, ?_, ?_, ?_, ?_, ?_, ?_⟩
  · rw [ht]
    exact hent
  · intro hfit
    rw [ht]
    dsimp only
    rw [hent]
    exact accepted_entries_eq_build_rule _ 0 0 0 (fun h => absurd h (Nat.lt_irrefl 0))
      (fun _ => hfit)
  · rw [ht]
    dsimp only
    rw [hent]
    exact h2
  · rw [ht]
    dsimp only
    rw [hent]
    intro e he
    obtain ⟨-, hf⟩ := accepted_entries_frequency _ 0 0 e he
    have hi := (h3 e he).2.1
    exact ⟨by simpa [acpi_processor_performance.state_count] using hi, by simpa using hf⟩
  · rw [ht]
    dsimp only
    rw [hent]
    cases hs : env.acpi_processor_register_performance.2.states with
    | nil => rw [hs] at hcount; simp at hcount
    | cons s rest => exact accepted_entries_pos s rest 0
  · rw [ht]
    dsimp only
    rw [hent]
    exact hle
  · rw [ht]
    simp only [List.length_append, List.length_cons, List.length_drop, List.length_map,
      List.length_range, acpi_processor_performance.state_count]
    omega

theorem acpi_cpufreq_cpu_init_build_rule_witness :
    build_rule ex_perf.states 0 0 = [⟨0, 3000000⟩, ⟨1, 2600000⟩, ⟨2, 2200000⟩] ∧
    ∃ w1 p1, acpi_cpufreq_cpu_init ex_env boot_world ex_policy = some (0, w1, p1) ∧
      ∃ (data : acpi_cpufreq_data) (tbl : List cpufreq_frequency_table) (sentinel_index : Nat)
        (rest : List cpufreq_frequency_table),
        w1.acfreq_data ex_policy.cpu = some data ∧ data.freq_table = some tbl ∧
        tbl = accepted_entries ex_env.acpi_processor_register_performance.2.states 0 0 ++
          ⟨sentinel_index, CPUFREQ_TABLE_END⟩ :: rest ∧
        table_entries tbl =
          accepted_entries ex_env.acpi_processor_register_performance.2.states 0 0 ∧
        ((∀ s ∈ ex_env.acpi_processor_register_performance.2.states.head?,
            s.core_frequency * 1000 < 2 ^ 32) →
          table_entries tbl =
            build_rule ex_env.acpi_processor_register_performance.2.states 0 0) ∧
        ((table_entries tbl).map fun e => e.index).Pairwise (fun a b => a < b) ∧
        (∀ e ∈ table_entries tbl,
          e.index < ex_env.acpi_processor_register_performance.2.state_count ∧
          e.frequency = u32 ((ex_env.acpi_processor_register_performance.2.states.getD e.index
            px0).core_frequency * 1000)) ∧
        1 ≤ (table_entries tbl).length ∧
        (table_entries tbl).length ≤ ex_env.acpi_processor_register_performance.2.state_count ∧
        tbl.length = ex_env.acpi_processor_register_performance.2.state_count + 1 := by
  refine ⟨by decide, ?_⟩
  have hs : (acpi_cpufreq_cpu_init ex_env boot_world ex_policy).map (fun r => r.1) = some 0 := by
    decide
  cases hr : acpi_cpufreq_cpu_init ex_env boot_world ex_policy with
  | none => rw [hr] at hs; cases hs
  | some r =>
    obtain ⟨ret, w1, p1⟩ := r
    rw [hr] at hs
    simp only [Option.map_some', Option.some.injEq] at hs
    subst hs
    exact ⟨w1, p1, rfl, acpi_cpufreq_cpu_init_build_rule ex_env boot_world w1 ex_policy p1 hr⟩

/-- C19 (counterexample): on a platform with the states 5000000 MHz and
1000000 MHz the stored frequency of state 0 is 5000000000 reduced to 32 bits,
705032704; state 1 is then compared with 705032 and not accepted, although its
`core_frequency` is strictly lower than the one of state 0.  The table has the
single entry (0, 705032704), where the rule of the claim gives the two entries
(0, 5000000000) and (1, 1000000000). -/
theorem acpi_cpufreq_cpu_init_truncated :
    (acpi_cpufreq_cpu_init fast_env boot_world ex_policy).map
      (fun r => (r.1, table_entries (table_of r.2.1 0))) = some (0, [⟨0, 705032704⟩]) ∧
    build_rule fast_perf.states 0 0 = [⟨0, 5000000000⟩, ⟨1, 1000000000⟩] := by
  decide

/-! ## What a call leaves of the runtime state -/

theorem get_cur_freq_on_cpu_frame {w w1 : World} {cpu f : Nat} {d : acpi_cpufreq_data}
    (h : get_cur_freq_on_cpu w cpu = some (f, w1)) (hd : w.acfreq_data cpu = some d) :
    ∃ res, w1.acfreq_data cpu = some { d with resume := res } := by
  unfold get_cur_freq_on_cpu at h
  rw [hd] at h
  dsimp only at h
  split at h
  · split at h
    · cases h
    · rename_i val w2 hg
      obtain ⟨es, -, -, hsame, -⟩ := get_cur_val_polls hg
      split at h
      · cases h
        exact ⟨1, by simp [World.set_data]⟩
      · cases h
        exact ⟨d.resume, by rw [hsame, hd]⟩
  · cases h
    exact ⟨d.resume, hd⟩

theorem acpi_cpufreq_target_write_frame {w w1 : World} {policy : cpufreq_policy}
    {data : acpi_cpufreq_data} {perf : acpi_processor_performance}
    {freq_table : List cpufreq_frequency_table} {next_state : Nat} {ret : Int}
    (h : acpi_cpufreq_target_write w policy data perf freq_table next_state = some (ret, w1))
    (hd : w.acfreq_data policy.cpu = some data) (hp : data.acpi_data = some perf) :
    ∃ st, w1.acfreq_data policy.cpu =
        some { data with acpi_data := some { perf with state := st } } ∧
      (st = perf.state ∨ st = (freq_table.getD next_state entry0).index) ∧
      (ret = 0 → st = (freq_table.getD next_state entry0).index) := by
  have hsame : some { data with acpi_data := some { perf with state := perf.state } } =
      some data := by
    obtain ⟨a, t, r, f, o⟩ := data
    simp only at hp
    subst hp
    rfl
  unfold acpi_cpufreq_target_write at h
  split at h
  · cases h
    exact ⟨perf.state, by rw [hd, hsame], Or.inl rfl, fun h0 => by simp [ENODEV] at h0⟩
  · split at h
    · split at h
      · cases h
      · rename_i ok w4 hchk
        obtain ⟨es, -, -, hdat⟩ := check_freqs_loop_polls 100 hchk
        split at h
        · cases h
          refine ⟨perf.state, ?_, Or.inl rfl, fun h0 => by simp [EAGAIN] at h0⟩
          rw [hdat, hsame]
          simpa [drv_write, World.emit] using hd
        · cases h
          exact ⟨_, by simp [target_finish, World.set_data], Or.inr rfl, fun _ => rfl⟩
    · cases h
      exact ⟨_, by simp [target_finish, World.set_data], Or.inr rfl, fun _ => rfl⟩

theorem acpi_cpufreq_target_frame {env : Env} {w w1 : World} {policy : cpufreq_policy}
    {target_freq relation : Nat} {ret : Int} {d : acpi_cpufreq_data}
    {perf : acpi_processor_performance} {tbl : List cpufreq_frequency_table}
    (h : acpi_cpufreq_target env w policy target_freq relation = some (ret, w1))
    (hd : w.acfreq_data policy.cpu = some d) (hp : d.acpi_data = some perf)
    (ht : d.freq_table = some tbl) :
    ∃ res st, w1.acfreq_data policy.cpu =
        some { d with resume := res, acpi_data := some { perf with state := st } } ∧
      (st = perf.state ∨ ∃ i, env.cpufreq_frequency_table_target policy tbl target_freq
        relation = some i ∧ st = (tbl.getD i entry0).index) ∧
      (ret = 0 → ∃ i, env.cpufreq_frequency_table_target policy tbl target_freq
        relation = some i ∧ st = (tbl.getD i entry0).index) := by
  have hsame :
      some { d with resume := d.resume, acpi_data := some { perf with state := perf.state } } =
        some d := by
    obtain ⟨a, t, r, f, o⟩ := d
    simp only at hp
    subst hp
    rfl
  have hunf : acpi_cpufreq_target env w policy target_freq relation =
      match env.cpufreq_frequency_table_target policy tbl target_freq relation with
      | none => some (-ENODEV, w)
      | some next_state =>
        if perf.state = (tbl.getD next_state entry0).index then
          if d.resume ≠ 0 then
            acpi_cpufreq_target_write
              (w.set_data policy.cpu (some { d with resume := 0 })) policy
              { d with resume := 0 } perf tbl next_state
          else some (0, w)
        else acpi_cpufreq_target_write w policy d perf tbl next_state := by
    unfold acpi_cpufreq_target
    rw [hd]
    simp only [hp, ht]
  rw [hunf] at h
  split at h
  · cases h
    exact ⟨d.resume, perf.state, by rw [hd, hsame], Or.inl rfl, fun h0 => by simp [ENODEV] at h0⟩
  · rename_i next hres
    split at h
    · rename_i hcur
      split at h
      · obtain ⟨st, hst, hor, h0⟩ := acpi_cpufreq_target_write_frame h
          (by simp [World.set_data]) hp
        refine ⟨0, st, hst, ?_, fun hr => ⟨next, hres, h0 hr⟩⟩
        rcases hor with hor | hor
        · exact Or.inl hor
        · exact Or.inr ⟨next, hres, hor⟩
      · cases h
        exact ⟨d.resume, perf.state, by rw [hd, hsame], Or.inl rfl, fun _ => ⟨next, hres, hcur⟩⟩
    · obtain ⟨st, hst, hor, h0⟩ := acpi_cpufreq_target_write_frame h hd hp
      refine ⟨d.resume, st, hst, ?_, fun hr => ⟨next, hres, h0 hr⟩⟩
      rcases hor with hor | hor
      · exact Or.inl hor
      · exact Or.inr ⟨next, hres, hor⟩

theorem check_origial_table_cases (env : Env) (d : acpi_cpufreq_data)
    (perf : acpi_processor_performance) :
    (check_origial_table env d perf = (-ENOMEM, d) ∧ d.original_controls = none ∧
      env.kcalloc_ok = false) ∨
    (check_origial_table env d perf =
        (0, { d with original_controls := some (snapshot_after d perf) }) ∧
      (d.original_controls = none → env.kcalloc_ok = true)) := by
  unfold check_origial_table
  cases ho : d.original_controls with
  | none =>
    by_cases hk : env.kcalloc_ok = true
    · right
      simp [hk, snapshot_after, ho]
    · left
      simp [hk]
  | some oc =>
    right
    refine ⟨?_, fun h => by cases h⟩
    obtain ⟨a, t, r, f, o⟩ := d
    simp only at ho
    subst ho
    simp [snapshot_after]

/-- The resync at the end of a voltage write leaves the runtime state of the
core as it is except for the resync flag and the recorded current state. -/
theorem resync_frame {env : Env} {w w2 w1 : World} {policy : cpufreq_policy} {freq : Nat}
    {ret : Int} {d : acpi_cpufreq_data} {perf : acpi_processor_performance}
    {tbl : List cpufreq_frequency_table}
    (hg : get_cur_freq_on_cpu w policy.cpu = some (freq, w2))
    (ht : acpi_cpufreq_target env w2 policy freq CPUFREQ_RELATION_L = some (ret, w1))
    (hd : w.acfreq_data policy.cpu = some d) (hp : d.acpi_data = some perf)
    (htbl : d.freq_table = some tbl) :
    ∃ res st, w1.acfreq_data policy.cpu =
        some { d with resume := res, acpi_data := some { perf with state := st } } ∧
      (st = perf.state ∨
        ∃ i, write_resolved env policy tbl i ∧ st = (tbl.getD i entry0).index) := by
  obtain ⟨res, hres⟩ := get_cur_freq_on_cpu_frame hg hd
  obtain ⟨res1, st, hst, hor, -⟩ := acpi_cpufreq_target_frame ht hres hp htbl
  refine ⟨res1, st, hst, ?_⟩
  rcases hor with hor | ⟨i, hi, hst⟩
  · exact Or.inl hor
  · exact Or.inr ⟨i, ⟨freq, CPUFREQ_RELATION_L, hi⟩, hst⟩

theorem snapshot_after_cases (d : acpi_cpufreq_data) (perf : acpi_processor_performance) :
    some (snapshot_after d perf) = d.original_controls ∨
    (d.original_controls = none ∧
      some (snapshot_after d perf) = some (perf.states.map fun s => s.control)) := by
  unfold snapshot_after
  cases d.original_controls with
  | none => exact Or.inr ⟨rfl, rfl⟩
  | some oc => exact Or.inl rfl

theorem acfreq_data_set_data (w : World) (cpu : Nat) (x : Option acpi_cpufreq_data) :
    (w.set_data cpu x).acfreq_data cpu = x := by
  simp [World.set_data]

/-- The runtime state an attribute write stores at its early return frames the
one before the call. -/
theorem call_frame_written {resolved : Nat → Prop} {alloc : Prop} {d : acpi_cpufreq_data}
    {perf : acpi_processor_performance} {tbl : List cpufreq_frequency_table}
    (ht : d.freq_table = some tbl) (states : List acpi_processor_px) (res : Nat) :
    call_frame resolved alloc d perf tbl (written d perf (snapshot_after d perf) states res) :=
  ⟨_, rfl, ht, rfl, Or.inl rfl, snapshot_after_cases d perf, fun _ _ => rfl⟩

/-- The runtime state after the resync of an attribute write frames the one
before the call. -/
theorem call_frame_resync {resolved : Nat → Prop} {alloc : Prop} {d : acpi_cpufreq_data}
    {perf : acpi_processor_performance} {tbl : List cpufreq_frequency_table}
    (ht : d.freq_table = some tbl) (states : List acpi_processor_px) (r0 res st : Nat)
    (hst : st = perf.state ∨ ∃ i, resolved i ∧ st = (tbl.getD i entry0).index) :
    call_frame resolved alloc d perf tbl
      { written d perf (snapshot_after d perf) states r0 with
        resume := res, acpi_data := some { { perf with states := states } with state := st } } :=
  ⟨_, rfl, ht, rfl, hst, snapshot_after_cases d perf, fun _ _ => rfl⟩

theorem call_frame_same {resolved : Nat → Prop} {alloc : Prop} {d : acpi_cpufreq_data}
    {perf : acpi_processor_performance} {tbl : List cpufreq_frequency_table}
    (hp : d.acpi_data = some perf) (ht : d.freq_table = some tbl)
    (hno : d.cpu_feature = SYSTEM_INTEL_MSR_CAPABLE → alloc → False) :
    call_frame resolved alloc d perf tbl d :=
  ⟨perf, hp, ht, rfl, Or.inl rfl, Or.inl rfl, fun h1 h2 => absurd (hno h1 h2) id⟩

theorem store_freq_attr_vids_frame {env : Env} {w w1 : World} {policy : cpufreq_policy}
    {buf : List Char} {ret : Int} {d : acpi_cpufreq_data} {perf : acpi_processor_performance}
    {tbl : List cpufreq_frequency_table}
    (h : store_freq_attr_vids env w policy buf = some (ret, w1))
    (hd : w.acfreq_data policy.cpu = some d) (hp : d.acpi_data = some perf)
    (ht : d.freq_table = some tbl) :
    ∃ d1, w1.acfreq_data policy.cpu = some d1 ∧
      call_frame (write_resolved env policy tbl) (env.kcalloc_ok = true) d perf tbl d1 := by
  by_cases hmsr : d.cpu_feature = SYSTEM_INTEL_MSR_CAPABLE
  · rcases check_origial_table_cases env d perf with ⟨hc, hn, hk⟩ | ⟨hc, hk⟩
    · have hunf : store_freq_attr_vids env w policy buf =
          some (-ENOMEM, w.set_data policy.cpu (some d)) := by
        unfold store_freq_attr_vids
        rw [hd]
        simp [hp, ht, hmsr, hc, ENOMEM]
      rw [hunf] at h
      cases h
      exact ⟨d, acfreq_data_set_data _ _ _,
        call_frame_same hp ht (fun _ ha => by rw [hk] at ha; cases ha)⟩
    · have hunf : store_freq_attr_vids env w policy buf =
          if ¬ (store_freq_attr_vids_loop buf.length (snapshot_after d perf) tbl buf 0
              perf.states).ok then
            some (-EINVAL, w.set_data policy.cpu (some (written d perf (snapshot_after d perf)
              (store_freq_attr_vids_loop buf.length (snapshot_after d perf) tbl buf 0
                perf.states).states d.resume)))
          else
            match get_cur_freq_on_cpu
                (w.set_data policy.cpu (some (written d perf (snapshot_after d perf)
                  (store_freq_attr_vids_loop buf.length (snapshot_after d perf) tbl buf 0
                    perf.states).states 1)))
                policy.cpu with
            | none => none
            | some (freq, w2) =>
              match acpi_cpufreq_target env w2 policy freq CPUFREQ_RELATION_L with
              | none => none
              | some (_, w3) =>
                some (((store_freq_attr_vids_loop buf.length (snapshot_after d perf) tbl buf 0
                  perf.states).off : Nat), w3) := by
        unfold store_freq_attr_vids
        rw [hd]
        simp only [hp, ht, hmsr, ne_eq, not_true_eq_false, if_false, hc, Option.getD_some,
          written]
      rw [hunf] at h
      split at h
      · cases h
        exact ⟨_, acfreq_data_set_data _ _ _, call_frame_written ht _ _⟩
      · split at h
        · cases h
        · rename_i freq w2 hg
          split at h
          · cases h
          · rename_i r w3 htg
            cases h
            obtain ⟨res, st, hst, hor⟩ := resync_frame hg htg
              (acfreq_data_set_data _ _ _) rfl ht
            exact ⟨_, hst, call_frame_resync ht _ _ _ _ hor⟩
  · have hunf : store_freq_attr_vids env w policy buf = some (-ENODEV, w) := by
      unfold store_freq_attr_vids
      rw [hd]
      simp [hp, ht, hmsr]
    rw [hunf] at h
    cases h
    exact ⟨d, hd, call_frame_same hp ht (fun hm _ => hmsr hm)⟩

theorem store_freq_attr_controls_frame {env : Env} {w w1 : World} {policy : cpufreq_policy}
    {buf : List Char} {ret : Int} {d : acpi_cpufreq_data} {perf : acpi_processor_performance}
    {tbl : List cpufreq_frequency_table}
    (h : store_freq_attr_controls env w policy buf = some (ret, w1))
    (hd : w.acfreq_data policy.cpu = some d) (hp : d.acpi_data = some perf)
    (ht : d.freq_table = some tbl) :
    ∃ d1, w1.acfreq_data policy.cpu = some d1 ∧
      call_frame (write_resolved env policy tbl) (env.kcalloc_ok = true) d perf tbl d1 := by
  by_cases hmsr : d.cpu_feature = SYSTEM_INTEL_MSR_CAPABLE
  · rcases check_origial_table_cases env d perf with ⟨hc, hn, hk⟩ | ⟨hc, hk⟩
    · have hunf : store_freq_attr_controls env w policy buf =
          some (-ENOMEM, w.set_data policy.cpu (some d)) := by
        unfold store_freq_attr_controls
        rw [hd]
        simp [hp, ht, hmsr, hc, ENOMEM]
      rw [hunf] at h
      cases h
      exact ⟨d, acfreq_data_set_data _ _ _,
        call_frame_same hp ht (fun _ ha => by rw [hk] at ha; cases ha)⟩
    · have hunf : store_freq_attr_controls env w policy buf =
          match store_freq_attr_controls_loop (snapshot_after d perf) (buf.length + 1) buf
              perf.states with
          | none => none
          | some r =>
            if r.1 then
              match get_cur_freq_on_cpu
                  (w.set_data policy.cpu (some (written d perf (snapshot_after d perf) r.2 1)))
                  policy.cpu with
              | none => none
              | some (freq, w2) =>
                match acpi_cpufreq_target env w2 policy freq CPUFREQ_RELATION_L with
                | none => none
                | some (_, w3) => some ((buf.length : Nat), w3)
            else
              some (-EINVAL,
                w.set_data policy.cpu (some (written d perf (snapshot_after d perf) r.2
                  d.resume))) := by
        unfold store_freq_attr_controls
        rw [hd]
        simp only [hp, ht, hmsr, ne_eq, not_true_eq_false, if_false, hc, Option.getD_some,
          written]
      rw [hunf] at h
      split at h
      · cases h
      · split at h
        · split at h
          · cases h
          · rename_i freq w2 hg
            split at h
            · cases h
            · rename_i r w3 htg
              cases h
              obtain ⟨res, st, hst, hor⟩ := resync_frame hg htg
                (acfreq_data_set_data _ _ _) rfl ht
              exact ⟨_, hst, call_frame_resync ht _ _ _ _ hor⟩
        · cases h
          exact ⟨_, acfreq_data_set_data _ _ _, call_frame_written ht _ _⟩
  · have hunf : store_freq_attr_controls env w policy buf = some (-ENODEV, w) := by
      unfold store_freq_attr_controls
      rw [hd]
      simp [hp, ht, hmsr]
    rw [hunf] at h
    cases h
    exact ⟨d, hd, call_frame_same hp ht (fun hm _ => hmsr hm)⟩

theorem show_freq_attr_default_vids_frame (env : Env) (w : World) (policy : cpufreq_policy)
    {d : acpi_cpufreq_data} {perf : acpi_processor_performance}
    {tbl : List cpufreq_frequency_table}
    (hd : w.acfreq_data policy.cpu = some d) (hp : d.acpi_data = some perf)
    (ht : d.freq_table = some tbl) :
    ∃ d1, (show_freq_attr_default_vids env w policy).2.2.acfreq_data policy.cpu = some d1 ∧
      call_frame (fun _ => False) (env.kcalloc_ok = true) d perf tbl d1 := by
  by_cases hmsr : d.cpu_feature = SYSTEM_INTEL_MSR_CAPABLE
  · rcases check_origial_table_cases env d perf with ⟨hc, hn, hk⟩ | ⟨hc, hk⟩
    · have hunf : (show_freq_attr_default_vids env w policy).2.2 =
          w.set_data policy.cpu (some d) := by
        unfold show_freq_attr_default_vids
        rw [hd]
        simp [hp, ht, hmsr, hc, ENOMEM]
      rw [hunf]
      exact ⟨d, acfreq_data_set_data _ _ _,
        call_frame_same hp ht (fun _ ha => by rw [hk] at ha; cases ha)⟩
    · have hunf : (show_freq_attr_default_vids env w policy).2.2 =
          w.set_data policy.cpu (some (written d perf (snapshot_after d perf) perf.states
            d.resume)) := by
        unfold show_freq_attr_default_vids
        rw [hd]
        simp only [hp, ht, hmsr, ne_eq, not_true_eq_false, if_false, hc, written]
      rw [hunf]
      exact ⟨_, acfreq_data_set_data _ _ _, call_frame_written ht _ _⟩
  · have hunf : (show_freq_attr_default_vids env w policy).2.2 = w := by
      unfold show_freq_attr_default_vids
      rw [hd]
      simp [hp, ht, hmsr]
    rw [hunf]
    exact ⟨d, hd, call_frame_same hp ht (fun hm _ => hmsr hm)⟩

theorem show_freq_attr_default_controls_frame (env : Env) (w : World) (policy : cpufreq_policy)
    {d : acpi_cpufreq_data} {perf : acpi_processor_performance}
    {tbl : List cpufreq_frequency_table}
    (hd : w.acfreq_data policy.cpu = some d) (hp : d.acpi_data = some perf)
    (ht : d.freq_table = some tbl) :
    ∃ d1, (show_freq_attr_default_controls env w policy).2.2.acfreq_data policy.cpu = some d1 ∧
      call_frame (fun _ => False) (env.kcalloc_ok = true) d perf tbl d1 := by
  by_cases hmsr : d.cpu_feature = SYSTEM_INTEL_MSR_CAPABLE
  · rcases check_origial_table_cases env d perf with ⟨hc, hn, hk⟩ | ⟨hc, hk⟩
    · have hunf : (show_freq_attr_default_controls env w policy).2.2 =
          w.set_data policy.cpu (some d) := by
        unfold show_freq_attr_default_controls
        rw [hd]
        simp [hp, ht, hmsr, hc, ENOMEM]
      rw [hunf]
      exact ⟨d, acfreq_data_set_data _ _ _,
        call_frame_same hp ht (fun _ ha => by rw [hk] at ha; cases ha)⟩
    · have hunf : (show_freq_attr_default_controls env w policy).2.2 =
          w.set_data policy.cpu (some (written d perf (snapshot_after d perf) perf.states
            d.resume)) := by
        unfold show_freq_attr_default_controls
        rw [hd]
        simp only [hp, ht, hmsr, ne_eq, not_true_eq_false, if_false, hc, written]
      rw [hunf]
      exact ⟨_, acfreq_data_set_data _ _ _, call_frame_written ht _ _⟩
  · have hunf : (show_freq_attr_default_controls env w policy).2.2 = w := by
      unfold show_freq_attr_default_controls
      rw [hd]
      simp [hp, ht, hmsr]
    rw [hunf]
    exact ⟨d, hd, call_frame_same hp ht (fun hm _ => hmsr hm)⟩

/-- Every call for a core frames the runtime state of that core. -/
theorem call_step {w w1 : World} {c : Call} {d : acpi_cpufreq_data}
    {perf : acpi_processor_performance} {tbl : List cpufreq_frequency_table}
    (h : call w c = some w1) (hd : w.acfreq_data c.cpu = some d)
    (hp : d.acpi_data = some perf) (ht : d.freq_table = some tbl) :
    ∃ d1, w1.acfreq_data c.cpu = some d1 ∧ call_frame (c.resolved tbl) c.alloc d perf tbl d1 := by
  cases c with
  | target env policy target_freq relation =>
    simp only [call, Option.map_eq_some'] at h
    obtain ⟨⟨ret, w2⟩, hr, rfl⟩ := h
    obtain ⟨res, st, hst, hor, -⟩ := acpi_cpufreq_target_frame hr hd hp ht
    exact ⟨_, hst, _, rfl, ht, rfl, hor, Or.inl rfl, fun _ ha => False.elim ha⟩
  | current_frequency cpu =>
    simp only [call, Option.map_eq_some'] at h
    obtain ⟨⟨f, w2⟩, hr, rfl⟩ := h
    obtain ⟨res, hres⟩ := get_cur_freq_on_cpu_frame hr hd
    exact ⟨_, hres, perf, hp, ht, rfl, Or.inl rfl, Or.inl rfl, fun _ ha => False.elim ha⟩
  | resume policy =>
    simp only [call, Option.map_eq_some'] at h
    obtain ⟨⟨ret, w2⟩, hr, rfl⟩ := h
    unfold acpi_cpufreq_resume at hr
    simp only [Call.cpu] at hd
    rw [hd] at hr
    cases hr
    exact ⟨_, acfreq_data_set_data _ _ _, perf, hp, ht, rfl, Or.inl rfl, Or.inl rfl,
      fun _ ha => False.elim ha⟩
  | write env policy wr =>
    simp only [call, Option.map_eq_some'] at h
    obtain ⟨⟨ret, w2⟩, hr, rfl⟩ := h
    cases wr with
    | vids buf => exact store_freq_attr_vids_frame hr hd hp ht
    | controls buf => exact store_freq_attr_controls_frame hr hd hp ht
  | default_vids env policy =>
    simp only [call, Option.some.injEq] at h
    subst h
    exact show_freq_attr_default_vids_frame env w policy hd hp ht
  | default_controls env policy =>
    simp only [call, Option.some.injEq] at h
    subst h
    exact show_freq_attr_default_controls_frame env w policy hd hp ht

/-! ## The recorded current state -/

theorem table_entries_getD (tbl : List cpufreq_frequency_table) {i : Nat}
    (h : i < (table_entries tbl).length) : tbl.getD i entry0 ∈ table_entries tbl := by
  have hpre : table_entries tbl <+: tbl := List.takeWhile_prefix _
  obtain ⟨t, ht⟩ := hpre
  have h1 : tbl.getD i entry0 = (table_entries tbl).getD i entry0 := by
    conv_lhs => rw [← ht]
    rw [List.getD_append _ _ _ _ h]
  rw [h1, List.getD_eq_getElem _ _ h]
  exact List.getElem_mem _

theorem state_in_table_step {w w1 : World} {c : Call} {d : acpi_cpufreq_data}
    {perf : acpi_processor_performance} {tbl : List cpufreq_frequency_table}
    (h : call w c = some w1) (hd : w.acfreq_data c.cpu = some d)
    (hp : d.acpi_data = some perf) (ht : d.freq_table = some tbl)
    (hres : c.resolves_entries tbl)
    (hin : perf.state ∈ (table_entries tbl).map fun e => e.index) :
    ∃ d1 perf1, w1.acfreq_data c.cpu = some d1 ∧ d1.acpi_data = some perf1 ∧
      d1.freq_table = some tbl ∧ perf1.state ∈ (table_entries tbl).map fun e => e.index := by
  obtain ⟨d1, hd1, perf1, hp1, ht1, -, hst, -, -⟩ := call_step h hd hp ht
  refine ⟨d1, perf1, hd1, hp1, ht1, ?_⟩
  rcases hst with hst | ⟨i, hi, hst⟩
  · rw [hst]; exact hin
  · rw [hst]
    have hlt : i < (table_entries tbl).length := by
      cases c with
      | target env policy target_freq relation => exact hres _ _ _ _ hi
      | write env policy wr =>
        obtain ⟨f, r, hfr⟩ := hi
        exact hres _ _ _ _ hfr
      | current_frequency cpu => exact False.elim hi
      | resume policy => exact False.elim hi
      | default_vids env policy => exact False.elim hi
      | default_controls env policy => exact False.elim hi
    exact List.mem_map.mpr ⟨_, table_entries_getD tbl hlt, rfl⟩

theorem state_in_table_calls {cpu : Nat} {tbl : List cpufreq_frequency_table} :
    ∀ (cs : List Call) {w w1 : World} {d : acpi_cpufreq_data}
      {perf : acpi_processor_performance},
      calls w cs = some w1 → w.acfreq_data cpu = some d → d.acpi_data = some perf →
      d.freq_table = some tbl → (∀ c ∈ cs, c.cpu = cpu ∧ c.resolves_entries tbl) →
      perf.state ∈ (table_entries tbl).map (fun e => e.index) →
      ∃ d1 perf1, w1.acfreq_data cpu = some d1 ∧ d1.acpi_data = some perf1 ∧
        d1.freq_table = some tbl ∧ perf1.state ∈ (table_entries tbl).map fun e => e.index
  | [], w, w1, d, perf, h, hd, hp, ht, _, hin => by
    simp only [calls, Option.some.injEq] at h
    subst h
    exact ⟨d, perf, hd, hp, ht, hin⟩
  | c :: rest, w, w1, d, perf, h, hd, hp, ht, hcs, hin => by
    simp only [calls] at h
    split at h
    · cases h
    · rename_i w2 hc
      obtain ⟨hcpu, hres⟩ := hcs c (List.mem_cons_self _ _)
      subst hcpu
      obtain ⟨d1, perf1, hd1, hp1, ht1, hin1⟩ := state_in_table_step hc hd hp ht hres hin
      exact state_in_table_calls rest h hd1 hp1 ht1
        (fun c1 hc1 => hcs c1 (List.mem_cons_of_mem _ hc1)) hin1

/-- Calls keep the runtime state, the platform table and the operating-point
table of the core bound. -/
theorem bound_calls {cpu : Nat} {tbl : List cpufreq_frequency_table} :
    ∀ (cs : List Call) {w w1 : World} {d : acpi_cpufreq_data}
      {perf : acpi_processor_performance},
      calls w cs = some w1 → w.acfreq_data cpu = some d → d.acpi_data = some perf →
      d.freq_table = some tbl → (∀ c ∈ cs, c.cpu = cpu) →
      ∃ d1 perf1, w1.acfreq_data cpu = some d1 ∧ d1.acpi_data = some perf1 ∧
        d1.freq_table = some tbl ∧ d1.cpu_feature = d.cpu_feature ∧
        (d1.original_controls = d.original_controls ∨ d.original_controls = none)
  | [], w, w1, d, perf, h, hd, hp, ht, _ => by
    simp only [calls, Option.some.injEq] at h
    subst h
    exact ⟨d, perf, hd, hp, ht, rfl, Or.inl rfl⟩
  | c :: rest, w, w1, d, perf, h, hd, hp, ht, hcs => by
    simp only [calls] at h
    split at h
    · cases h
    · rename_i w2 hc
      have hcpu := hcs c (List.mem_cons_self _ _)
      subst hcpu
      obtain ⟨d1, hd1, perf1, hp1, ht1, hf1, -, hs1, -⟩ := call_step hc hd hp ht
      obtain ⟨d2, perf2, hd2, hp2, ht2, hf2, hs2⟩ := bound_calls rest h hd1 hp1 ht1
        (fun c1 hc1 => hcs c1 (List.mem_cons_of_mem _ hc1))
      refine ⟨d2, perf2, hd2, hp2, ht2, hf2.trans hf1, ?_⟩
      rcases hs1 with hs1 | ⟨hn, -⟩
      · rcases hs2 with hs2 | hs2
        · exact Or.inl (hs2.trans hs1)
        · exact Or.inr (hs1 ▸ hs2)
      · exact Or.inr hn

/-- The current state a successful initialisation records: the guess from the
measured clock for the port backend, state 0 otherwise. -/
theorem acpi_cpufreq_cpu_init_state {env : Env} {w w1 : World} {policy p1 : cpufreq_policy}
    (h : acpi_cpufreq_cpu_init env w policy = some (0, w1, p1)) :
    current_state w1 policy.cpu = some
      (if env.acpi_processor_register_performance.2.control_register.space_id =
          ACPI_ADR_SPACE_SYSTEM_IO then
        (acpi_cpufreq_guess_freq env env.acpi_processor_register_performance.2).1
      else 0) := by
  have hcpu : (init_policy_cpus env env.acpi_processor_register_performance.2 policy).cpu =
      policy.cpu := by
    unfold init_policy_cpus
    dsimp only
    split_ifs <;> rfl
  unfold acpi_cpufreq_cpu_init at h
  split at h
  · rename_i hb
    simp only [Option.some.injEq, Prod.mk.injEq] at h
    exact absurd h.1 hb
  · split at h
    · rename_i hb
      simp only [Option.some.injEq, Prod.mk.injEq] at h
      exact absurd h.1 hb
    · split at h
      · simp [ENOMEM] at h
      · split at h
        · rename_i hb
          simp only [Option.some.injEq, Prod.mk.injEq] at h
          exact absurd h.1 hb
        · split at h
          · simp [ENODEV] at h
          · split at h
            · simp [ENOMEM] at h
            · unfold init_activate at h
              dsimp only at h
              split at h
              · rename_i hb
                simp only [Option.some.injEq, Prod.mk.injEq] at h
                exact absurd h.1 hb
              · split at h
                · rename_i hio
                  simp only [Option.some.injEq, Prod.mk.injEq, true_and] at h
                  rw [← h.1, hcpu, if_pos hio]
                  simp [current_state, World.set_data]
                · rename_i hio
                  split at h
                  · cases h
                  · simp only [Option.some.injEq, Prod.mk.injEq, true_and] at h
                    rw [← h.1, hcpu, if_neg hio]
                    simp [current_state, World.set_data]

theorem table_init_entries (perf : acpi_processor_performance)
    (mem : List cpufreq_frequency_table) (hmem : perf.states.length + 1 ≤ mem.length) :
    table_entries (table_init perf mem).1 = accepted_entries perf.states 0 0 := by
  obtain ⟨-, -, h3⟩ := accepted_entries_sorted perf.states 0 0
    (fun h => absurd h (Nat.lt_irrefl 0))
  rw [table_init_eq perf mem hmem]
  unfold table_entries
  rw [List.takeWhile_append_of_pos (fun e he => by simpa using (h3 e he).2.2.1)]
  simp

/-- After a successful initialisation of a core with the model-register
backend the recorded current state, 0, is the platform index of the first
entry of the table. -/
theorem acpi_cpufreq_cpu_init_state_msr {env : Env} {w w1 : World}
    {policy p1 : cpufreq_policy}
    (h : acpi_cpufreq_cpu_init env w policy = some (0, w1, p1))
    (hio : env.acpi_processor_register_performance.2.control_register.space_id ≠
      ACPI_ADR_SPACE_SYSTEM_IO) :
    ∃ d perf tbl, w1.acfreq_data policy.cpu = some d ∧ d.acpi_data = some perf ∧
      d.freq_table = some tbl ∧ perf.state ∈ (table_entries tbl).map fun e => e.index := by
  have h0 := acpi_cpufreq_cpu_init_state h
  obtain ⟨cpu_feature, mem, st, hfeat, -, hd1⟩ := acpi_cpufreq_cpu_init_ok h
  rw [if_neg hio] at h0
  unfold current_state at h0
  rw [hd1] at h0
  simp only [Option.map_some', Option.some.injEq] at h0
  subst h0
  refine ⟨_, _, _, hd1, rfl, rfl, ?_⟩
  rw [table_init_entries _ _ (by simp [acpi_processor_performance.state_count])]
  have hcount : 1 < env.acpi_processor_register_performance.2.states.length := by
    unfold init_cpu_feature at hfeat
    split at hfeat
    · cases hfeat
    · rename_i hc
      simpa [acpi_processor_performance.state_count] using hc
  cases hs : env.acpi_processor_register_performance.2.states with
  | nil => rw [hs] at hcount; simp at hcount
  | cons s rest =>
    unfold accepted_entries
    rw [if_neg (fun h => absurd h.1 (Nat.lt_irrefl 0))]
    simp

/-! ## The generic frequency resolution answers with table entries -/

theorem table_target_loop_bound (policy : cpufreq_policy) (target_freq relation : Nat) :
    ∀ (tbl : List cpufreq_frequency_table) (i : Nat) (optimal suboptimal : Nat × Nat),
      (table_target_loop policy target_freq relation tbl i optimal suboptimal).1 =
        i + (table_entries tbl).length ∧
      ((table_target_loop policy target_freq relation tbl i optimal suboptimal).2.1.1 =
          optimal.1 ∨
        (table_target_loop policy target_freq relation tbl i optimal suboptimal).2.1.1 <
          i + (table_entries tbl).length) ∧
      ((table_target_loop policy target_freq relation tbl i optimal suboptimal).2.2.1 =
          suboptimal.1 ∨
        (table_target_loop policy target_freq relation tbl i optimal suboptimal).2.2.1 <
          i + (table_entries tbl).length)
  | [], i, optimal, suboptimal => by simp [table_target_loop, table_entries]
  | e :: rest, i, optimal, suboptimal => by
    have step : ∀ (o s : Nat × Nat), (o.1 = optimal.1 ∨ o.1 = i) →
        (s.1 = suboptimal.1 ∨ s.1 = i) → e.frequency ≠ CPUFREQ_TABLE_END →
        (table_target_loop policy target_freq relation rest (i + 1) o s).1 =
          i + (table_entries (e :: rest)).length ∧
        ((table_target_loop policy target_freq relation rest (i + 1) o s).2.1.1 = optimal.1 ∨
          (table_target_loop policy target_freq relation rest (i + 1) o s).2.1.1 <
            i + (table_entries (e :: rest)).length) ∧
        ((table_target_loop policy target_freq relation rest (i + 1) o s).2.2.1 =
            suboptimal.1 ∨
          (table_target_loop policy target_freq relation rest (i + 1) o s).2.2.1 <
            i + (table_entries (e :: rest)).length) := by
      intro o s ho hs hend
      obtain ⟨h1, h2, h3⟩ := table_target_loop_bound policy target_freq relation rest (i + 1) o s
      have hl : (table_entries (e :: rest)).length = (table_entries rest).length + 1 := by
        simp [table_entries, hend]
      rw [hl]
      refine ⟨by omega, ?_, ?_⟩
      · rcases h2 with h2 | h2
        · rcases ho with ho | ho
          · exact Or.inl (h2.trans ho)
          · exact Or.inr (by omega)
        · exact Or.inr (by omega)
      · rcases h3 with h3 | h3
        · rcases hs with hs | hs
          · exact Or.inl (h3.trans hs)
          · exact Or.inr (by omega)
        · exact Or.inr (by omega)
    rw [table_target_loop]
    by_cases hend : e.frequency = CPUFREQ_TABLE_END
    · simp [hend, table_entries]
    · rw [if_neg hend]
      split_ifs
      all_goals
        apply step _ _ _ _ hend
      all_goals
        first
        | exact Or.inl rfl
        | exact Or.inr rfl

theorem table_target_model_entries (policy : cpufreq_policy)
    (tbl : List cpufreq_frequency_table) (target_freq relation i : Nat)
    (hlen : (table_entries tbl).length < 0xffffffff)
    (h : table_target_model policy tbl target_freq relation = some i) :
    i < (table_entries tbl).length := by
  unfold table_target_model at h
  dsimp only at h
  obtain ⟨h1, h2, h3⟩ := table_target_loop_bound policy target_freq relation tbl 0
    (0xffffffff, if relation = CPUFREQ_RELATION_L then 0xffffffff else 0)
    (0xffffffff, if relation = CPUFREQ_RELATION_H then 0xffffffff else 0)
  simp only [Nat.zero_add] at h1 h2 h3
  generalize table_target_loop policy target_freq relation tbl 0
    (0xffffffff, if relation = CPUFREQ_RELATION_L then 0xffffffff else 0)
    (0xffffffff, if relation = CPUFREQ_RELATION_H then 0xffffffff else 0) = r at h h1 h2 h3
  by_cases ho : r.2.1.1 > r.1
  · rw [if_pos ho] at h
    by_cases hs : r.2.2.1 > r.1
    · rw [if_pos hs] at h
      cases h
    · rw [if_neg hs] at h
      simp only [Option.some.injEq] at h
      rw [← h]
      rcases h3 with h3 | h3
      · rw [h3, h1] at hs
        omega
      · exact h3
  · rw [if_neg ho] at h
    simp only [Option.some.injEq] at h
    rw [← h]
    rcases h2 with h2 | h2
    · rw [h2, h1] at ho
      omega
    · exact h2

/-! ## The recorded current state across calls -/

theorem call_isSome {w : World} {c : Call} {d : acpi_cpufreq_data}
    (hd : w.acfreq_data c.cpu = some d) (hfirst : c.first) : (call w c).isSome := by
  cases c with
  | target env policy target_freq relation =>
    simp only [call, Option.isSome_map']
    exact acpi_cpufreq_target_isSome env w target_freq relation hfirst
  | current_frequency cpu =>
    simp only [call, Option.isSome_map']
    exact get_cur_freq_on_cpu_isSome w cpu
  | resume policy =>
    simp only [Call.cpu] at hd
    simp [call, acpi_cpufreq_resume, hd]
  | write env policy wr =>
    simp only [call, Option.isSome_map']
    cases wr with
    | vids buf => exact store_freq_attr_vids_isSome env w buf hfirst
    | controls buf => exact store_freq_attr_controls_isSome env w buf hfirst
  | default_vids env policy => rfl
  | default_controls env policy => rfl

theorem calls_isSome {cpu : Nat} {tbl : List cpufreq_frequency_table} :
    ∀ (cs : List Call) {w : World} {d : acpi_cpufreq_data} {perf : acpi_processor_performance},
      w.acfreq_data cpu = some d → d.acpi_data = some perf → d.freq_table = some tbl →
      (∀ c ∈ cs, c.cpu = cpu ∧ c.first) → (calls w cs).isSome
  | [], _, _, _, _, _, _, _ => rfl
  | c :: rest, w, d, perf, hd, hp, ht, hcs => by
    obtain ⟨hcpu, hfirst⟩ := hcs c (List.mem_cons_self _ _)
    subst hcpu
    obtain ⟨w2, hc⟩ := Option.isSome_iff_exists.mp (call_isSome hd hfirst)
    obtain ⟨d1, hd1, perf1, hp1, ht1, -⟩ := call_step hc hd hp ht
    simp only [calls, hc]
    exact calls_isSome rest hd1 hp1 ht1 (fun c1 hc1 => hcs c1 (List.mem_cons_of_mem _ hc1))

/-- C16 (as amended): after a successful initialisation the runtime state of
the core holds a table `tbl`, and across any sequence of calls for the core
(transition requests, queries of the current frequency, resume callbacks,
voltage writes, default reads) whose frequency resolution answers with entries
of `tbl`: on a core with the model-register backend the recorded current state
is at every point the platform index of an entry of `tbl`; on every core, the
port backend included, it is so at every point after a transition request that
returned success.  The calls of such a sequence return when the core set each
of them polls starts with the core itself. -/
theorem current_state_in_table (env : Env) (w w1 : World) (policy p1 : cpufreq_policy)
    (h : acpi_cpufreq_cpu_init env w policy = some (0, w1, p1)) :
    ∃ d tbl, w1.acfreq_data policy.cpu = some d ∧ d.freq_table = some tbl ∧
      (env.acpi_processor_register_performance.2.control_register.space_id =
          ACPI_ADR_SPACE_FIXED_HARDWARE →
        ∀ cs w2, (∀ c ∈ cs, c.cpu = policy.cpu ∧ c.resolves_entries tbl) →
          calls w1 cs = some w2 → state_in_table w2 policy.cpu) ∧
      (∀ cs0 w2 envt pt f r w3 cs w4, (∀ c ∈ cs0, c.cpu = policy.cpu) →
        calls w1 cs0 = some w2 → pt.cpu = policy.cpu →
        (Call.target envt pt f r).resolves_entries tbl →
        acpi_cpufreq_target envt w2 pt f r = some (0, w3) →
        (∀ c ∈ cs, c.cpu = policy.cpu ∧ c.resolves_entries tbl) →
        calls w3 cs = some w4 → state_in_table w4 policy.cpu) ∧
      (∀ cs, (∀ c ∈ cs, c.cpu = policy.cpu ∧ c.first) → (calls w1 cs).isSome) := by
  obtain ⟨cpu_feature, mem, st, -, -, hd⟩ := acpi_cpufreq_cpu_init_ok h
  obtain ⟨tbl, htbl⟩ : ∃ tbl, tbl = (table_init env.acpi_processor_register_performance.2
      ((List.range (env.acpi_processor_register_performance.2.state_count + 1)).map mem)).1 :=
    ⟨_, rfl⟩
  rw [← htbl] at hd
  refine ⟨_, tbl, hd, rfl, ?_, ?_, ?_⟩
  · intro hfixed cs w2 hcs hrun
    have hio : env.acpi_processor_register_performance.2.control_register.space_id ≠
        ACPI_ADR_SPACE_SYSTEM_IO := by rw [hfixed]; decide
    obtain ⟨d0, perf0, tbl0, hd0, hp0, ht0, hin0⟩ := acpi_cpufreq_cpu_init_state_msr h hio
    rw [hd] at hd0
    simp only [Option.some.injEq] at hd0
    subst hd0
    simp only [Option.some.injEq] at ht0
    subst ht0
    obtain ⟨d1, perf1, hd1, hp1, ht1, hin1⟩ := state_in_table_calls cs hrun hd hp0 rfl hcs hin0
    exact ⟨d1, perf1, _, hd1, hp1, ht1, hin1⟩
  · intro cs0 w2 envt pt f r w3 cs w4 hcs0 hrun0 hpt hres ht hcs hrun
    obtain ⟨d2, perf2, hd2, hp2, ht2, -⟩ := bound_calls cs0 hrun0 hd rfl rfl hcs0
    rw [← hpt] at hd2
    obtain ⟨res, st3, hd3, -, h0⟩ := acpi_cpufreq_target_frame ht hd2 hp2 ht2
    obtain ⟨i, hi, hst⟩ := h0 rfl
    have hin3 : st3 ∈ (table_entries tbl).map fun e => e.index := by
      rw [hst]
      exact List.mem_map.mpr ⟨_, table_entries_getD _ (hres _ _ _ _ hi), rfl⟩
    rw [hpt] at hd3
    obtain ⟨d4, perf4, hd4, hp4, ht4, hin4⟩ := state_in_table_calls cs hrun hd3 rfl ht2 hcs hin3
    exact ⟨d4, perf4, _, hd4, hp4, ht4, hin4⟩
  · intro cs hcs
    exact calls_isSome cs hd rfl rfl hcs

theorem current_state_in_table_witness :
    ∃ w1 p1 w2, acpi_cpufreq_cpu_init ex_env boot_world ex_policy = some (0, w1, p1) ∧
      calls w1 [Call.target ex_env ex_policy 2600000 CPUFREQ_RELATION_L,
        Call.write ex_env ex_policy (VoltageWrite.vids "2 1 0\n".toList),
        Call.current_frequency 0, Call.resume ex_policy] = some w2 ∧
      state_in_table w2 ex_policy.cpu := by
  have hs : (acpi_cpufreq_cpu_init ex_env boot_world ex_policy).map
      (fun r => (r.1, table_of r.2.1 0)) = some (0, ex_table) := by decide
  cases hr : acpi_cpufreq_cpu_init ex_env boot_world ex_policy with
  | none => rw [hr] at hs; cases hs
  | some r =>
    obtain ⟨ret, w1, p1⟩ := r
    rw [hr] at hs
    simp only [Option.map_some', Option.some.injEq, Prod.mk.injEq] at hs
    obtain ⟨rfl, htab⟩ := hs
    obtain ⟨d, tbl, hd, ht, hmsr, -, htotal⟩ :=
      current_state_in_table ex_env boot_world w1 ex_policy p1 hr
    have htbl : tbl = ex_table := by
      have hd0 : w1.acfreq_data 0 = some d := hd
      unfold table_of at htab
      rw [hd0] at htab
      simpa [ht] using htab
    subst htbl
    have hres : ∀ p f r i, ex_env.cpufreq_frequency_table_target p ex_table f r = some i →
        i < (table_entries ex_table).length :=
      fun p f r i hi => table_target_model_entries p ex_table f r i (by decide) hi
    have hfirst : policy_first ex_policy := Or.inr (by decide)
    have hrun := htotal [Call.target ex_env ex_policy 2600000 CPUFREQ_RELATION_L,
        Call.write ex_env ex_policy (VoltageWrite.vids "2 1 0\n".toList),
        Call.current_frequency 0, Call.resume ex_policy] (by
      intro c hc
      simp only [List.mem_cons, List.mem_singleton, List.not_mem_nil, or_false] at hc
      rcases hc with rfl | rfl | rfl | rfl
      · exact ⟨rfl, hfirst⟩
      · exact ⟨rfl, hfirst⟩
      · exact ⟨rfl, trivial⟩
      · exact ⟨rfl, trivial⟩)
    obtain ⟨w2, hw2⟩ := Option.isSome_iff_exists.mp hrun
    refine ⟨w1, p1, w2, rfl, hw2, hmsr rfl _ w2 ?_ hw2⟩
    intro c hc
    simp only [List.mem_cons, List.mem_singleton, List.not_mem_nil, or_false] at hc
    rcases hc with rfl | rfl | rfl | rfl
    · exact ⟨rfl, hres⟩
    · exact ⟨rfl, hres⟩
    · exact ⟨rfl, trivial⟩
    · exact ⟨rfl, trivial⟩

/-- C16 (counterexample): on a port-backend platform whose two states share
one frequency the table has the single entry of state 0; with a measured clock
of 2000 MHz the guess of initialisation records state 1 as the current state,
which is the platform index of no entry of the table. -/
theorem acpi_cpufreq_cpu_init_guess_dropped :
    (acpi_cpufreq_cpu_init port_env boot_world ex_policy).map
      (fun r => (r.1, current_state r.2.1 0,
        (table_entries (table_of r.2.1 0)).map fun e => e.index)) = some (0, some 1, [0]) ∧
    1 ∉ [0] := by
  decide

/-! ## The snapshot of the original control values -/

theorem show_freq_attr_default_vids_out (env : Env) {w : World} {policy : cpufreq_policy}
    {d : acpi_cpufreq_data} {perf : acpi_processor_performance}
    {tbl : List cpufreq_frequency_table}
    (hd : w.acfreq_data policy.cpu = some d) (hp : d.acpi_data = some perf)
    (ht : d.freq_table = some tbl) (hmsr : d.cpu_feature = SYSTEM_INTEL_MSR_CAPABLE)
    (hk : d.original_controls = none → env.kcalloc_ok = true) :
    ((show_freq_attr_default_vids env w policy).1,
      (show_freq_attr_default_vids env w policy).2.1) =
      show_result (default_vids_text (snapshot_after d perf) tbl) := by
  rcases check_origial_table_cases env d perf with ⟨-, hn, hf⟩ | ⟨hc, -⟩
  · rw [hk hn] at hf
    cases hf
  · unfold show_freq_attr_default_vids
    rw [hd]
    simp only [hp, ht, hmsr, ne_eq, not_true_eq_false, if_false, hc, Option.getD_some]
    rfl

theorem show_freq_attr_default_controls_out (env : Env) {w : World} {policy : cpufreq_policy}
    {d : acpi_cpufreq_data} {perf : acpi_processor_performance}
    {tbl : List cpufreq_frequency_table}
    (hd : w.acfreq_data policy.cpu = some d) (hp : d.acpi_data = some perf)
    (ht : d.freq_table = some tbl) (hmsr : d.cpu_feature = SYSTEM_INTEL_MSR_CAPABLE)
    (hk : d.original_controls = none → env.kcalloc_ok = true) :
    ((show_freq_attr_default_controls env w policy).1,
      (show_freq_attr_default_controls env w policy).2.1) =
      show_result (default_controls_text (snapshot_after d perf) tbl) := by
  rcases check_origial_table_cases env d perf with ⟨-, hn, hf⟩ | ⟨hc, -⟩
  · rw [hk hn] at hf
    cases hf
  · unfold show_freq_attr_default_controls
    rw [hd]
    simp only [hp, ht, hmsr, ne_eq, not_true_eq_false, if_false, hc, Option.getD_some]
    rfl

theorem call_frame_snapshot {resolved : Nat → Prop} {alloc : Prop} {d d0 : acpi_cpufreq_data}
    {perf : acpi_processor_performance} {tbl : List cpufreq_frequency_table}
    (hf : call_frame resolved alloc d perf tbl d0)
    (hmsr : d.cpu_feature = SYSTEM_INTEL_MSR_CAPABLE)
    (hk : d.original_controls = none → alloc) :
    d0.original_controls = some (snapshot_after d perf) := by
  obtain ⟨perf0, -, -, -, -, hs, ha⟩ := hf
  cases ho : d.original_controls with
  | none => exact ha hmsr (hk ho)
  | some oc =>
    rcases hs with hs | ⟨hn, -⟩
    · rw [hs, ho]
      simp [snapshot_after, ho]
    · rw [ho] at hn
      cases hn

/-- Once a core with the model-register backend has its snapshot, calls for the
core leave it bound with the same table, backend and snapshot. -/
theorem snapshot_after_calls {cpu : Nat} {w0 w1 : World} {d0 : acpi_cpufreq_data}
    {perf0 : acpi_processor_performance} {tbl : List cpufreq_frequency_table} {oc : List Nat}
    (cs : List Call) (hd0 : w0.acfreq_data cpu = some d0) (hp0 : d0.acpi_data = some perf0)
    (ht0 : d0.freq_table = some tbl) (hmsr : d0.cpu_feature = SYSTEM_INTEL_MSR_CAPABLE)
    (hoc : d0.original_controls = some oc)
    (hcs : ∀ c ∈ cs, c.cpu = cpu) (hrun : calls w0 cs = some w1) :
    ∃ d1 perf1, w1.acfreq_data cpu = some d1 ∧ d1.acpi_data = some perf1 ∧
      d1.freq_table = some tbl ∧ d1.cpu_feature = SYSTEM_INTEL_MSR_CAPABLE ∧
      d1.original_controls = some oc ∧ snapshot_after d1 perf1 = oc := by
  obtain ⟨d1, perf1, hd1, hp1, ht1, hf1, hs1⟩ := bound_calls cs hrun hd0 hp0 ht0 hcs
  have hoc1 : d1.original_controls = some oc := by
    rcases hs1 with hs1 | hs1
    · rw [hs1, hoc]
    · rw [hoc] at hs1
      cases hs1
  refine ⟨d1, perf1, hd1, hp1, ht1, by rw [hf1, hmsr], hoc1, ?_⟩
  unfold snapshot_after
  rw [hoc1]
  rfl

/-- C13: on a core with the model-register backend the snapshot is taken once.
The first voltage write or default read whose allocation succeeds copies the
control value of every platform state, one entry per state.  Once the core has
a snapshot, no sequence of calls for the core (voltage writes, default reads,
transition requests, queries, resume callbacks) changes it.  So a read of the
default voltage-ids or of the default controls that succeeds returns the same
value and the same text when it is repeated after any such sequence of
calls. -/
theorem snapshot_taken_once (w : World) (policy : cpufreq_policy) (d : acpi_cpufreq_data)
    (perf : acpi_processor_performance) (tbl : List cpufreq_frequency_table)
    (hd : w.acfreq_data policy.cpu = some d) (hp : d.acpi_data = some perf)
    (ht : d.freq_table = some tbl) (hmsr : d.cpu_feature = SYSTEM_INTEL_MSR_CAPABLE) :
    (∀ c w1, c.cpu = policy.cpu → c.alloc → d.original_controls = none → call w c = some w1 →
      ∃ d1, w1.acfreq_data policy.cpu = some d1 ∧
        d1.original_controls = some (perf.states.map fun s => s.control) ∧
        (perf.states.map fun s => s.control).length = perf.state_count) ∧
    (∀ oc cs w1, d.original_controls = some oc → (∀ c ∈ cs, c.cpu = policy.cpu) →
      calls w cs = some w1 →
      ∃ d1, w1.acfreq_data policy.cpu = some d1 ∧ d1.original_controls = some oc) ∧
    (∀ env0 env1 cs w1, (d.original_controls = none → env0.kcalloc_ok = true) →
      (∀ c ∈ cs, c.cpu = policy.cpu) →
      calls (show_freq_attr_default_vids env0 w policy).2.2 cs = some w1 →
      ((show_freq_attr_default_vids env1 w1 policy).1,
        (show_freq_attr_default_vids env1 w1 policy).2.1) =
      ((show_freq_attr_default_vids env0 w policy).1,
        (show_freq_attr_default_vids env0 w policy).2.1)) ∧
    (∀ env0 env1 cs w1, (d.original_controls = none → env0.kcalloc_ok = true) →
      (∀ c ∈ cs, c.cpu = policy.cpu) →
      calls (show_freq_attr_default_controls env0 w policy).2.2 cs = some w1 →
      ((show_freq_attr_default_controls env1 w1 policy).1,
        (show_freq_attr_default_controls env1 w1 policy).2.1) =
      ((show_freq_attr_default_controls env0 w policy).1,
        (show_freq_attr_default_controls env0 w policy).2.1)) := by
  refine ⟨?_, ?_, ?_, ?_⟩
  · intro c w1 hcpu halloc hnone hcall
    rw [← hcpu] at hd
    obtain ⟨d1, hd1, hf⟩ := call_step hcall hd hp ht
    have hoc := call_frame_snapshot hf hmsr (fun _ => halloc)
    rw [hcpu] at hd1
    refine ⟨d1, hd1, ?_, by simp [acpi_processor_performance.state_count]⟩
    rw [hoc]
    simp [snapshot_after, hnone]
  · intro oc cs w1 hoc hcs hrun
    obtain ⟨d1, perf1, hd1, -, -, -, hoc1, -⟩ :=
      snapshot_after_calls cs hd hp ht hmsr hoc hcs hrun
    exact ⟨d1, hd1, hoc1⟩
  · intro env0 env1 cs w1 hk hcs hrun
    obtain ⟨d0, hd0, hf⟩ := show_freq_attr_default_vids_frame env0 w policy hd hp ht
    have hoc0 := call_frame_snapshot hf hmsr hk
    obtain ⟨perf0, hp0, ht0, hf0, -⟩ := hf
    obtain ⟨d1, perf1, hd1, hp1, ht1, hm1, hoc1, hsn⟩ :=
      snapshot_after_calls cs hd0 hp0 ht0 (by rw [hf0, hmsr]) hoc0 hcs hrun
    rw [show_freq_attr_default_vids_out env1 hd1 hp1 ht1 hm1 (fun h => by rw [hoc1] at h; cases h),
      show_freq_attr_default_vids_out env0 hd hp ht hmsr hk, hsn]
  · intro env0 env1 cs w1 hk hcs hrun
    obtain ⟨d0, hd0, hf⟩ := show_freq_attr_default_controls_frame env0 w policy hd hp ht
    have hoc0 := call_frame_snapshot hf hmsr hk
    obtain ⟨perf0, hp0, ht0, hf0, -⟩ := hf
    obtain ⟨d1, perf1, hd1, hp1, ht1, hm1, hoc1, hsn⟩ :=
      snapshot_after_calls cs hd0 hp0 ht0 (by rw [hf0, hmsr]) hoc0 hcs hrun
    rw [show_freq_attr_default_controls_out env1 hd1 hp1 ht1 hm1
        (fun h => by rw [hoc1] at h; cases h),
      show_freq_attr_default_controls_out env0 hd hp ht hmsr hk, hsn]

theorem snapshot_taken_once_witness :
    (show_freq_attr_default_controls ex_env (ex_world 0x0602 0) ex_policy).2.1 =
      "8:3 6:2 4:1 \n".toList ∧
    (∃ d1, (show_freq_attr_default_controls ex_env (ex_world 0x0602 0)
          ex_policy).2.2.acfreq_data ex_policy.cpu = some d1 ∧
      d1.original_controls = some (ex_perf.states.map fun s => s.control) ∧
      (ex_perf.states.map fun s => s.control).length = ex_perf.state_count) ∧
    ∃ w1, calls (show_freq_attr_default_controls ex_env (ex_world 0x0602 0) ex_policy).2.2
        [Call.write ex_env ex_policy (VoltageWrite.vids "2 1 0\n".toList),
         Call.write ex_env ex_policy (VoltageWrite.controls "6:1,4:0".toList)] = some w1 ∧
      control_values w1 0 = [0x0802, 0x0601, 0x0400] ∧
      ((show_freq_attr_default_controls ex_env w1 ex_policy).1,
        (show_freq_attr_default_controls ex_env w1 ex_policy).2.1) =
      ((show_freq_attr_default_controls ex_env (ex_world 0x0602 0) ex_policy).1,
        (show_freq_attr_default_controls ex_env (ex_world 0x0602 0) ex_policy).2.1) := by
  have T := snapshot_taken_once (ex_world 0x0602 0) ex_policy ex_data ex_perf ex_table
    rfl rfl rfl rfl
  refine ⟨by decide,
    T.1 (Call.default_controls ex_env ex_policy) _ rfl rfl rfl rfl, ?_⟩
  have hs : (calls (show_freq_attr_default_controls ex_env (ex_world 0x0602 0) ex_policy).2.2
      [Call.write ex_env ex_policy (VoltageWrite.vids "2 1 0\n".toList),
       Call.write ex_env ex_policy (VoltageWrite.controls "6:1,4:0".toList)]).map
      (fun w => control_values w 0) = some [0x0802, 0x0601, 0x0400] := by decide
  cases hr : calls (show_freq_attr_default_controls ex_env (ex_world 0x0602 0) ex_policy).2.2
      [Call.write ex_env ex_policy (VoltageWrite.vids "2 1 0\n".toList),
       Call.write ex_env ex_policy (VoltageWrite.controls "6:1,4:0".toList)] with
  | none => rw [hr] at hs; cases hs
  | some w1 =>
    rw [hr] at hs
    simp only [Option.map_some', Option.some.injEq] at hs
    refine ⟨w1, rfl, hs, T.2.2.2 ex_env ex_env _ w1 (fun _ => rfl) ?_ hr⟩
    intro c hc
    simp only [List.mem_cons, List.mem_singleton, List.not_mem_nil, or_false] at hc
    rcases hc with rfl | rfl
    · rfl
    · rfl

/-! # Round trips, the resync flag and the frequency-id field -/

/-! ## The frequency-id field of a raw value -/

theorem and_ff00_of_bits {a b : Nat}
    (h : ∀ i, 8 ≤ i → i < 16 → a.testBit i = b.testBit i) : a &&& 0xff00 = b &&& 0xff00 := by
  apply Nat.eq_of_testBit_eq
  intro i
  rw [Nat.testBit_and, Nat.testBit_and, tb_ff00]
  by_cases h8 : 8 ≤ i
  · by_cases h16 : i < 16
    · rw [h i h8 h16]
    · simp [h16]
  · simp [h8]

/-- C25: for the model-register backend the frequency extracted from a raw
value depends only on its bits 8 to 15: two raw values that agree on these bits
extract to the same frequency, by `extract_msr` and by `extract_freq` on a core
with that backend, whatever their other bits.  In particular a raw value whose
low byte is replaced by any voltage-id extracts to the frequency it extracted
to before. -/
theorem extract_msr_fid_only (msr1 msr2 : Nat) (data : acpi_cpufreq_data)
    (h : ∀ i, 8 ≤ i → i < 16 → msr1.testBit i = msr2.testBit i) :
    extract_msr msr1 data = extract_msr msr2 data ∧
    (data.cpu_feature = SYSTEM_INTEL_MSR_CAPABLE →
      extract_freq msr1 data = extract_freq msr2 data) ∧
    (∀ v, v ≤ 255 →
      extract_msr ((msr1 &&& NOT_INTEL_MSR_VID_MASK) ||| v) data = extract_msr msr1 data) := by
  have hm : ∀ a b : Nat, a &&& INTEL_MSR_FID_MASK = b &&& INTEL_MSR_FID_MASK →
      extract_msr a data = extract_msr b data := by
    intro a b hab
    unfold extract_msr
    rw [hab]
  have h1 := hm msr1 msr2 (and_ff00_of_bits h)
  refine ⟨h1, ?_, ?_⟩
  · intro hf
    unfold extract_freq
    rw [if_pos hf, if_pos hf, h1]
  · intro v hv
    exact hm _ _ (fid_of_set msr1 v hv)

theorem extract_msr_fid_only_witness :
    extract_msr 0xabcd0601 ex_data = 2600000 ∧
    extract_msr 0xabcd0601 ex_data = extract_msr 0x06ff ex_data ∧
    (ex_data.cpu_feature = SYSTEM_INTEL_MSR_CAPABLE →
      extract_freq 0xabcd0601 ex_data = extract_freq 0x06ff ex_data) ∧
    (∀ v, v ≤ 255 →
      extract_msr ((0xabcd0601 &&& NOT_INTEL_MSR_VID_MASK) ||| v) ex_data =
        extract_msr 0xabcd0601 ex_data) :=
  ⟨by decide, extract_msr_fid_only 0xabcd0601 0x06ff ex_data (by
    intro i h8 h16
    interval_cases i <;> decide)⟩

/-! ## Frequency of a raw port value -/

/-- C21 (the code at the failing input): on a port-backend platform with the
states 3000, 3000 and 2600 MHz and the status values 0, 1 and 2 the table is
3000000 (state 0) and 2600000 (state 2).  For the raw value 1, the status of
state 1 (3000 MHz), `extract_io` returns 2600000, and for the raw value 2, the
status of state 2 (2600 MHz), it returns the sentinel value: it reads the slot
at the position of the matching platform state. -/
theorem extract_io_dropped_state :
    (acpi_cpufreq_cpu_init dup_port_env boot_world ex_policy).map
      (fun r => (r.1, table_of r.2.1 0,
        (r.2.1.acfreq_data 0).map fun d => (extract_io 1 d, extract_io 2 d))) =
    some (0, [⟨0, 3000000⟩, ⟨2, 2600000⟩, ⟨0, CPUFREQ_TABLE_END⟩, ⟨0, 0⟩],
      some (2600000, CPUFREQ_TABLE_END)) ∧
    (dup_port_perf.states.map fun s => (s.status, 1000 * s.core_frequency)) =
      [(0, 3000000), (1, 3000000), (2, 2600000)] := by
  decide

/-! ## The resync flag across transition requests -/

/-- The resync flag a transition request leaves: cleared when the request
resolves to the current state, untouched otherwise. -/
theorem acpi_cpufreq_target_resume {env : Env} {w w1 : World} {policy : cpufreq_policy}
    {target_freq relation : Nat} {ret : Int} {d : acpi_cpufreq_data}
    {perf : acpi_processor_performance} {tbl : List cpufreq_frequency_table} {next_state : Nat}
    (h : acpi_cpufreq_target env w policy target_freq relation = some (ret, w1))
    (hd : w.acfreq_data policy.cpu = some d) (hp : d.acpi_data = some perf)
    (ht : d.freq_table = some tbl)
    (hres : env.cpufreq_frequency_table_target policy tbl target_freq relation =
      some next_state) :
    resync_flag w1 policy.cpu =
      some (if perf.state = (tbl.getD next_state entry0).index then 0 else d.resume) := by
  have hunf : acpi_cpufreq_target env w policy target_freq relation =
      if perf.state = (tbl.getD next_state entry0).index then
        if d.resume ≠ 0 then
          acpi_cpufreq_target_write
            (w.set_data policy.cpu (some { d with resume := 0 })) policy
            { d with resume := 0 } perf tbl next_state
        else some (0, w)
      else acpi_cpufreq_target_write w policy d perf tbl next_state := by
    unfold acpi_cpufreq_target
    rw [hd]
    simp only [hp, ht, hres]
  rw [hunf] at h
  unfold resync_flag
  split at h
  · rename_i hcur
    rw [if_pos hcur]
    split at h
    · obtain ⟨st, hst, -⟩ := acpi_cpufreq_target_write_frame h (acfreq_data_set_data _ _ _) hp
      rw [hst]
      rfl
    · rename_i h0
      cases h
      rw [hd]
      simp only [Option.map_some', Option.some.injEq]
      exact not_not.mp h0
  · rename_i hcur
    rw [if_neg hcur]
    obtain ⟨st, hst, -⟩ := acpi_cpufreq_target_write_frame h hd hp
    rw [hst]
    rfl

theorem resync_flag_moves {w w1 : World} {c : Call} (hm : c.moves w)
    (h : call w c = some w1) : resync_flag w1 c.cpu = resync_flag w c.cpu := by
  cases c with
  | target env policy target_freq relation =>
    obtain ⟨d, perf, tbl, next_state, hd, hp, ht, hres, hne⟩ := hm
    simp only [call, Option.map_eq_some'] at h
    obtain ⟨⟨ret, w2⟩, hr, rfl⟩ := h
    have hf := acpi_cpufreq_target_resume hr hd hp ht hres
    rw [if_neg hne] at hf
    simp only [Call.cpu]
    rw [hf]
    unfold resync_flag
    rw [hd]
    rfl
  | current_frequency cpu => exact False.elim hm
  | resume policy => exact False.elim hm
  | write env policy wr => exact False.elim hm
  | default_vids env policy => exact False.elim hm
  | default_controls env policy => exact False.elim hm

theorem resync_flag_all_move {cpu : Nat} :
    ∀ (cs : List Call) {w w1 : World}, (∀ c ∈ cs, c.cpu = cpu) → all_move w cs →
      calls w cs = some w1 → resync_flag w1 cpu = resync_flag w cpu
  | [], w, w1, _, _, h => by
    simp only [calls, Option.some.injEq] at h
    rw [h]
  | c :: rest, w, w1, hcs, hm, h => by
    simp only [calls] at h
    split at h
    · cases h
    · rename_i w2 hc
      have hcpu := hcs c (List.mem_cons_self _ _)
      rw [resync_flag_all_move rest (fun c1 hc1 => hcs c1 (List.mem_cons_of_mem _ hc1))
        (hm.2 w2 hc) h, ← hcpu, resync_flag_moves hm.1 hc]

/-- C24: `acpi_cpufreq_target` clears the resync flag only on the forced
re-write path.  After a request that resolves to the current state the flag is
clear: with the flag set the request writes the control register (on a core
with a backend) and clears the flag, with the flag clear it does nothing.
After a request that resolves to another state the flag is exactly as it was,
whatever the request returns.  Hence the flag a world has is still there after
any sequence of requests that each resolve to another state than the then
current one, and the first later request for the then current state is written
to the hardware. -/
theorem acpi_cpufreq_target_flag (env : Env) (w : World) (policy : cpufreq_policy)
    (target_freq relation : Nat) (data : acpi_cpufreq_data)
    (perf : acpi_processor_performance) (tbl : List cpufreq_frequency_table) (next_state : Nat)
    (hdata : w.acfreq_data policy.cpu = some data) (hperf : data.acpi_data = some perf)
    (htbl : data.freq_table = some tbl)
    (hres : env.cpufreq_frequency_table_target policy tbl target_freq relation =
      some next_state) :
    (∀ ret w1, acpi_cpufreq_target env w policy target_freq relation = some (ret, w1) →
      resync_flag w1 policy.cpu =
        some (if perf.state = (tbl.getD next_state entry0).index then 0 else data.resume)) ∧
    (perf.state = (tbl.getD next_state entry0).index → data.resume ≠ 0 → has_backend data →
      ∀ ret w1, acpi_cpufreq_target env w policy target_freq relation = some (ret, w1) →
        ∃ cmd rest,
          w1.log = w.log ++ (target_notify policy
              (u32 ((perf.states.getD perf.state px0).core_frequency * 1000))
              (tbl.getD next_state entry0).frequency CPUFREQ_PRECHANGE ++
            Event.drv_write cmd :: rest) ∧
          cmd.val = u32 (perf.states.getD perf.state px0).control) ∧
    (perf.state = (tbl.getD next_state entry0).index → data.resume = 0 →
      acpi_cpufreq_target env w policy target_freq relation = some (0, w)) ∧
    (∀ cs w0, (∀ c ∈ cs, c.cpu = policy.cpu) → all_move w0 cs → calls w0 cs = some w →
      resync_flag w0 policy.cpu = some data.resume) := by
  have hunf : acpi_cpufreq_target env w policy target_freq relation =
      if perf.state = (tbl.getD next_state entry0).index then
        if data.resume ≠ 0 then
          acpi_cpufreq_target_write
            (w.set_data policy.cpu (some { data with resume := 0 })) policy
            { data with resume := 0 } perf tbl next_state
        else some (0, w)
      else acpi_cpufreq_target_write w policy data perf tbl next_state := by
    unfold acpi_cpufreq_target
    rw [hdata]
    simp only [hperf, htbl, hres]
  refine ⟨fun ret w1 h => acpi_cpufreq_target_resume h hdata hperf htbl hres, ?_, ?_, ?_⟩
  · intro hcur h1 hb ret w1 h
    rw [hunf, if_pos hcur, if_pos h1] at h
    have hb0 : has_backend { data with resume := 0 } := hb
    obtain ⟨cmd, hcmd, hval, -⟩ := target_cmd_some perf
      (tbl.getD next_state entry0).index (target_mask policy) hb0
    obtain ⟨rest, hlog⟩ := acpi_cpufreq_target_write_log hcmd h
    refine ⟨cmd, rest, ?_, ?_⟩
    · simpa [World.set_data] using hlog
    · rw [hval, hcur]
  · intro hcur h0
    rw [hunf, if_pos hcur, if_neg (by simpa using h0)]
  · intro cs w0 hcs hm hrun
    rw [← resync_flag_all_move cs hcs hm hrun]
    unfold resync_flag
    rw [hdata]
    rfl

theorem acpi_cpufreq_target_flag_witness :
    ∃ w, calls (ex_world 0x0602 0)
        [Call.target ex_env ex_policy 2600000 CPUFREQ_RELATION_L] = some w ∧
      current_state w 0 = some 1 ∧
      resync_flag (ex_world 0x0602 0) ex_policy.cpu = some 1 ∧
      (∀ ret w1, acpi_cpufreq_target ex_env w ex_policy 2600000 CPUFREQ_RELATION_L =
          some (ret, w1) → resync_flag w1 ex_policy.cpu = some 0) ∧
      (∀ ret w1, acpi_cpufreq_target ex_env w ex_policy 2200000 CPUFREQ_RELATION_L =
          some (ret, w1) → resync_flag w1 ex_policy.cpu = some 1) := by
  have hs : (calls (ex_world 0x0602 0)
      [Call.target ex_env ex_policy 2600000 CPUFREQ_RELATION_L]).map
      (fun w => w.acfreq_data 0) =
      some (some { ex_data with acpi_data := some { ex_perf with state := 1 } }) := by decide
  cases hr : calls (ex_world 0x0602 0)
      [Call.target ex_env ex_policy 2600000 CPUFREQ_RELATION_L] with
  | none => rw [hr] at hs; cases hs
  | some w =>
    rw [hr] at hs
    simp only [Option.map_some', Option.some.injEq] at hs
    have T1 := acpi_cpufreq_target_flag ex_env w ex_policy 2600000 CPUFREQ_RELATION_L
      { ex_data with acpi_data := some { ex_perf with state := 1 } } { ex_perf with state := 1 }
      ex_table 1 hs rfl rfl (by decide)
    have T2 := acpi_cpufreq_target_flag ex_env w ex_policy 2200000 CPUFREQ_RELATION_L
      { ex_data with acpi_data := some { ex_perf with state := 1 } } { ex_perf with state := 1 }
      ex_table 2 hs rfl rfl (by decide)
    refine ⟨w, rfl, ?_, ?_, T1.1, T2.1⟩
    · unfold current_state
      rw [hs]
      rfl
    · refine T1.2.2.2 [Call.target ex_env ex_policy 2600000 CPUFREQ_RELATION_L]
        (ex_world 0x0602 0) ?_ ?_ hr
      · intro c hc
        simp only [List.mem_singleton] at hc
        subst hc
        rfl
      · exact ⟨⟨ex_data, ex_perf, ex_table, 1, rfl, rfl, rfl, by decide, by decide⟩,
          fun _ _ => trivial⟩

/-! ## The text of `"%u"` -/

theorem digitChar_lt_ten {m : Nat} (h : m < 10) :
    isdigit (Nat.digitChar m) = true ∧ (Nat.digitChar m).toNat - '0'.toNat = m := by
  interval_cases m <;> exact ⟨by decide, by decide⟩

theorem toDigitsCore_decimal :
    ∀ (fuel n : Nat) (ds : List Char), n < fuel →
      List.foldl (fun r c => r * 10 + (c.toNat - '0'.toNat)) 0 (Nat.toDigitsCore 10 fuel n ds) =
        List.foldl (fun r c => r * 10 + (c.toNat - '0'.toNat)) n ds
  | 0, _, _, h => absurd h (Nat.not_lt_zero _)
  | fuel + 1, n, ds, h => by
    have hd := (digitChar_lt_ten (Nat.mod_lt n (by decide : 0 < 10))).2
    unfold Nat.toDigitsCore
    dsimp only
    split
    · rename_i h0
      simp only [List.foldl_cons, Nat.zero_mul, Nat.zero_add, hd]
      congr 1
      omega
    · rename_i h0
      rw [toDigitsCore_decimal fuel (n / 10) _ (by omega)]
      simp only [List.foldl_cons, hd]
      congr 1
      omega

theorem toDigitsCore_digits :
    ∀ (fuel n : Nat) (ds : List Char), (∀ c ∈ ds, isdigit c = true) →
      ∀ c ∈ Nat.toDigitsCore 10 fuel n ds, isdigit c = true
  | 0, _, ds, h => by
    unfold Nat.toDigitsCore
    exact h
  | fuel + 1, n, ds, h => by
    have hd := (digitChar_lt_ten (Nat.mod_lt n (by decide : 0 < 10))).1
    have hc : ∀ c ∈ Nat.digitChar (n % 10) :: ds, isdigit c = true := by
      intro c hc
      simp only [List.mem_cons] at hc
      rcases hc with rfl | hc
      · exact hd
      · exact h c hc
    unfold Nat.toDigitsCore
    dsimp only
    split
    · exact hc
    · exact toDigitsCore_digits fuel (n / 10) _ hc

theorem toDigitsCore_ne_nil :
    ∀ (fuel n : Nat) (ds : List Char), Nat.toDigitsCore 10 (fuel + 1) n ds ≠ []
  | 0, n, ds => by
    unfold Nat.toDigitsCore
    dsimp only
    split
    · simp
    · unfold Nat.toDigitsCore
      simp
  | fuel + 1, n, ds => by
    unfold Nat.toDigitsCore
    dsimp only
    split
    · simp
    · exact toDigitsCore_ne_nil fuel (n / 10) _

/-- The text of `"%u"` is a number, and its value is the number printed. -/
theorem sprintf_u_number (n : Nat) : is_number (sprintf_u n) ∧ decimal (sprintf_u n) = n := by
  refine ⟨⟨toDigitsCore_ne_nil n n [], ?_⟩, ?_⟩
  · exact toDigitsCore_digits (n + 1) n [] (fun c hc => by cases hc)
  · unfold decimal sprintf_u Nat.toDigits
    rw [toDigitsCore_decimal (n + 1) n [] (Nat.lt_succ_self n)]
    rfl

/-! ## The text of the default reads -/

theorem table_split (tbl : List cpufreq_frequency_table) :
    tbl = table_entries tbl ++ table_rest tbl ∧
    (∀ e ∈ table_entries tbl, e.frequency ≠ CPUFREQ_TABLE_END) ∧
    (∀ x, (table_rest tbl).head? = some x → x.frequency = CPUFREQ_TABLE_END) := by
  refine ⟨(List.takeWhile_append_dropWhile _ tbl).symm, ?_, ?_⟩
  · intro e he
    have := List.mem_takeWhile_imp he
    simpa using this
  · intro x hx
    have := List.head?_dropWhile_not (fun e : cpufreq_frequency_table =>
      decide (e.frequency ≠ CPUFREQ_TABLE_END)) tbl
    unfold table_rest at hx
    rw [hx] at this
    simpa using this

theorem default_vids_text_eq (oc : List Nat) :
    ∀ tbl : List cpufreq_frequency_table,
      default_vids_text oc tbl = vids_text (default_vid_tokens oc (table_entries tbl))
  | [] => rfl
  | e :: rest => by
    unfold default_vids_text
    rw [show_loop]
    by_cases hend : e.frequency = CPUFREQ_TABLE_END
    · simp [hend, table_entries, default_vid_tokens, vids_text]
    · have ht : table_entries (e :: rest) = e :: table_entries rest := by
        simp [table_entries, hend]
      have ih := default_vids_text_eq oc rest
      unfold default_vids_text at ih
      rw [if_neg hend, ih, ht]
      simp [default_vid_tokens, vids_text]

theorem default_controls_text_eq (oc : List Nat) :
    ∀ tbl : List cpufreq_frequency_table,
      default_controls_text oc tbl = pairs_text (default_control_pairs oc (table_entries tbl))
  | [] => rfl
  | e :: rest => by
    unfold default_controls_text
    rw [show_loop]
    by_cases hend : e.frequency = CPUFREQ_TABLE_END
    · simp [hend, table_entries, default_control_pairs, pairs_text]
    · have ht : table_entries (e :: rest) = e :: table_entries rest := by
        simp [table_entries, hend]
      have ih := default_controls_text_eq oc rest
      unfold default_controls_text at ih
      rw [if_neg hend, ih, ht]
      simp [default_control_pairs, pairs_text, PairText.text]

theorem is_number_not_separator {ds : List Char} (hd : is_number ds) (rest : List Char) :
    ¬ is_separator (deref (ds ++ rest)) := by
  obtain ⟨hne, hall⟩ := hd
  cases ds with
  | nil => exact absurd rfl hne
  | cons c cs =>
    have hc : isdigit c = true := hall c (List.mem_cons_self _ _)
    show ¬ (c = ' ' ∨ c = ',')
    intro h
    rcases h with h | h
    · rw [h] at hc
      exact absurd hc (by decide)
    · rw [h] at hc
      exact absurd hc (by decide)

theorem tokens_ok_default (oc : List Nat) :
    ∀ es : List cpufreq_frequency_table, tokens_ok (default_vid_tokens oc es) ['\n']
  | [] => trivial
  | e :: es => by
    have ih := tokens_ok_default oc es
    refine ⟨(sprintf_u_number _).1, ?_, ?_, ?_, ih⟩
    · intro c hc
      simp only [List.mem_singleton] at hc
      exact Or.inl hc
    · show isdigit ' ' = false
      decide
    · cases es with
      | nil =>
        show ¬ is_separator '\n'
        unfold is_separator
        decide
      | cons e1 es1 =>
        have hn := (sprintf_u_number (extract_vid_from_control (u32 (oc.getD e1.index 0)))).1
        have := is_number_not_separator hn
          ([' '] ++ (vids_text (default_vid_tokens oc es1) ++ ['\n']))
        simpa [default_vid_tokens, vids_text] using this

/-! ## Restoring the defaults through the ordered form -/

theorem u32_split_vid (o : Nat) :
    (u32 o &&& NOT_INTEL_MSR_VID_MASK) ||| (u32 o &&& INTEL_MSR_VID_MASK) = u32 o := by
  apply Nat.eq_of_testBit_eq
  intro i
  show (((u32 o) &&& 0xffffff00) ||| ((u32 o) &&& 0xff)).testBit i = (u32 o).testBit i
  simp only [Nat.testBit_or, Nat.testBit_and, tb_ffffff00, tb_ff]
  by_cases h8 : i < 8
  · simp [h8, Nat.not_le.mpr h8]
  · by_cases h32 : i < 32
    · simp [h8, h32, Nat.not_lt.mp h8]
    · simp [h8, h32, tb_u32_small (u32_lt o) (Nat.not_lt.mp h32)]

/-- The value the driver reads from the text of a voltage-id or frequency-id. -/
theorem u32_decimal_sprintf_u {n : Nat} (h : n < 2 ^ 32) : u32 (decimal (sprintf_u n)) = n := by
  rw [(sprintf_u_number n).2]
  exact Nat.mod_eq_of_lt h

theorem extract_vid_lt (c : Nat) : extract_vid_from_control c < 2 ^ 32 :=
  lt_of_le_of_lt (and_ff_le c) (by norm_num)

/-- The rule of the ordered write for the token of the default text restores
the snapshot value of the entry. -/
theorem vid_rule_default (oc : List Nat) (e : cpufreq_frequency_table)
    (states : List acpi_processor_px) (hl : oc.length = states.length) :
    ((vid_rule oc e (u32 (decimal (sprintf_u
      (extract_vid_from_control (u32 (oc.getD e.index 0)))))) states).getD e.index px0).control
      = u32 (oc.getD e.index 0) := by
  rw [u32_decimal_sprintf_u (extract_vid_lt _)]
  by_cases hin : e.index < states.length
  · rw [vid_rule_getD_self oc e _ states hin]
    show vid_result _ _ _ = _
    unfold vid_result
    have hle : extract_vid_from_control (u32 (oc.getD e.index 0)) ≤
        u32 (oc.getD e.index 0) &&& INTEL_MSR_VID_MASK := Nat.le_refl _
    rw [if_pos hle]
    exact u32_split_vid _
  · have hs : states.getD e.index px0 = px0 := by
      rw [List.getD_eq_default _ _ (Nat.not_lt.mp hin)]
    have ho : oc.getD e.index 0 = 0 := by
      rw [List.getD_eq_default _ _ (by rw [hl]; exact Nat.not_lt.mp hin)]
    have hv : vid_rule oc e (extract_vid_from_control (u32 (oc.getD e.index 0))) states =
        states := by
      unfold vid_rule
      split
      · rw [List.set_eq_of_length_le (Nat.not_lt.mp hin)]
      · rfl
    rw [hv, hs, ho]
    rfl

theorem apply_vids_default (oc : List Nat) :
    ∀ (es : List cpufreq_frequency_table) (states : List acpi_processor_px),
      oc.length = states.length →
      ∀ e ∈ es, ((apply_vids oc es (default_vid_tokens oc es) states).getD e.index px0).control
        = u32 (oc.getD e.index 0)
  | [], _, _, _, h => by cases h
  | e0 :: es, states, hl, e, he => by
    have hstep : apply_vids oc (e0 :: es) (default_vid_tokens oc (e0 :: es)) states =
        apply_vids oc es (default_vid_tokens oc es)
          (vid_rule oc e0 (u32 (decimal (sprintf_u
            (extract_vid_from_control (u32 (oc.getD e0.index 0)))))) states) := by
      simp [default_vid_tokens, apply_vids, token_vid]
    have hl1 : oc.length = (vid_rule oc e0 (u32 (decimal (sprintf_u
        (extract_vid_from_control (u32 (oc.getD e0.index 0)))))) states).length := by
      rw [vid_rule_length]; exact hl
    rw [hstep]
    by_cases hmem : e.index ∈ es.map fun x => x.index
    · obtain ⟨e1, he1, hi1⟩ := List.mem_map.mp hmem
      have := apply_vids_default oc es _ hl1 e1 he1
      rw [hi1] at this
      exact this
    · simp only [List.mem_cons] at he
      rcases he with rfl | he
      · rw [apply_vids_getD_other oc es _ _ hmem]
        exact vid_rule_default oc e states hl
      · exact absurd (List.mem_map_of_mem _ he) hmem

theorem store_freq_attr_vids_loop_end_off (count : Nat) (oc : List Nat)
    (later : List cpufreq_frequency_table) (tail : List Char) (off : Nat)
    (states : List acpi_processor_px)
    (hend : ∀ x, later.head? = some x → x.frequency = CPUFREQ_TABLE_END) :
    store_freq_attr_vids_loop count oc later tail off states = ⟨true, off, states⟩ := by
  cases later with
  | nil => rfl
  | cons x xs =>
    rw [store_freq_attr_vids_loop, if_pos (hend x rfl)]

theorem vids_text_default_length (oc : List Nat) :
    ∀ es : List cpufreq_frequency_table, es ≠ [] →
      0 < (vids_text (default_vid_tokens oc es)).length
  | [], h => absurd rfl h
  | e :: es, _ => by
    simp [default_vid_tokens, vids_text]

/-- The ordered write of the default voltage-ids text for the snapshot of the
core: it returns the length of the text in front of the newline and leaves
every state of a table entry with its snapshot value. -/
theorem store_freq_attr_vids_default (env : Env) (w : World) (policy : cpufreq_policy)
    (data : acpi_cpufreq_data) (perf : acpi_processor_performance) (orig : List Nat)
    (tbl : List cpufreq_frequency_table)
    (hdata : w.acfreq_data policy.cpu = some data) (hperf : data.acpi_data = some perf)
    (htbl : data.freq_table = some tbl) (hmsr : data.cpu_feature = SYSTEM_INTEL_MSR_CAPABLE)
    (hj : snapshot_inv orig data) (hk : data.original_controls = none → env.kcalloc_ok = true)
    (hfirst : policy_first policy) :
    ∃ (w1 : World) (d1 : acpi_cpufreq_data) (perf1 : acpi_processor_performance),
      store_freq_attr_vids env w policy (default_vids_text orig tbl ++ ['\n']) =
        some ((((default_vids_text orig tbl).length : Nat) : Int), w1) ∧
      w1.acfreq_data policy.cpu = some d1 ∧ d1.acpi_data = some perf1 ∧
      d1.original_controls = some orig ∧
      ∀ e ∈ table_entries tbl, (perf1.states.getD e.index px0).control =
        u32 (orig.getD e.index 0) := by
  obtain ⟨hsplit, hes, hrest⟩ := table_split tbl
  have htbl1 : data.freq_table = some (table_entries tbl ++ table_rest tbl) := by
    rw [← hsplit]
    exact htbl
  have hf := snapshot_inv_forall₂ hperf hj
  have hloop := store_freq_attr_vids_loop_tokens
    (vids_text (default_vid_tokens orig (table_entries tbl)) ++ ['\n']).length orig
    (table_rest tbl) ['\n'] (table_entries tbl) (default_vid_tokens orig (table_entries tbl)) 0
    perf.states (by simp [default_vid_tokens]) hes (tokens_ok_default orig _) (by simp)
  rw [store_freq_attr_vids_loop_end_off _ _ _ _ _ _ hrest] at hloop
  rw [default_vids_text_eq, store_freq_attr_vids_unfold _ hdata hperf htbl1 hmsr hj hk, hloop]
  simp only [not_true_eq_false, if_false, Nat.zero_add]
  obtain ⟨w3, h3, hsame⟩ := resync_same env (w.set_data policy.cpu (some (written data perf orig
    (apply_vids orig (table_entries tbl) (default_vid_tokens orig (table_entries tbl))
      perf.states) 1)))
    (((vids_text (default_vid_tokens orig (table_entries tbl))).length : Nat) : Int) hfirst
  obtain ⟨d1, perf1, hd1, hp1, hs1, ho1, -, -⟩ := same_tables_written hsame
  refine ⟨w3, d1, perf1, ?_, hd1, hp1, ho1, ?_⟩
  · simpa [World.set_data] using h3
  · rw [hs1]
    exact apply_vids_default orig (table_entries tbl) perf.states hf.length_eq

/-- The snapshot invariant after the first-use check. -/
theorem snapshot_inv_checked {orig : List Nat} {d : acpi_cpufreq_data}
    {perf : acpi_processor_performance} (hp : d.acpi_data = some perf)
    (hj : snapshot_inv orig d) :
    snapshot_inv orig { d with original_controls := some orig } :=
  ⟨perf, hp, Or.inr ⟨rfl, snapshot_inv_forall₂ hp hj⟩⟩

/-- The read of the default voltage-ids on a core whose snapshot is or becomes
`orig`. -/
theorem show_freq_attr_default_vids_eq (env : Env) {w : World} {policy : cpufreq_policy}
    {d : acpi_cpufreq_data} {perf : acpi_processor_performance} {orig : List Nat}
    {tbl : List cpufreq_frequency_table}
    (hd : w.acfreq_data policy.cpu = some d) (hp : d.acpi_data = some perf)
    (ht : d.freq_table = some tbl) (hmsr : d.cpu_feature = SYSTEM_INTEL_MSR_CAPABLE)
    (hj : snapshot_inv orig d) (hk : d.original_controls = none → env.kcalloc_ok = true) :
    show_freq_attr_default_vids env w policy =
      ((((default_vids_text orig tbl ++ ['\n']).length : Nat) : Int),
        default_vids_text orig tbl ++ ['\n'],
        w.set_data policy.cpu (some { d with original_controls := some orig })) := by
  unfold show_freq_attr_default_vids
  rw [hd]
  simp only [hp, ht, hmsr, ne_eq, not_true_eq_false, if_false, check_origial_table_ok env hp hj hk,
    Option.getD_some]
  rfl

/-- The read of the default controls on a core whose snapshot is or becomes
`orig`. -/
theorem show_freq_attr_default_controls_eq (env : Env) {w : World} {policy : cpufreq_policy}
    {d : acpi_cpufreq_data} {perf : acpi_processor_performance} {orig : List Nat}
    {tbl : List cpufreq_frequency_table}
    (hd : w.acfreq_data policy.cpu = some d) (hp : d.acpi_data = some perf)
    (ht : d.freq_table = some tbl) (hmsr : d.cpu_feature = SYSTEM_INTEL_MSR_CAPABLE)
    (hj : snapshot_inv orig d) (hk : d.original_controls = none → env.kcalloc_ok = true) :
    show_freq_attr_default_controls env w policy =
      ((((default_controls_text orig tbl ++ ['\n']).length : Nat) : Int),
        default_controls_text orig tbl ++ ['\n'],
        w.set_data policy.cpu (some { d with original_controls := some orig })) := by
  unfold show_freq_attr_default_controls
  rw [hd]
  simp only [hp, ht, hmsr, ne_eq, not_true_eq_false, if_false, check_origial_table_ok env hp hj hk,
    Option.getD_some]
  rfl

/-- The default voltage-ids text of a table with an entry is not empty. -/
theorem default_vids_text_pos (oc : List Nat) (tbl : List cpufreq_frequency_table)
    (hne : table_entries tbl ≠ []) : 0 < (default_vids_text oc tbl).length := by
  rw [default_vids_text_eq]
  cases hes : table_entries tbl with
  | nil => exact absurd hes hne
  | cons e es => simp [default_vid_tokens, vids_text]

/-- C23 (counterexample): on a platform with the control values 0x100000803
and 0x100000602, after initialisation, the default voltage-ids read returns
the 5 bytes `3 2 ` and a newline and takes the snapshot of both values; the
ordered write of that text returns 4 and leaves the control values 0x0803 and
0x0602, which are not the snapshot originals. -/
theorem default_vids_round_trip_truncates :
    ((acpi_cpufreq_cpu_init wide_env boot_world ex_policy).bind fun r =>
      vids_round_trip wide_env r.2.1 r.2.2) =
      some ⟨5, "3 2 \n".toList, 4, [0x0803, 0x0602], some [0x100000803, 0x100000602]⟩ := by
  decide

/-- C23 (amended): on a core of the model-register backend in a state reachable
by voltage writes whose table has an entry, the ordered write accepts the
exact text of the default voltage-ids read: it returns the positive count of
the bytes in front of the newline, one less than the read returned, and
afterwards the control value of the platform state of every table entry is the
low 32 bits of its snapshot original (the snapshot original itself when that
fits 32 bits). -/
theorem default_vids_round_trip (env0 env1 : Env) (w : World) (policy : cpufreq_policy)
    (d : acpi_cpufreq_data) (perf : acpi_processor_performance) (orig : List Nat)
    (tbl : List cpufreq_frequency_table)
    (hd : w.acfreq_data policy.cpu = some d) (hp : d.acpi_data = some perf)
    (ht : d.freq_table = some tbl) (hmsr : d.cpu_feature = SYSTEM_INTEL_MSR_CAPABLE)
    (hj : snapshot_inv orig d) (hk : d.original_controls = none → env0.kcalloc_ok = true)
    (hne : table_entries tbl ≠ []) (hfirst : policy_first policy) :
    ∃ (ret : Int) (w1 : World) (d1 : acpi_cpufreq_data) (perf1 : acpi_processor_performance),
      store_freq_attr_vids env1 (show_freq_attr_default_vids env0 w policy).2.2 policy
        (show_freq_attr_default_vids env0 w policy).2.1 = some (ret, w1) ∧
      0 < ret ∧ ret + 1 = (show_freq_attr_default_vids env0 w policy).1 ∧
      w1.acfreq_data policy.cpu = some d1 ∧ d1.acpi_data = some perf1 ∧
      d1.original_controls = some orig ∧
      ∀ e ∈ table_entries tbl,
        (perf1.states.getD e.index px0).control = u32 (orig.getD e.index 0) ∧
        (orig.getD e.index 0 < 2 ^ 32 →
          (perf1.states.getD e.index px0).control = orig.getD e.index 0) := by
  rw [show_freq_attr_default_vids_eq env0 hd hp ht hmsr hj hk]
  obtain ⟨w1, d1, perf1, h1, hd1, hp1, ho1, hs1⟩ := store_freq_attr_vids_default env1
    (w.set_data policy.cpu (some { d with original_controls := some orig })) policy
    { d with original_controls := some orig } perf orig tbl (acfreq_data_set_data _ _ _) hp ht
    hmsr (snapshot_inv_checked hp hj) (fun h => by cases h) hfirst
  refine ⟨_, w1, d1, perf1, h1, ?_, ?_, hd1, hp1, ho1, fun e he => ⟨hs1 e he, fun hlt => ?_⟩⟩
  · exact_mod_cast default_vids_text_pos orig tbl hne
  · simp
  · rw [hs1 e he]
    exact Nat.mod_eq_of_lt hlt

theorem default_vids_round_trip_witness :
    (show_freq_attr_default_vids ex_env lowered_world ex_policy).1 = 7 ∧
    (show_freq_attr_default_vids ex_env lowered_world ex_policy).2.1 = "3 2 1 \n".toList ∧
    control_values lowered_world 0 = [0x0802, 0x0602, 0x0400] ∧
    ∃ (w1 : World),
      store_freq_attr_vids ex_env (show_freq_attr_default_vids ex_env lowered_world ex_policy).2.2
        ex_policy (show_freq_attr_default_vids ex_env lowered_world ex_policy).2.1 =
        some (6, w1) ∧
      control_values w1 0 = [0x0803, 0x0602, 0x0401] := by
  refine ⟨by decide, by decide, by decide, ?_⟩
  obtain ⟨ret, w1, d1, perf1, h1, -, h2, -, -, -, -⟩ :=
    default_vids_round_trip ex_env ex_env lowered_world ex_policy lowered_data
      { ex_perf with states := lowered_states }
      [0x0803, 0x0602, 0x0401] ex_table rfl rfl rfl rfl
      ⟨_, rfl, Or.inr ⟨rfl, by
        refine List.Forall₂.cons ?_ (List.Forall₂.cons ?_ (List.Forall₂.cons ?_ List.Forall₂.nil))
        all_goals exact ⟨by decide, by decide⟩⟩⟩
      (fun _ => rfl) (by decide) (Or.inr (by decide))
  have hr : ret = 6 := by
    have h7 : (show_freq_attr_default_vids ex_env lowered_world ex_policy).1 = 7 := by decide
    rw [h7] at h2
    omega
  subst hr
  refine ⟨w1, h1, ?_⟩
  have hc : (store_freq_attr_vids ex_env
      (show_freq_attr_default_vids ex_env lowered_world ex_policy).2.2 ex_policy
      (show_freq_attr_default_vids ex_env lowered_world ex_policy).2.1).map
      (fun r => control_values r.2 0) = some [0x0803, 0x0602, 0x0401] := by decide
  rw [h1] at hc
  simpa using hc

/-! ## Restoring the defaults through the paired form -/

theorem extract_fid_lt (c : Nat) : extract_fid_from_control c < 2 ^ 32 := by
  have h1 : extract_fid_from_control c ≤ c &&& INTEL_MSR_FID_MASK := by
    unfold extract_fid_from_control
    rw [Nat.shiftRight_eq_div_pow]
    exact Nat.div_le_self _ _
  have h2 : c &&& INTEL_MSR_FID_MASK ≤ 0xff00 := Nat.and_le_right
  omega

theorem forall₂_vid_ok_getD {oc : List Nat} {states : List acpi_processor_px}
    (h : List.Forall₂ vid_ok oc states) :
    ∀ j, j < states.length → vid_ok (oc.getD j 0) (states.getD j px0) := by
  induction h with
  | nil => intro j hj; simp at hj
  | cons hh _ ih =>
    intro j hj
    cases j with
    | zero => simpa using hh
    | succ j =>
      have := ih j (by simpa using hj)
      simpa using this

theorem zipWith_pair_rule_getD (f v : Nat) :
    ∀ (oc : List Nat) (states : List acpi_processor_px) (j : Nat),
      oc.length = states.length → j < states.length →
      (List.zipWith (pair_rule f v) oc states).getD j px0 =
        pair_rule f v (oc.getD j 0) (states.getD j px0)
  | [], [], _, _, hj => by simp at hj
  | [], _ :: _, _, h, _ => by simp at h
  | _ :: _, [], _, h, _ => by simp at h
  | o :: oc, s :: states, 0, _, _ => by simp
  | o :: oc, s :: states, j + 1, h, hj => by
    have := zipWith_pair_rule_getD f v oc states j (by simpa using h) (by simpa using hj)
    simpa using this

/-- The frequency-id of a state in range is among the current ones. -/
theorem getD_mem_current_fids (states : List acpi_processor_px) (j : Nat)
    (hj : j < states.length) :
    extract_fid_from_control (u32 (states.getD j px0).control) ∈ current_fids states := by
  unfold current_fids
  rw [List.mem_map]
  refine ⟨states.getD j px0, ?_, rfl⟩
  rw [List.getD_eq_getElem _ _ hj]
  exact List.getElem_mem hj

theorem vid_ok_fid {o : Nat} {s : acpi_processor_px} (h : vid_ok o s) :
    extract_fid_from_control (u32 s.control) = extract_fid_from_control (u32 o) := by
  rw [extract_fid_u32, extract_fid_u32, h.2]

/-- The pair of the default text for the snapshot value `o` restores a state
that carries the frequency-id of `o`. -/
theorem pair_rule_default (o : Nat) (s : acpi_processor_px) (h : vid_ok o s) :
    (pair_rule (u32 (decimal (sprintf_u (extract_fid_from_control (u32 o)))))
      (u32 (decimal (sprintf_u (extract_vid_from_control (u32 o))))) o s).control = u32 o := by
  rw [u32_decimal_sprintf_u (extract_fid_lt _), u32_decimal_sprintf_u (extract_vid_lt _)]
  unfold pair_rule
  rw [if_pos (vid_ok_fid h).symm, if_pos (Nat.le_refl _)]
  exact u32_split_vid o

/-- The pairs of the default text applied to the platform states: the state
`j` is restored when a table entry names it and no entry of another state
carries its frequency-id. -/
theorem apply_pairs_default (oc : List Nat) (j : Nat) :
    ∀ (es : List cpufreq_frequency_table) (states : List acpi_processor_px),
      List.Forall₂ vid_ok oc states → j < states.length →
      (∀ e ∈ es, extract_fid_from_control (u32 (oc.getD e.index 0)) =
        extract_fid_from_control (u32 (oc.getD j 0)) → e.index = j) →
      ((states.getD j px0).control = u32 (oc.getD j 0) ∨ ∃ e ∈ es, e.index = j) →
      ((apply_pairs oc ((default_control_pairs oc es).map fun p => p.1) states).getD j
        px0).control = u32 (oc.getD j 0)
  | [], states, _, _, _, h => by
    rcases h with h | ⟨e, he, -⟩
    · exact h
    · cases he
  | e :: es, states, hf, hj, hd, h => by
    obtain ⟨h1, -⟩ := zipWith_pair_rule_ok
      (u32 (decimal (sprintf_u (extract_fid_from_control (u32 (oc.getD e.index 0))))))
      (u32 (decimal (sprintf_u (extract_vid_from_control (u32 (oc.getD e.index 0)))))) hf
    have hl : oc.length = states.length := hf.length_eq
    have hj1 : j < (List.zipWith (pair_rule
        (u32 (decimal (sprintf_u (extract_fid_from_control (u32 (oc.getD e.index 0))))))
        (u32 (decimal (sprintf_u (extract_vid_from_control (u32 (oc.getD e.index 0)))))))
        oc states).length := by
      rw [List.length_zipWith, hl, Nat.min_self]
      exact hj
    have hvj := forall₂_vid_ok_getD hf j hj
    refine apply_pairs_default oc j es _ h1 hj1
      (fun e1 he1 => hd e1 (List.mem_cons_of_mem _ he1)) ?_
    rw [zipWith_pair_rule_getD _ _ oc states j hl hj]
    show (pair_rule
      (u32 (decimal (sprintf_u (extract_fid_from_control (u32 (oc.getD e.index 0))))))
      (u32 (decimal (sprintf_u (extract_vid_from_control (u32 (oc.getD e.index 0))))))
      (oc.getD j 0) (states.getD j px0)).control = u32 (oc.getD j 0) ∨ _
    by_cases hfid : extract_fid_from_control (u32 (oc.getD e.index 0)) =
        extract_fid_from_control (u32 (oc.getD j 0))
    · have hej := hd e (List.mem_cons_self _ _) hfid
      rw [hej]
      exact Or.inl (pair_rule_default _ _ hvj)
    · have hne : e.index ≠ j := fun he => hfid (by rw [he])
      have hsame : pair_rule
          (u32 (decimal (sprintf_u (extract_fid_from_control (u32 (oc.getD e.index 0))))))
          (u32 (decimal (sprintf_u (extract_vid_from_control (u32 (oc.getD e.index 0))))))
          (oc.getD j 0) (states.getD j px0) = states.getD j px0 := by
        rw [u32_decimal_sprintf_u (extract_fid_lt _)]
        unfold pair_rule
        rw [if_neg]
        rw [vid_ok_fid hvj]
        exact hfid
      rw [hsame]
      rcases h with h | ⟨e1, he1, hi1⟩
      · exact Or.inl h
      · rcases List.mem_cons.mp he1 with rfl | hm
        · exact absurd hi1 hne
        · exact Or.inr ⟨e1, hm, hi1⟩

/-- The pairs of the default text are well formed and name frequency-ids the
platform states carry. -/
theorem default_control_pairs_ok (oc : List Nat) (es : List cpufreq_frequency_table)
    (states : List acpi_processor_px) (hf : List.Forall₂ vid_ok oc states)
    (hidx : ∀ e ∈ es, e.index < states.length) :
    ∀ p ∈ default_control_pairs oc es,
      p.1.ok ∧ is_separator p.2 ∧ p.1.new_fid ∈ current_fids states := by
  intro p hp
  unfold default_control_pairs at hp
  rw [List.mem_map] at hp
  obtain ⟨e, he, rfl⟩ := hp
  refine ⟨⟨(sprintf_u_number _).1, (sprintf_u_number _).1⟩, ?_, ?_⟩
  · show is_separator ' '
    unfold is_separator; decide
  show u32 (decimal (sprintf_u (extract_fid_from_control (u32 (oc.getD e.index 0))))) ∈ _
  rw [u32_decimal_sprintf_u (extract_fid_lt _),
    ← vid_ok_fid (forall₂_vid_ok_getD hf e.index (hidx e he))]
  exact getD_mem_current_fids states e.index (hidx e he)

theorem store_freq_attr_controls_loop_newline (oc : List Nat) (fuel : Nat)
    (states : List acpi_processor_px) :
    store_freq_attr_controls_loop oc (fuel + 1) ['\n'] states = some (false, states) := by
  rfl

/-- The paired write of the default controls text for the snapshot of the
core: every pair is applied, and the text behind the blank of the last pair is
not a pair. -/
theorem store_freq_attr_controls_default (env : Env) (w : World) (policy : cpufreq_policy)
    (data : acpi_cpufreq_data) (perf : acpi_processor_performance) (orig : List Nat)
    (tbl : List cpufreq_frequency_table)
    (hdata : w.acfreq_data policy.cpu = some data) (hperf : data.acpi_data = some perf)
    (htbl : data.freq_table = some tbl) (hmsr : data.cpu_feature = SYSTEM_INTEL_MSR_CAPABLE)
    (hj : snapshot_inv orig data) (hk : data.original_controls = none → env.kcalloc_ok = true)
    (hidx : ∀ e ∈ table_entries tbl, e.index < perf.states.length) :
    store_freq_attr_controls env w policy (default_controls_text orig tbl ++ ['\n']) =
      some (-EINVAL, w.set_data policy.cpu (some (written data perf orig
        (apply_pairs orig ((default_control_pairs orig (table_entries tbl)).map fun p => p.1)
          perf.states) data.resume))) := by
  have hf := snapshot_inv_forall₂ hperf hj
  have hlen := pairs_text_length (default_control_pairs orig (table_entries tbl))
  have hfuel : (pairs_text (default_control_pairs orig (table_entries tbl)) ++ ['\n']).length + 1 =
      (default_control_pairs orig (table_entries tbl)).length +
        (((pairs_text (default_control_pairs orig (table_entries tbl))).length -
          (default_control_pairs orig (table_entries tbl)).length + 1) + 1) := by
    simp only [List.length_append, List.length_singleton]
    omega
  have hloop := store_freq_attr_controls_loop_pairs orig ['\n']
    (default_control_pairs orig (table_entries tbl))
    (((pairs_text (default_control_pairs orig (table_entries tbl))).length -
      (default_control_pairs orig (table_entries tbl)).length + 1) + 1) perf.states
    (default_control_pairs_ok orig _ perf.states hf hidx) hf
  rw [store_freq_attr_controls_loop_newline, ← hfuel] at hloop
  rw [default_controls_text_eq, store_freq_attr_controls_unfold _ hdata hperf htbl hmsr hj hk,
    hloop]
  rfl

/-- C22 (counterexample): on the example platform, after initialisation, the
default controls read produces the 13 bytes `8:3 6:2 4:1 ` and a newline, and
the paired write of that text returns the invalid-input error.  On a platform
whose two states carry the frequency-id 6 with the control values 0x0603 and
0x0602 the text is `6:3 6:2 ` and a newline, and after the paired write of it
the first state holds 0x0602, not its snapshot original 0x0603.  On a platform
with the control values 0x100000803 and 0x100000602 the paired write of the
text `8:3 6:2 ` and a newline leaves 0x0803 and 0x0602, not the snapshot
originals. -/
theorem default_controls_round_trip_fails :
    ((acpi_cpufreq_cpu_init ex_env boot_world ex_policy).bind fun r =>
      controls_round_trip ex_env r.2.1 r.2.2) =
      some ⟨13, "8:3 6:2 4:1 \n".toList, -EINVAL, [0x0803, 0x0602, 0x0401],
        some [0x0803, 0x0602, 0x0401]⟩ ∧
    ((acpi_cpufreq_cpu_init twin_env boot_world ex_policy).bind fun r =>
      controls_round_trip twin_env r.2.1 r.2.2) =
      some ⟨9, "6:3 6:2 \n".toList, -EINVAL, [0x0602, 0x0602], some [0x0603, 0x0602]⟩ ∧
    ((acpi_cpufreq_cpu_init wide_env boot_world ex_policy).bind fun r =>
      controls_round_trip wide_env r.2.1 r.2.2) =
      some ⟨9, "8:3 6:2 \n".toList, -EINVAL, [0x0803, 0x0602],
        some [0x100000803, 0x100000602]⟩ := by
  refine ⟨?_, ?_, ?_⟩ <;> decide

/-- C22 (amended): on a core of the model-register backend in a state reachable
by voltage writes, whose table entries name platform states of the platform
table and no two table entries of different platform states carry the same
frequency-id, the paired write of the exact text of the default controls read
returns, and afterwards the control value of the platform state of every table
entry is the low 32 bits of its snapshot original (the snapshot original itself
when that fits 32 bits). -/
theorem default_controls_round_trip (env0 env1 : Env) (w : World) (policy : cpufreq_policy)
    (d : acpi_cpufreq_data) (perf : acpi_processor_performance) (orig : List Nat)
    (tbl : List cpufreq_frequency_table)
    (hd : w.acfreq_data policy.cpu = some d) (hp : d.acpi_data = some perf)
    (ht : d.freq_table = some tbl) (hmsr : d.cpu_feature = SYSTEM_INTEL_MSR_CAPABLE)
    (hj : snapshot_inv orig d) (hk : d.original_controls = none → env0.kcalloc_ok = true)
    (hidx : ∀ e ∈ table_entries tbl, e.index < perf.states.length)
    (hdist : ∀ e1 ∈ table_entries tbl, ∀ e2 ∈ table_entries tbl,
      extract_fid_from_control (u32 (orig.getD e1.index 0)) =
        extract_fid_from_control (u32 (orig.getD e2.index 0)) → e1.index = e2.index) :
    ∃ (ret : Int) (w1 : World) (d1 : acpi_cpufreq_data) (perf1 : acpi_processor_performance),
      store_freq_attr_controls env1 (show_freq_attr_default_controls env0 w policy).2.2 policy
        (show_freq_attr_default_controls env0 w policy).2.1 = some (ret, w1) ∧
      w1.acfreq_data policy.cpu = some d1 ∧ d1.acpi_data = some perf1 ∧
      d1.original_controls = some orig ∧
      ∀ e ∈ table_entries tbl,
        (perf1.states.getD e.index px0).control = u32 (orig.getD e.index 0) ∧
        (orig.getD e.index 0 < 2 ^ 32 →
          (perf1.states.getD e.index px0).control = orig.getD e.index 0) := by
  rw [show_freq_attr_default_controls_eq env0 hd hp ht hmsr hj hk]
  have hs : ∀ e ∈ table_entries tbl,
      ((apply_pairs orig ((default_control_pairs orig (table_entries tbl)).map fun p => p.1)
        perf.states).getD e.index px0).control = u32 (orig.getD e.index 0) :=
    fun e he => apply_pairs_default orig e.index (table_entries tbl) perf.states
      (snapshot_inv_forall₂ hp hj) (hidx e he) (fun e1 he1 h => hdist e1 he1 e he h)
      (Or.inr ⟨e, he, rfl⟩)
  refine ⟨_, _, _, _, store_freq_attr_controls_default env1
    (w.set_data policy.cpu (some { d with original_controls := some orig })) policy
    { d with original_controls := some orig } perf orig tbl (acfreq_data_set_data _ _ _) hp ht
    hmsr (snapshot_inv_checked hp hj) (fun h => by cases h) hidx,
    acfreq_data_set_data _ _ _, rfl, rfl, fun e he => ⟨hs e he, fun hlt => ?_⟩⟩
  show ((apply_pairs orig ((default_control_pairs orig (table_entries tbl)).map fun p => p.1)
    perf.states).getD e.index px0).control = _
  rw [hs e he]
  exact Nat.mod_eq_of_lt hlt

theorem default_controls_round_trip_witness :
    (show_freq_attr_default_controls ex_env lowered_world ex_policy).2.1 =
      "8:3 6:2 4:1 \n".toList ∧
    control_values lowered_world 0 = [0x0802, 0x0602, 0x0400] ∧
    ∃ (ret : Int) (w1 : World),
      store_freq_attr_controls ex_env
        (show_freq_attr_default_controls ex_env lowered_world ex_policy).2.2 ex_policy
        (show_freq_attr_default_controls ex_env lowered_world ex_policy).2.1 = some (ret, w1) ∧
      control_values w1 0 = [0x0803, 0x0602, 0x0401] := by
  refine ⟨by decide, by decide, ?_⟩
  obtain ⟨ret, w1, d1, perf1, h1, -, -, -, -⟩ :=
    default_controls_round_trip ex_env ex_env lowered_world ex_policy lowered_data
      { ex_perf with states := lowered_states }
      [0x0803, 0x0602, 0x0401] ex_table rfl rfl rfl rfl
      ⟨_, rfl, Or.inr ⟨rfl, by
        refine List.Forall₂.cons ?_ (List.Forall₂.cons ?_ (List.Forall₂.cons ?_ List.Forall₂.nil))
        all_goals exact ⟨by decide, by decide⟩⟩⟩
      (fun _ => rfl) (by decide) (by decide)
  refine ⟨ret, w1, h1, ?_⟩
  have hc : (store_freq_attr_controls ex_env
      (show_freq_attr_default_controls ex_env lowered_world ex_policy).2.2 ex_policy
      (show_freq_attr_default_controls ex_env lowered_world ex_policy).2.1).map
      (fun r => control_values r.2 0) = some [0x0803, 0x0602, 0x0401] := by decide
  rw [h1] at hc
  simpa using hc

end AcpiCpufreq
